import Mathlib

/-!
# Scoring of reputers, inferers and forecasters

A shallow embedding of `x/emissions/module/rewards/scores.go` (the bundle normalizer
`ensureWorkerPresence` and the scorers `GenerateReputerScores`,
`GenerateInferenceScores`, `GenerateForecastScores`) and the properties of the
normalizer and of the three scorers: what they return, what they leave in the store,
and how they fail.

Conventions of the embedding

* Go slices are lists; `append(values, x)` is `values ++ [x]`.
* The decimal type `alloraMath.Dec`, the address type `sdk.AccAddress` and the keeper
  live outside the embedded file, as do the helper functions of the package that
  scores.go calls. They are taken as parameters (`DecOps`, `AddrOps`, `Keeper`,
  `ForecastOps`, `ReputerOps`), so every theorem holds for whatever they compute.
* A Go `map[string]struct{}` is the duplicate-free list of its keys. A `range` over a
  map visits every key once, in an order the language leaves open; the order of each
  executed `range` statement is a parameter (`RangeOrder`).
* A Go function returning `(result, error)` returns an `Outcome`; a run-time panic
  (index out of range) is the outcome `panicked`.
* The messages hold their sub-messages as values. The normalizer is embedded a second
  time on pointers that can be nil (`ensureWorkerPresencePtr`), where a nil pointer
  dereference is the result `none`; on pointers that are not nil the two embeddings
  agree.
-/

set_option linter.dupNamespace false

namespace Rewards

/-! ## Data model (package `types`) -/

/-- Message `types.WorkerAttributedValue`: a loss attributed to a worker. -/
structure WorkerAttributedValue (Dec : Type) where
  Worker : String
  Value : Dec
deriving DecidableEq, Repr

/-- Message `types.WithheldWorkerAttributedValue`: the loss when a worker is withheld. -/
structure WithheldWorkerAttributedValue (Dec : Type) where
  Worker : String
  Value : Dec
deriving DecidableEq, Repr

/-- Message `types.Nonce`. -/
structure Nonce where
  BlockHeight : Int
deriving DecidableEq, Repr

/-- Message `types.ReputerRequestNonce`. -/
structure ReputerRequestNonce where
  ReputerNonce : Option Nonce
  WorkerNonce : Option Nonce
deriving DecidableEq, Repr

/-- Message `types.ValueBundle`, with the fields the test suite fills in. -/
structure ValueBundle (Dec : Type) where
  TopicId : Nat
  Reputer : String
  CombinedValue : Dec
  InfererValues : List (WorkerAttributedValue Dec)
  ForecasterValues : List (WorkerAttributedValue Dec)
  NaiveValue : Dec
  OneOutInfererValues : List (WithheldWorkerAttributedValue Dec)
  OneOutForecasterValues : List (WithheldWorkerAttributedValue Dec)
  OneInForecasterValues : List (WorkerAttributedValue Dec)
  ReputerRequestNonce : Option ReputerRequestNonce
deriving DecidableEq, Repr

/-- Message `types.ReputerValueBundle`: a signed value bundle of one reputer. The field
`ValueBundle` is a pointer in Go; it is held by value here, which stands for a
pointer that is not nil (`ReputerValueBundlePtr` below holds it as a pointer). -/
structure ReputerValueBundle (Dec : Type) where
  ValueBundle : ValueBundle Dec
  Signature : List Nat
  Pubkey : String
deriving DecidableEq, Repr

/-- Message `types.ReputerValueBundles`. Its list holds pointers in Go; the bundles
are held by value here (`ReputerValueBundlesPtr` below holds them as pointers). -/
structure ReputerValueBundles (Dec : Type) where
  ReputerValueBundles : List (ReputerValueBundle Dec)
deriving DecidableEq, Repr

/-- Message `types.Score`. -/
structure Score (Dec : Type) where
  TopicId : Nat
  BlockNumber : Int
  Address : String
  Score : Dec
deriving DecidableEq, Repr

/-! ## External packages, taken as parameters -/

/-- Go `error` values: a root error, or `errors.Wrapf(err, msg)`. -/
inductive Error where
  | root (msg : String)
  | Wrapf (err : Error) (msg : String)
deriving DecidableEq, Repr

/-- The operations of `alloraMath.Dec` that scores.go calls. -/
structure DecOps (Dec : Type) where
  NewNaN : Dec
  ZeroDec : Dec
  NewDecFromInt64 : Int → Dec
  NewDecFromSdkUint : Nat → Except Error Dec
  Sub : Dec → Dec → Except Error Dec

/-- The operations of `sdk.AccAddress` that scores.go calls: decoding an address
string, and `addr.String()`. -/
structure AddrOps (Addr : Type) where
  AccAddressFromBech32 : String → Except Error Addr
  String : Addr → String

/-- Message `types.ListeningCoefficient`. -/
structure ListeningCoefficient (Dec : Type) where
  Coefficient : Dec
deriving DecidableEq, Repr

/-- The fields of `types.Params` that scores.go reads. -/
structure Params (Dec : Type) where
  LearningRate : Dec
  GradientDescentMaxIters : Nat
deriving DecidableEq, Repr

/-- The keeper methods that scores.go calls, on a store of type `σ`. A method that
returns an error leaves the store as it was. -/
structure Keeper (σ Dec Addr : Type) where
  GetStakeOnReputerInTopic : σ → Nat → Addr → Except Error Nat
  GetListeningCoefficient : σ → Nat → Addr → Except Error (ListeningCoefficient Dec)
  GetParams : σ → Except Error (Params Dec)
  SetListeningCoefficient : σ → Nat → Addr → ListeningCoefficient Dec → Except Error σ
  InsertReputerScore : σ → Nat → Int → Score Dec → Except Error σ
  SetLatestReputerScore : σ → Nat → Addr → Score Dec → Except Error σ
  InsertWorkerInferenceScore : σ → Nat → Int → Score Dec → Except Error σ
  SetLatestInfererScore : σ → Nat → Addr → Score Dec → Except Error σ
  InsertWorkerForecastScore : σ → Nat → Int → Score Dec → Except Error σ
  SetLatestForecasterScore : σ → Nat → Addr → Score Dec → Except Error σ

/-- The functions of package `rewards` that `GenerateForecastScores` calls and that
are defined in other files of the package. -/
structure ForecastOps (Dec : Type) where
  GetfUniqueAgg : Dec → Except Error Dec
  GetFinalWorkerScoreForecastTask : Dec → Dec → Dec → Except Error Dec

/-- The functions of package `rewards` that `GenerateReputerScores` calls and that
are defined in other files of the package. -/
structure ReputerOps (Dec : Type) where
  ExtractValues : ValueBundle Dec → List Dec
  GetAllReputersOutput :
    List (List Dec) → List Dec → List Dec → Int → Dec → Nat →
      Except Error (List Dec × List Dec)

/-- What a Go function of result type `(α, error)` does: it returns a value and an
error (`none` for `nil`), or it panics. -/
inductive Outcome (α : Type) where
  | returned (value : α) (err : Option Error)
  | panicked
deriving DecidableEq, Repr

/-! ## Go maps used as sets -/

/-- Statement `m[k] = struct{}{}` on a `map[string]struct{}`, the map being the list
of its keys, each once. -/
def mapSet (m : List String) (k : String) : List String :=
  if k ∈ m then m else m ++ [k]

/-- Visiting orders of the `range` statements over maps: `ρ n keys` is the order in
which the `n`-th executed `for k := range m` visits the keys `keys` of `m`. -/
abbrev RangeOrder := Nat → List String → List String

/-- What Go guarantees of a `range` over a map: every key is visited exactly once. -/
def RangeOrder.Valid (ρ : RangeOrder) : Prop :=
  ∀ n keys, (ρ n keys).Perm keys

/-! ## The bundle normalizer -/

/-- Function `EnsureAllWorkersPresent` of scores.go. `visit` is the order in which
its `range allWorkers` visits the keys. -/
def EnsureAllWorkersPresent {Dec : Type} (D : DecOps Dec) (visit : List String → List String)
    (values : List (WorkerAttributedValue Dec)) (allWorkers : List String) :
    List (WorkerAttributedValue Dec) :=
  let foundWorkers := values.map (fun value => value.Worker)
  (visit allWorkers).foldl
    (fun values worker =>
      if worker ∉ foundWorkers then
        values ++ [{ Worker := worker, Value := D.NewNaN }]
      else values)
    values

/-- Function `EnsureAllWorkersPresentWithheld` of scores.go. -/
def EnsureAllWorkersPresentWithheld {Dec : Type} (D : DecOps Dec)
    (visit : List String → List String)
    (values : List (WithheldWorkerAttributedValue Dec)) (allWorkers : List String) :
    List (WithheldWorkerAttributedValue Dec) :=
  let foundWorkers := values.map (fun value => value.Worker)
  (visit allWorkers).foldl
    (fun values worker =>
      if worker ∉ foundWorkers then
        values ++ [{ Worker := worker, Value := D.NewNaN }]
      else values)
    values

/-- Body of the first loop of `ensureWorkerPresence`: the keys of one bundle are
put into the three key sets, one per category (one-out inferer, one-out forecaster,
one-in forecaster). -/
def collectStep {Dec : Type} (all : List String × List String × List String)
    (bundle : ReputerValueBundle Dec) : List String × List String × List String :=
  (bundle.ValueBundle.OneOutInfererValues.foldl
      (fun m workerValue => mapSet m workerValue.Worker) all.1,
   bundle.ValueBundle.OneOutForecasterValues.foldl
      (fun m workerValue => mapSet m workerValue.Worker) all.2.1,
   bundle.ValueBundle.OneInForecasterValues.foldl
      (fun m workerValue => mapSet m workerValue.Worker) all.2.2)

/-- First loop of `ensureWorkerPresence`: the three key sets
`allWorkersOneOutInferer`, `allWorkersOneOutForecaster`, `allWorkersOneInForecaster`. -/
def collectWorkers {Dec : Type} (bundles : List (ReputerValueBundle Dec)) :
    List String × List String × List String :=
  bundles.foldl collectStep ([], [], [])

/-- Body of the second loop of `ensureWorkerPresence`. `n` counts the `range`
statements over maps executed so far; the body executes three. -/
def padBundle {Dec : Type} (D : DecOps Dec) (ρ : RangeOrder)
    (allWorkersOneOutInferer allWorkersOneOutForecaster allWorkersOneInForecaster : List String)
    (n : Nat) (bundle : ReputerValueBundle Dec) : ReputerValueBundle Dec :=
  { bundle with
    ValueBundle :=
      { bundle.ValueBundle with
        OneOutInfererValues :=
          EnsureAllWorkersPresentWithheld D (ρ n)
            bundle.ValueBundle.OneOutInfererValues allWorkersOneOutInferer
        OneOutForecasterValues :=
          EnsureAllWorkersPresentWithheld D (ρ (n + 1))
            bundle.ValueBundle.OneOutForecasterValues allWorkersOneOutForecaster
        OneInForecasterValues :=
          EnsureAllWorkersPresent D (ρ (n + 2))
            bundle.ValueBundle.OneInForecasterValues allWorkersOneInForecaster } }

/-- Second loop of `ensureWorkerPresence`, from the `n`-th `range` over a map on. -/
def padBundles {Dec : Type} (D : DecOps Dec) (ρ : RangeOrder)
    (allWorkersOneOutInferer allWorkersOneOutForecaster allWorkersOneInForecaster : List String) :
    Nat → List (ReputerValueBundle Dec) → List (ReputerValueBundle Dec)
  | _, [] => []
  | n, bundle :: rest =>
    padBundle D ρ allWorkersOneOutInferer allWorkersOneOutForecaster
        allWorkersOneInForecaster n bundle ::
      padBundles D ρ allWorkersOneOutInferer allWorkersOneOutForecaster
        allWorkersOneInForecaster (n + 3) rest

/-- Function `ensureWorkerPresence` of scores.go. -/
def ensureWorkerPresence {Dec : Type} (D : DecOps Dec) (ρ : RangeOrder)
    (reportedLosses : ReputerValueBundles Dec) : ReputerValueBundles Dec :=
  let all := collectWorkers reportedLosses.ReputerValueBundles
  { reportedLosses with
    ReputerValueBundles :=
      padBundles D ρ all.1 all.2.1 all.2.2 0 reportedLosses.ReputerValueBundles }

/-! ## The inference scorer -/

/-- The loop of `GenerateInferenceScores` over `networkLosses.OneOutInfererValues`:
the entries still to visit, the scores appended so far, the store. -/
def inferenceLoop {σ Dec Addr : Type} (D : DecOps Dec) (A : AddrOps Addr)
    (keeper : Keeper σ Dec Addr) (topicId : Nat) (block : Int)
    (networkLosses : ValueBundle Dec) :
    List (WithheldWorkerAttributedValue Dec) → List (Score Dec) → σ →
      Outcome (List (Score Dec)) × σ
  | [], newScores, ctx => (.returned newScores none, ctx)
  | oneOutLoss :: rest, newScores, ctx =>
    match A.AccAddressFromBech32 oneOutLoss.Worker with
    | .error err => (.returned [] (some err), ctx)
    | .ok workerAddr =>
    match D.Sub networkLosses.CombinedValue oneOutLoss.Value with
    | .error err => (.returned [] (some (.Wrapf err "Error getting worker score")), ctx)
    | .ok workerNewScore =>
    let newScore : Score Dec :=
      { TopicId := topicId, BlockNumber := block,
        Address := A.String workerAddr, Score := workerNewScore }
    match keeper.InsertWorkerInferenceScore ctx topicId block newScore with
    | .error err =>
      (.returned [] (some (.Wrapf err "Error inserting worker inference score")), ctx)
    | .ok ctx1 =>
    match keeper.SetLatestInfererScore ctx1 topicId workerAddr newScore with
    | .error err =>
      (.returned [] (some (.Wrapf err "error setting latest inferer score")), ctx1)
    | .ok ctx2 =>
      inferenceLoop D A keeper topicId block networkLosses rest (newScores ++ [newScore]) ctx2

/-- Function `GenerateInferenceScores` of scores.go: the outcome of the call and the
store it leaves. -/
def GenerateInferenceScores {σ Dec Addr : Type} (D : DecOps Dec) (A : AddrOps Addr)
    (keeper : Keeper σ Dec Addr) (ctx : σ) (topicId : Nat) (block : Int)
    (networkLosses : ValueBundle Dec) : Outcome (List (Score Dec)) × σ :=
  if networkLosses.InfererValues.length = 1 then
    match networkLosses.InfererValues[0]? with
    | none => (.panicked, ctx)
    | some first =>
    let newScore : Score Dec :=
      { TopicId := topicId, BlockNumber := block,
        Address := first.Worker, Score := D.ZeroDec }
    match keeper.InsertWorkerInferenceScore ctx topicId block newScore with
    | .error err =>
      (.returned [] (some (.Wrapf err "Error inserting worker inference score")), ctx)
    | .ok ctx1 => (.returned ([] ++ [newScore]) none, ctx1)
  else
    inferenceLoop D A keeper topicId block networkLosses
      networkLosses.OneOutInfererValues [] ctx

/-! ## The forecast scorer -/

/-- The first loop of `GenerateForecastScores`, over
`networkLosses.OneOutForecasterValues`: the one-out scores appended so far. -/
def oneOutLoop {Dec : Type} (D : DecOps Dec) (networkLosses : ValueBundle Dec) :
    List (WithheldWorkerAttributedValue Dec) → List Dec → Except Error (List Dec)
  | [], workersScoresOneOut => .ok workersScoresOneOut
  | oneOutLoss :: rest, workersScoresOneOut =>
    match D.Sub networkLosses.CombinedValue oneOutLoss.Value with
    | .error err => .error (.Wrapf err "Error getting worker score")
    | .ok workerScore => oneOutLoop D networkLosses rest (workersScoresOneOut ++ [workerScore])

/-- The second loop of `GenerateForecastScores`, over
`networkLosses.OneInForecasterValues`: the index `i` of the entry visited next, the
entries still to visit, the scores appended so far, the store. -/
def forecastLoop {σ Dec Addr : Type} (D : DecOps Dec) (A : AddrOps Addr)
    (R : ForecastOps Dec) (keeper : Keeper σ Dec Addr) (topicId : Nat) (block : Int)
    (networkLosses : ValueBundle Dec) (workersScoresOneOut : List Dec) (fUniqueAgg : Dec) :
    Nat → List (WorkerAttributedValue Dec) → List (Score Dec) → σ →
      Outcome (List (Score Dec)) × σ
  | _, [], newScores, ctx => (.returned newScores none, ctx)
  | i, oneInNaiveLoss :: rest, newScores, ctx =>
    match A.AccAddressFromBech32 oneInNaiveLoss.Worker with
    | .error err => (.returned [] (some err), ctx)
    | .ok workerAddr =>
    match D.Sub oneInNaiveLoss.Value networkLosses.NaiveValue with
    | .error err => (.returned [] (some (.Wrapf err "Error getting worker score")), ctx)
    | .ok workerScoreOneIn =>
    match workersScoresOneOut[i]? with
    | none => (.panicked, ctx)
    | some workerScoreOneOut =>
    match R.GetFinalWorkerScoreForecastTask workerScoreOneIn workerScoreOneOut fUniqueAgg with
    | .error err =>
      (.returned [] (some (.Wrapf err "Error getting final worker score forecast task")), ctx)
    | .ok workerFinalScore =>
    let newScore : Score Dec :=
      { TopicId := topicId, BlockNumber := block,
        Address := A.String workerAddr, Score := workerFinalScore }
    match keeper.InsertWorkerForecastScore ctx topicId block newScore with
    | .error err =>
      (.returned [] (some (.Wrapf err "Error inserting worker forecast score")), ctx)
    | .ok ctx1 =>
    match keeper.SetLatestForecasterScore ctx1 topicId workerAddr newScore with
    | .error err =>
      (.returned [] (some (.Wrapf err "Error setting latest forecaster score")), ctx1)
    | .ok ctx2 =>
      forecastLoop D A R keeper topicId block networkLosses workersScoresOneOut fUniqueAgg
        (i + 1) rest (newScores ++ [newScore]) ctx2

/-- Function `GenerateForecastScores` of scores.go: the outcome of the call and the
store it leaves. -/
def GenerateForecastScores {σ Dec Addr : Type} (D : DecOps Dec) (A : AddrOps Addr)
    (R : ForecastOps Dec) (keeper : Keeper σ Dec Addr) (ctx : σ) (topicId : Nat) (block : Int)
    (networkLosses : ValueBundle Dec) : Outcome (List (Score Dec)) × σ :=
  if networkLosses.ForecasterValues.length = 1 then
    match networkLosses.InfererValues[0]? with
    | none => (.panicked, ctx)
    | some first =>
    let newScore : Score Dec :=
      { TopicId := topicId, BlockNumber := block,
        Address := first.Worker, Score := D.ZeroDec }
    match keeper.InsertWorkerInferenceScore ctx topicId block newScore with
    | .error err =>
      (.returned [] (some (.Wrapf err "Error inserting worker inference score")), ctx)
    | .ok ctx1 => (.returned ([] ++ [newScore]) none, ctx1)
  else
    match oneOutLoop D networkLosses networkLosses.OneOutForecasterValues [] with
    | .error err => (.returned [] (some err), ctx)
    | .ok workersScoresOneOut =>
    let numForecasters : Int := workersScoresOneOut.length
    match R.GetfUniqueAgg (D.NewDecFromInt64 numForecasters) with
    | .error err => (.returned [] (some (.Wrapf err "Error getting fUniqueAgg")), ctx)
    | .ok fUniqueAgg =>
      forecastLoop D A R keeper topicId block networkLosses workersScoresOneOut fUniqueAgg
        0 networkLosses.OneInForecasterValues [] ctx

/-! ## The reputer scorer -/

/-- The four slices that the first loop of `GenerateReputerScores` fills. -/
structure ReputerData (Dec Addr : Type) where
  reputerAddresses : List Addr
  reputerStakes : List Dec
  reputerListeningCoefficients : List Dec
  losses : List (List Dec)

/-- The first loop of `GenerateReputerScores`, over the normalized bundles: it reads
the store and writes nothing. -/
def fetchReputers {σ Dec Addr : Type} (D : DecOps Dec) (A : AddrOps Addr) (R : ReputerOps Dec)
    (keeper : Keeper σ Dec Addr) (ctx : σ) (topicId : Nat) :
    List (ReputerValueBundle Dec) → ReputerData Dec Addr → Except Error (ReputerData Dec Addr)
  | [], data => .ok data
  | reportedLoss :: rest, data =>
    match A.AccAddressFromBech32 reportedLoss.ValueBundle.Reputer with
    | .error err => .error err
    | .ok reputerAddr =>
    match keeper.GetStakeOnReputerInTopic ctx topicId reputerAddr with
    | .error err => .error (.Wrapf err "Error getting GetStakeOnReputerInTopic")
    | .ok reputerStake =>
    match D.NewDecFromSdkUint reputerStake with
    | .error err => .error (.Wrapf err "Error converting reputer stake to Dec")
    | .ok reputerStakeDec =>
    match keeper.GetListeningCoefficient ctx topicId reputerAddr with
    | .error err => .error (.Wrapf err "Error getting GetListeningCoefficient")
    | .ok res =>
      fetchReputers D A R keeper ctx topicId rest
        { reputerAddresses := data.reputerAddresses ++ [reputerAddr]
          reputerStakes := data.reputerStakes ++ [reputerStakeDec]
          reputerListeningCoefficients :=
            data.reputerListeningCoefficients ++ [res.Coefficient]
          losses := data.losses ++ [R.ExtractValues reportedLoss.ValueBundle] }

/-- The second loop of `GenerateReputerScores`, over `reputerAddresses`: the index `i`
of the address visited next, the addresses still to visit, the scores appended so
far, the store. -/
def insertReputerScores {σ Dec Addr : Type} (A : AddrOps Addr) (keeper : Keeper σ Dec Addr)
    (topicId : Nat) (block : Int) (scores newCoefficients : List Dec) :
    Nat → List Addr → List (Score Dec) → σ → Outcome (List (Score Dec)) × σ
  | _, [], newScores, ctx => (.returned newScores none, ctx)
  | i, reputerAddr :: rest, newScores, ctx =>
    match newCoefficients[i]? with
    | none => (.panicked, ctx)
    | some newCoefficient =>
    match keeper.SetListeningCoefficient ctx topicId reputerAddr
        { Coefficient := newCoefficient } with
    | .error err =>
      (.returned [] (some (.Wrapf err "Error setting listening coefficient")), ctx)
    | .ok ctx1 =>
    match scores[i]? with
    | none => (.panicked, ctx1)
    | some score =>
    let newScore : Score Dec :=
      { TopicId := topicId, BlockNumber := block,
        Address := A.String reputerAddr, Score := score }
    match keeper.InsertReputerScore ctx1 topicId block newScore with
    | .error err => (.returned [] (some (.Wrapf err "Error inserting reputer score")), ctx1)
    | .ok ctx2 =>
    match keeper.SetLatestReputerScore ctx2 topicId reputerAddr newScore with
    | .error err =>
      (.returned [] (some (.Wrapf err "Error setting latest reputer score")), ctx2)
    | .ok ctx3 =>
      insertReputerScores A keeper topicId block scores newCoefficients
        (i + 1) rest (newScores ++ [newScore]) ctx3

/-- Function `GenerateReputerScores` of scores.go: the outcome of the call and the
store it leaves. `ρ` gives the orders of the map iterations of the normalizer. -/
def GenerateReputerScores {σ Dec Addr : Type} (D : DecOps Dec) (A : AddrOps Addr)
    (R : ReputerOps Dec) (keeper : Keeper σ Dec Addr) (ρ : RangeOrder) (ctx : σ)
    (topicId : Nat) (block : Int) (reportedLosses : ReputerValueBundles Dec) :
    Outcome (List (Score Dec)) × σ :=
  let reportedLosses := ensureWorkerPresence D ρ reportedLosses
  match fetchReputers D A R keeper ctx topicId reportedLosses.ReputerValueBundles
      { reputerAddresses := [], reputerStakes := [], reputerListeningCoefficients := [],
        losses := [] } with
  | .error err => (.returned [] (some err), ctx)
  | .ok data =>
  match keeper.GetParams ctx with
  | .error err => (.returned [] (some (.Wrapf err "Error getting GetParams")), ctx)
  | .ok params =>
  match R.GetAllReputersOutput data.losses data.reputerStakes
      data.reputerListeningCoefficients (data.reputerStakes.length : Int)
      params.LearningRate params.GradientDescentMaxIters with
  | .error err => (.returned [] (some (.Wrapf err "Error getting GetAllReputersOutput")), ctx)
  | .ok (scores, newCoefficients) =>
    insertReputerScores A keeper topicId block scores newCoefficients
      0 data.reputerAddresses [] ctx

/-! ## A concrete instance for evaluation -/

/-- Modelled from the spec: the decimal primitive, which scores.go imports from the
package `math` of the repository. Integers stand for the decimals, `none` for the
not-a-number sentinel; subtraction is exact and never reports an error. -/
def intDec : DecOps (Option Int) where
  NewNaN := none
  ZeroDec := some 0
  NewDecFromInt64 := fun n => some n
  NewDecFromSdkUint := fun n => .ok (some (n : Int))
  Sub := fun x y =>
    match x, y with
    | some a, some b => .ok (some (a - b))
    | _, _ => .ok none

/-- A range order that visits the keys in insertion order. -/
def inOrder : RangeOrder := fun _ keys => keys

/-- A range order that visits the keys in reverse insertion order. -/
def reversed : RangeOrder := fun _ keys => keys.reverse

/-- A reputer bundle shaped like the one of the message-server test (combined and
naive value 100, one inferer, one forecaster), with the three padded lists given. -/
def sampleBundle (reputer : String)
    (oneOutInferer oneOutForecaster : List (WithheldWorkerAttributedValue (Option Int)))
    (oneInForecaster : List (WorkerAttributedValue (Option Int))) :
    ReputerValueBundle (Option Int) :=
  { ValueBundle :=
      { TopicId := 0
        Reputer := reputer
        CombinedValue := some 100
        InfererValues := [{ Worker := "worker", Value := some 100 }]
        ForecasterValues := [{ Worker := "worker", Value := some 100 }]
        NaiveValue := some 100
        OneOutInfererValues := oneOutInferer
        OneOutForecasterValues := oneOutForecaster
        OneInForecasterValues := oneInForecaster
        ReputerRequestNonce :=
          some { ReputerNonce := some { BlockHeight := 2 },
                 WorkerNonce := some { BlockHeight := 1 } } }
    Signature := []
    Pubkey := "" }

/-- Two reputers: the first reports on worker `x` only, the second on worker `y`
only, and only the second reports one-out forecaster losses (for `a` and `b`). -/
def twoReputers : ReputerValueBundles (Option Int) :=
  { ReputerValueBundles :=
      [ sampleBundle "r1" [{ Worker := "x", Value := some 1 }] []
          [{ Worker := "x", Value := some 1 }],
        sampleBundle "r2" [{ Worker := "y", Value := some 2 }]
          [{ Worker := "a", Value := some 3 }, { Worker := "b", Value := some 4 }]
          [{ Worker := "y", Value := some 2 }] ] }

/-- Modelled from the spec: address encoding, which the spec leaves to an external
collaborator. In this instance an address string is well-formed when it is not
empty, and an address prints as the string it was read from. -/
def plainAddr : AddrOps String where
  AccAddressFromBech32 := fun s =>
    if s = "" then .error (.root "empty address string is not allowed") else .ok s
  String := fun addr => addr

/-- Modelled from the spec: the persisted state of the keeper, which is not part of
the embedded file. Stakes, listening coefficients and the latest score slots are
keyed by (topic, address); the three score histories are append-only lists of rows
keyed by (topic, block). -/
structure Store (Dec : Type) where
  stakes : List ((Nat × String) × Nat)
  listeningCoefficients : List ((Nat × String) × ListeningCoefficient Dec)
  params : Params Dec
  reputerScores : List ((Nat × Int) × Score Dec)
  infererScores : List ((Nat × Int) × Score Dec)
  forecasterScores : List ((Nat × Int) × Score Dec)
  latestReputerScores : List ((Nat × String) × Score Dec)
  latestInfererScores : List ((Nat × String) × Score Dec)
  latestForecasterScores : List ((Nat × String) × Score Dec)
deriving DecidableEq, Repr

/-- Reading a keyed slot. -/
def getSlot {κ α : Type} [DecidableEq κ] (slots : List (κ × α)) (key : κ) : Option α :=
  (slots.find? (fun entry => decide (entry.1 = key))).map (fun entry => entry.2)

/-- Overwriting a keyed slot. -/
def setSlot {κ α : Type} [DecidableEq κ] (slots : List (κ × α)) (key : κ) (value : α) :
    List (κ × α) :=
  (key, value) :: slots.filter (fun entry => decide (entry.1 ≠ key))

/-- Modelled from the spec: the keeper, which is not part of the embedded file. A
stake that is not found reads as zero, a listening coefficient that is not found
reads as `first`, an insert appends a history row, a set overwrites the slot; no
method reports an error. -/
def memKeeper {Dec : Type} (first : Dec) : Keeper (Store Dec) Dec String where
  GetStakeOnReputerInTopic := fun ctx topicId addr =>
    .ok ((getSlot ctx.stakes (topicId, addr)).getD 0)
  GetListeningCoefficient := fun ctx topicId addr =>
    .ok ((getSlot ctx.listeningCoefficients (topicId, addr)).getD { Coefficient := first })
  GetParams := fun ctx => .ok ctx.params
  SetListeningCoefficient := fun ctx topicId addr coefficient =>
    .ok { ctx with
      listeningCoefficients := setSlot ctx.listeningCoefficients (topicId, addr) coefficient }
  InsertReputerScore := fun ctx topicId block score =>
    .ok { ctx with reputerScores := ctx.reputerScores ++ [((topicId, block), score)] }
  SetLatestReputerScore := fun ctx topicId addr score =>
    .ok { ctx with
      latestReputerScores := setSlot ctx.latestReputerScores (topicId, addr) score }
  InsertWorkerInferenceScore := fun ctx topicId block score =>
    .ok { ctx with infererScores := ctx.infererScores ++ [((topicId, block), score)] }
  SetLatestInfererScore := fun ctx topicId addr score =>
    .ok { ctx with
      latestInfererScores := setSlot ctx.latestInfererScores (topicId, addr) score }
  InsertWorkerForecastScore := fun ctx topicId block score =>
    .ok { ctx with forecasterScores := ctx.forecasterScores ++ [((topicId, block), score)] }
  SetLatestForecasterScore := fun ctx topicId addr score =>
    .ok { ctx with
      latestForecasterScores := setSlot ctx.latestForecasterScores (topicId, addr) score }

/-- The keeper `memKeeper`, except that inserting an inference score fails with a
store error. -/
def failingInsertKeeper {Dec : Type} (first : Dec) : Keeper (Store Dec) Dec String :=
  { memKeeper first with
    InsertWorkerInferenceScore := fun _ _ _ _ => .error (.root "store: write failed") }

/-- A store with no stake, no coefficient and no score. -/
def emptyStore {Dec : Type} (learningRate : Dec) : Store Dec :=
  { stakes := [], listeningCoefficients := []
    params := { LearningRate := learningRate, GradientDescentMaxIters := 10 }
    reputerScores := [], infererScores := [], forecasterScores := []
    latestReputerScores := [], latestInfererScores := [], latestForecasterScores := [] }

/-- A consensus bundle with two inferers `w1` and `w2`: combined loss 100, loss 100
without `w1`, loss 90 without `w2`. -/
def twoInferers : ValueBundle (Option Int) :=
  { TopicId := 0
    Reputer := ""
    CombinedValue := some 100
    InfererValues := [{ Worker := "w1", Value := some 100 }, { Worker := "w2", Value := some 95 }]
    ForecasterValues := []
    NaiveValue := some 100
    OneOutInfererValues :=
      [{ Worker := "w1", Value := some 100 }, { Worker := "w2", Value := some 90 }]
    OneOutForecasterValues := []
    OneInForecasterValues := []
    ReputerRequestNonce := none }

/-- The value bundle of the message-server test: one worker, inferer and forecaster
at once, and every value 100. -/
def testValueBundle (workerAddr : String) : ValueBundle (Option Int) :=
  { TopicId := 0
    Reputer := "reputer"
    CombinedValue := some 100
    InfererValues := [{ Worker := workerAddr, Value := some 100 }]
    ForecasterValues := [{ Worker := workerAddr, Value := some 100 }]
    NaiveValue := some 100
    OneOutInfererValues := [{ Worker := workerAddr, Value := some 100 }]
    OneOutForecasterValues := [{ Worker := workerAddr, Value := some 100 }]
    OneInForecasterValues := [{ Worker := workerAddr, Value := some 100 }]
    ReputerRequestNonce :=
      some { ReputerNonce := some { BlockHeight := 2 },
             WorkerNonce := some { BlockHeight := 1 } } }

/-- Modelled from the spec: the decimal primitive and the functions `GetfUniqueAgg`
and `GetFinalWorkerScoreForecastTask`, which are defined outside the embedded file.
The spec gives them no formula (the weight is "a function of the number of
participating forecasters", the final score "combines the one-out score and the
one-in score", weighted). A decimal is kept as the term that computes it, so that a
score shows which losses it was computed from. -/
inductive DecTerm where
  | lit (n : Int)
  | nan
  | sub (x y : DecTerm)
  | fUniqueAgg (numForecasters : DecTerm)
  | finalScore (scoreOneIn scoreOneOut fUniqueAgg : DecTerm)
deriving DecidableEq, Repr

/-- Modelled from the spec: the decimal operations on terms; none reports an error. -/
def termDec : DecOps DecTerm where
  NewNaN := .nan
  ZeroDec := .lit 0
  NewDecFromInt64 := fun n => .lit n
  NewDecFromSdkUint := fun n => .ok (.lit n)
  Sub := fun x y => .ok (.sub x y)

/-- Modelled from the spec: the aggregation weight and the final forecast score, as
terms; neither reports an error. -/
def termForecast : ForecastOps DecTerm where
  GetfUniqueAgg := fun n => .ok (.fUniqueAgg n)
  GetFinalWorkerScoreForecastTask := fun scoreOneIn scoreOneOut fUniqueAgg =>
    .ok (.finalScore scoreOneIn scoreOneOut fUniqueAgg)

/-- A consensus bundle with two inferers and one forecaster, whose address differs
from the inferers' addresses. -/
def soleForecaster : ValueBundle DecTerm :=
  { TopicId := 0
    Reputer := ""
    CombinedValue := .lit 100
    InfererValues :=
      [{ Worker := "inferer1", Value := .lit 90 }, { Worker := "inferer2", Value := .lit 95 }]
    ForecasterValues := [{ Worker := "forecaster", Value := .lit 100 }]
    NaiveValue := .lit 100
    OneOutInfererValues :=
      [{ Worker := "inferer1", Value := .lit 110 }, { Worker := "inferer2", Value := .lit 105 }]
    OneOutForecasterValues := [{ Worker := "forecaster", Value := .lit 100 }]
    OneInForecasterValues := [{ Worker := "forecaster", Value := .lit 100 }]
    ReputerRequestNonce := none }

/-- A consensus bundle with two forecasters `a` and `b`, listed in the order `a`, `b`
among the one-out losses and in the order `oneIn` among the one-in losses. -/
def twoForecasters (oneIn : List (WorkerAttributedValue DecTerm)) : ValueBundle DecTerm :=
  { TopicId := 0
    Reputer := ""
    CombinedValue := .lit 100
    InfererValues := []
    ForecasterValues :=
      [{ Worker := "a", Value := .lit 1 }, { Worker := "b", Value := .lit 2 }]
    NaiveValue := .lit 50
    OneOutInfererValues := []
    OneOutForecasterValues :=
      [{ Worker := "a", Value := .lit 10 }, { Worker := "b", Value := .lit 20 }]
    OneInForecasterValues := oneIn
    ReputerRequestNonce := none }

/-- What C8 asks of a returned score `sc`: it is the final score of a worker of
`OneInForecasterValues`, computed from the one-in loss of that worker and from the
one-out loss that `OneOutForecasterValues` lists for the same worker. -/
def MatchedByWorker {Dec Addr : Type} (D : DecOps Dec) (A : AddrOps Addr) (R : ForecastOps Dec)
    (networkLosses : ValueBundle Dec) (sc : Score Dec) : Prop :=
  ∃ oneIn ∈ networkLosses.OneInForecasterValues,
  ∃ oneOut ∈ networkLosses.OneOutForecasterValues,
    oneOut.Worker = oneIn.Worker ∧
    (∃ a, A.AccAddressFromBech32 oneIn.Worker = .ok a ∧ sc.Address = A.String a) ∧
    ∃ scoreOneIn scoreOneOut fUniqueAgg,
      D.Sub oneIn.Value networkLosses.NaiveValue = .ok scoreOneIn ∧
      D.Sub networkLosses.CombinedValue oneOut.Value = .ok scoreOneOut ∧
      R.GetfUniqueAgg
        (D.NewDecFromInt64 (networkLosses.OneOutForecasterValues.length : Int))
          = .ok fUniqueAgg ∧
      R.GetFinalWorkerScoreForecastTask scoreOneIn scoreOneOut fUniqueAgg = .ok sc.Score

/-- Two forecasters whose one-in losses are listed in the order `b`, `a`, against
the order `a`, `b` of the one-out losses. -/
def crossedForecasters : ValueBundle DecTerm :=
  twoForecasters [{ Worker := "b", Value := .lit 5 }, { Worker := "a", Value := .lit 7 }]

/-- Two forecasters whose one-in losses are listed in the order `a`, `b` of the
one-out losses. -/
def alignedForecasters : ValueBundle DecTerm :=
  twoForecasters [{ Worker := "a", Value := .lit 7 }, { Worker := "b", Value := .lit 5 }]

/-! ## Further concrete inputs -/

/-- A consensus bundle whose only inferer has the empty string, a malformed address,
as its address; it reports no one-out loss. -/
def malformedSoleInferer : ValueBundle (Option Int) :=
  { TopicId := 0
    Reputer := ""
    CombinedValue := some 100
    InfererValues := [{ Worker := "", Value := some 100 }]
    ForecasterValues := []
    NaiveValue := some 100
    OneOutInfererValues := []
    OneOutForecasterValues := []
    OneInForecasterValues := []
    ReputerRequestNonce := none }

/-- The bundle `twoInferers`, the address of its second one-out entry replaced by
the empty string, a malformed address. -/
def secondWorkerMalformed : ValueBundle (Option Int) :=
  { twoInferers with
    OneOutInfererValues :=
      [{ Worker := "w1", Value := some 100 }, { Worker := "", Value := some 90 }] }

/-- Modelled from the spec: the functions `ExtractValues` and `GetAllReputersOutput`,
which are defined outside the embedded file. The row of a reputer holds its
"reported losses across all categories (combined + per-inferer + per-forecaster +
one-out + one-in)". Of the fitting the spec fixes the shape only, "one scalar score
per reputer, one updated listening coefficient per reputer"; this instance returns
the stake of a reputer as its score and the combined loss of its row as its new
coefficient. -/
def sampleReputerOps : ReputerOps (Option Int) where
  ExtractValues := fun bundle =>
    [bundle.CombinedValue] ++ bundle.InfererValues.map (fun value => value.Value) ++
      bundle.ForecasterValues.map (fun value => value.Value) ++
      bundle.OneOutInfererValues.map (fun value => value.Value) ++
      bundle.OneOutForecasterValues.map (fun value => value.Value) ++
      bundle.OneInForecasterValues.map (fun value => value.Value)
  GetAllReputersOutput := fun losses stakes _ _ _ _ =>
    .ok (stakes, losses.map (fun row => row.headD none))

/-- The collection `twoReputers`, the address of its second reputer replaced by the
empty string, a malformed address. -/
def secondReputerMalformed : ReputerValueBundles (Option Int) :=
  { ReputerValueBundles :=
      [ sampleBundle "r1" [{ Worker := "x", Value := some 1 }] []
          [{ Worker := "x", Value := some 1 }],
        sampleBundle "" [{ Worker := "y", Value := some 2 }] []
          [{ Worker := "y", Value := some 2 }] ] }

/-- The functions `termForecast`, except that the aggregation weight of zero
forecasters is an error. -/
def strictForecast : ForecastOps DecTerm :=
  { termForecast with
    GetfUniqueAgg := fun n =>
      if n = .lit 0 then .error (.root "fUniqueAgg of zero forecasters")
      else .ok (.fUniqueAgg n) }

/-- A consensus bundle with two inferers and no forecaster. -/
def noForecasters : ValueBundle DecTerm :=
  { TopicId := 0
    Reputer := ""
    CombinedValue := .lit 100
    InfererValues :=
      [{ Worker := "inferer1", Value := .lit 90 }, { Worker := "inferer2", Value := .lit 95 }]
    ForecasterValues := []
    NaiveValue := .lit 100
    OneOutInfererValues :=
      [{ Worker := "inferer1", Value := .lit 110 }, { Worker := "inferer2", Value := .lit 105 }]
    OneOutForecasterValues := []
    OneInForecasterValues := []
    ReputerRequestNonce := none }

/-- A consensus bundle with two inferers and two forecasters in which the second
one-out inferer entry and the second one-in forecaster entry have the empty string, a
malformed address, as their worker. -/
def secondEntriesMalformed : ValueBundle DecTerm :=
  { TopicId := 0
    Reputer := ""
    CombinedValue := .lit 100
    InfererValues := [{ Worker := "w1", Value := .lit 100 }, { Worker := "w2", Value := .lit 95 }]
    ForecasterValues := [{ Worker := "a", Value := .lit 1 }, { Worker := "b", Value := .lit 2 }]
    NaiveValue := .lit 50
    OneOutInfererValues :=
      [{ Worker := "w1", Value := .lit 100 }, { Worker := "", Value := .lit 90 }]
    OneOutForecasterValues :=
      [{ Worker := "a", Value := .lit 10 }, { Worker := "b", Value := .lit 20 }]
    OneInForecasterValues :=
      [{ Worker := "a", Value := .lit 7 }, { Worker := "", Value := .lit 5 }]
    ReputerRequestNonce := none }

/-- The store `emptyStore` after the forecast score of `a` in `secondEntriesMalformed`
was written: one history row and one latest slot. -/
def storeWithFirstForecaster : Store DecTerm :=
  { emptyStore (.lit 1) with
    forecasterScores :=
      [((0, 1), { TopicId := 0, BlockNumber := 1, Address := "a",
                  Score := .finalScore (.sub (.lit 7) (.lit 50)) (.sub (.lit 100) (.lit 10))
                    (.fUniqueAgg (.lit 2)) })]
    latestForecasterScores :=
      [((0, "a"), { TopicId := 0, BlockNumber := 1, Address := "a",
                    Score := .finalScore (.sub (.lit 7) (.lit 50)) (.sub (.lit 100) (.lit 10))
                      (.fUniqueAgg (.lit 2)) })] }

/-! ## Previous reward fractions (keeper and query server) -/

/-- Modelled from the spec: the reward fractions of the previous round, which the
keeper persists and the query server reads; neither is part of the embedded sources,
only the tests of the query server are. One slot per (topic, address), for reputers,
inferers and forecasters. -/
structure RewardFractions (Dec : Type) where
  previousReputerRewardFraction : List ((Nat × String) × Dec)
  previousInferenceRewardFraction : List ((Nat × String) × Dec)
  previousForecastRewardFraction : List ((Nat × String) × Dec)
deriving DecidableEq, Repr

/-- The response of the three queries for a previous reward fraction, with the two
fields the tests read. -/
structure QueryPreviousRewardFractionResponse (Dec : Type) where
  RewardFraction : Dec
  NotFound : Bool
deriving DecidableEq, Repr

/-- Modelled from the spec: the state before any reward fraction is set. -/
def noRewardFractions {Dec : Type} : RewardFractions Dec :=
  { previousReputerRewardFraction := [], previousInferenceRewardFraction := [],
    previousForecastRewardFraction := [] }

/-- Modelled from the spec: the keeper method `SetPreviousReputerRewardFraction`,
which is not part of the embedded sources. -/
def SetPreviousReputerRewardFraction {Dec : Type} (ctx : RewardFractions Dec) (topicId : Nat)
    (reputer : String) (reward : Dec) : RewardFractions Dec :=
  { ctx with
    previousReputerRewardFraction :=
      setSlot ctx.previousReputerRewardFraction (topicId, reputer) reward }

/-- Modelled from the spec: the keeper method `SetPreviousInferenceRewardFraction`,
which is not part of the embedded sources. -/
def SetPreviousInferenceRewardFraction {Dec : Type} (ctx : RewardFractions Dec) (topicId : Nat)
    (worker : String) (reward : Dec) : RewardFractions Dec :=
  { ctx with
    previousInferenceRewardFraction :=
      setSlot ctx.previousInferenceRewardFraction (topicId, worker) reward }

/-- Modelled from the spec: the keeper method `SetPreviousForecastRewardFraction`,
which is not part of the embedded sources. -/
def SetPreviousForecastRewardFraction {Dec : Type} (ctx : RewardFractions Dec) (topicId : Nat)
    (worker : String) (reward : Dec) : RewardFractions Dec :=
  { ctx with
    previousForecastRewardFraction :=
      setSlot ctx.previousForecastRewardFraction (topicId, worker) reward }

/-- Modelled from the spec: the query `GetPreviousReputerRewardFraction`, which is not
part of the embedded sources. A read returns "a sentinel not-found flag alongside a
zero value rather than a distinct error". -/
def GetPreviousReputerRewardFraction {Dec : Type} (D : DecOps Dec) (ctx : RewardFractions Dec)
    (topicId : Nat) (reputer : String) : QueryPreviousRewardFractionResponse Dec :=
  match getSlot ctx.previousReputerRewardFraction (topicId, reputer) with
  | some reward => { RewardFraction := reward, NotFound := false }
  | none => { RewardFraction := D.ZeroDec, NotFound := true }

/-- Modelled from the spec: the query `GetPreviousInferenceRewardFraction`, which is
not part of the embedded sources. -/
def GetPreviousInferenceRewardFraction {Dec : Type} (D : DecOps Dec)
    (ctx : RewardFractions Dec) (topicId : Nat) (worker : String) :
    QueryPreviousRewardFractionResponse Dec :=
  match getSlot ctx.previousInferenceRewardFraction (topicId, worker) with
  | some reward => { RewardFraction := reward, NotFound := false }
  | none => { RewardFraction := D.ZeroDec, NotFound := true }

/-- Modelled from the spec: the query `GetPreviousForecastRewardFraction`, which is
not part of the embedded sources. -/
def GetPreviousForecastRewardFraction {Dec : Type} (D : DecOps Dec)
    (ctx : RewardFractions Dec) (topicId : Nat) (worker : String) :
    QueryPreviousRewardFractionResponse Dec :=
  match getSlot ctx.previousForecastRewardFraction (topicId, worker) with
  | some reward => { RewardFraction := reward, NotFound := false }
  | none => { RewardFraction := D.ZeroDec, NotFound := true }

/-- A collection in which the first reputer lists the worker `x` twice among its
one-out inferer losses and the second reputer lists the worker `y`. -/
def duplicateKey : ReputerValueBundles (Option Int) :=
  { ReputerValueBundles :=
      [ sampleBundle "r1"
          [{ Worker := "x", Value := some 1 }, { Worker := "x", Value := some 2 }] [] [],
        sampleBundle "r2" [{ Worker := "y", Value := some 3 }] [] [] ] }

/-- The bundle `soleForecaster` without inferer: one forecaster, `InfererValues`
empty. -/
def soleForecasterNoInferer : ValueBundle DecTerm :=
  { soleForecaster with InfererValues := [] }

/-- Two forecasters with one-out losses and three one-in losses: the one-in list is
longer than the one-out list. -/
def threeOneInTwoOneOut : ValueBundle DecTerm :=
  twoForecasters
    [ { Worker := "a", Value := .lit 7 }, { Worker := "b", Value := .lit 5 },
      { Worker := "c", Value := .lit 3 } ]

/-! ## The bundle normalizer on pointers

The messages above hold their sub-messages as values. In Go the field `ValueBundle`
of a `ReputerValueBundle` and the entries of every list are pointers, which can be
nil, and `ensureWorkerPresence` reads through them. Here a pointer is `none` (nil) or
`some` of the message it points to, and a function returns `none` when it panics on
a nil pointer dereference. -/

/-- Message `types.ValueBundle`, its lists holding pointers (`[]*types.…`). -/
structure ValueBundlePtr (Dec : Type) where
  TopicId : Nat
  Reputer : String
  CombinedValue : Dec
  InfererValues : List (Option (WorkerAttributedValue Dec))
  ForecasterValues : List (Option (WorkerAttributedValue Dec))
  NaiveValue : Dec
  OneOutInfererValues : List (Option (WithheldWorkerAttributedValue Dec))
  OneOutForecasterValues : List (Option (WithheldWorkerAttributedValue Dec))
  OneInForecasterValues : List (Option (WorkerAttributedValue Dec))
  ReputerRequestNonce : Option ReputerRequestNonce
deriving DecidableEq, Repr

/-- Message `types.ReputerValueBundle`, its field `ValueBundle` a pointer
(`*types.ValueBundle`). -/
structure ReputerValueBundlePtr (Dec : Type) where
  ValueBundle : Option (ValueBundlePtr Dec)
  Signature : List Nat
  Pubkey : String
deriving DecidableEq, Repr

/-- Message `types.ReputerValueBundles`, its list holding pointers
(`[]*types.ReputerValueBundle`). -/
structure ReputerValueBundlesPtr (Dec : Type) where
  ReputerValueBundles : List (Option (ReputerValueBundlePtr Dec))
deriving DecidableEq, Repr

/-- A value bundle held by value, as Go holds it: every entry behind a pointer that
is not nil. -/
def valueBundlePtr {Dec : Type} (bundle : ValueBundle Dec) : ValueBundlePtr Dec :=
  { TopicId := bundle.TopicId
    Reputer := bundle.Reputer
    CombinedValue := bundle.CombinedValue
    InfererValues := bundle.InfererValues.map some
    ForecasterValues := bundle.ForecasterValues.map some
    NaiveValue := bundle.NaiveValue
    OneOutInfererValues := bundle.OneOutInfererValues.map some
    OneOutForecasterValues := bundle.OneOutForecasterValues.map some
    OneInForecasterValues := bundle.OneInForecasterValues.map some
    ReputerRequestNonce := bundle.ReputerRequestNonce }

/-- A reputer bundle held by value, as Go holds it: its value bundle behind a pointer
that is not nil. -/
def reputerValueBundlePtr {Dec : Type} (bundle : ReputerValueBundle Dec) :
    ReputerValueBundlePtr Dec :=
  { ValueBundle := some (valueBundlePtr bundle.ValueBundle)
    Signature := bundle.Signature
    Pubkey := bundle.Pubkey }

/-- A collection held by value, as Go holds it: no pointer of it is nil. -/
def reputerValueBundlesPtr {Dec : Type} (reportedLosses : ReputerValueBundles Dec) :
    ReputerValueBundlesPtr Dec :=
  { ReputerValueBundles :=
      reportedLosses.ReputerValueBundles.map (fun bundle => some (reputerValueBundlePtr bundle)) }

/-- Loop `for _, workerValue := range values { allWorkers[workerValue.Worker] =
struct{}{} }` of `ensureWorkerPresence`, on pointers: reading `workerValue.Worker`
panics when `workerValue` is nil. -/
def insertWorkersPtr {α : Type} (key : α → String) :
    List (Option α) → List String → Option (List String)
  | [], allWorkers => some allWorkers
  | none :: _, _ => none
  | some workerValue :: rest, allWorkers =>
    insertWorkersPtr key rest (mapSet allWorkers (key workerValue))

/-- First loop of `ensureWorkerPresence`, on pointers: reading `bundle.ValueBundle`
panics when `bundle` is nil, reading the lists of `bundle.ValueBundle` panics when
that pointer is nil. -/
def collectWorkersPtr {Dec : Type} :
    List (Option (ReputerValueBundlePtr Dec)) → List String × List String × List String →
      Option (List String × List String × List String)
  | [], all => some all
  | none :: _, _ => none
  | some bundle :: rest, all =>
    match bundle.ValueBundle with
    | none => none
    | some valueBundle =>
    match insertWorkersPtr (fun workerValue => workerValue.Worker)
        valueBundle.OneOutInfererValues all.1 with
    | none => none
    | some allWorkersOneOutInferer =>
    match insertWorkersPtr (fun workerValue => workerValue.Worker)
        valueBundle.OneOutForecasterValues all.2.1 with
    | none => none
    | some allWorkersOneOutForecaster =>
    match insertWorkersPtr (fun workerValue => workerValue.Worker)
        valueBundle.OneInForecasterValues all.2.2 with
    | none => none
    | some allWorkersOneInForecaster =>
      collectWorkersPtr rest
        (allWorkersOneOutInferer, allWorkersOneOutForecaster, allWorkersOneInForecaster)

/-- Loop `for _, value := range values { foundWorkers[value.Worker] = true }` of the
two padding functions, on pointers: reading `value.Worker` panics when `value` is
nil. -/
def foundWorkersPtr {α : Type} (key : α → String) :
    List (Option α) → List String → Option (List String)
  | [], foundWorkers => some foundWorkers
  | none :: _, _ => none
  | some value :: rest, foundWorkers => foundWorkersPtr key rest (foundWorkers ++ [key value])

/-- Function `EnsureAllWorkersPresent` of scores.go, on pointers. -/
def EnsureAllWorkersPresentPtr {Dec : Type} (D : DecOps Dec)
    (visit : List String → List String)
    (values : List (Option (WorkerAttributedValue Dec))) (allWorkers : List String) :
    Option (List (Option (WorkerAttributedValue Dec))) :=
  match foundWorkersPtr (fun value => value.Worker) values [] with
  | none => none
  | some foundWorkers =>
    some ((visit allWorkers).foldl
      (fun values worker =>
        if worker ∉ foundWorkers then
          values ++ [some { Worker := worker, Value := D.NewNaN }]
        else values)
      values)

/-- Function `EnsureAllWorkersPresentWithheld` of scores.go, on pointers. -/
def EnsureAllWorkersPresentWithheldPtr {Dec : Type} (D : DecOps Dec)
    (visit : List String → List String)
    (values : List (Option (WithheldWorkerAttributedValue Dec))) (allWorkers : List String) :
    Option (List (Option (WithheldWorkerAttributedValue Dec))) :=
  match foundWorkersPtr (fun value => value.Worker) values [] with
  | none => none
  | some foundWorkers =>
    some ((visit allWorkers).foldl
      (fun values worker =>
        if worker ∉ foundWorkers then
          values ++ [some { Worker := worker, Value := D.NewNaN }]
        else values)
      values)

/-- Second loop of `ensureWorkerPresence`, on pointers, from the `n`-th `range` over
a map on. -/
def padBundlesPtr {Dec : Type} (D : DecOps Dec) (ρ : RangeOrder)
    (allWorkersOneOutInferer allWorkersOneOutForecaster allWorkersOneInForecaster : List String) :
    Nat → List (Option (ReputerValueBundlePtr Dec)) →
      Option (List (Option (ReputerValueBundlePtr Dec)))
  | _, [] => some []
  | _, none :: _ => none
  | n, some bundle :: rest =>
    match bundle.ValueBundle with
    | none => none
    | some valueBundle =>
    match EnsureAllWorkersPresentWithheldPtr D (ρ n)
        valueBundle.OneOutInfererValues allWorkersOneOutInferer with
    | none => none
    | some oneOutInfererValues =>
    match EnsureAllWorkersPresentWithheldPtr D (ρ (n + 1))
        valueBundle.OneOutForecasterValues allWorkersOneOutForecaster with
    | none => none
    | some oneOutForecasterValues =>
    match EnsureAllWorkersPresentPtr D (ρ (n + 2))
        valueBundle.OneInForecasterValues allWorkersOneInForecaster with
    | none => none
    | some oneInForecasterValues =>
    match padBundlesPtr D ρ allWorkersOneOutInferer allWorkersOneOutForecaster
        allWorkersOneInForecaster (n + 3) rest with
    | none => none
    | some rest' =>
      some (some { bundle with
        ValueBundle := some { valueBundle with
          OneOutInfererValues := oneOutInfererValues
          OneOutForecasterValues := oneOutForecasterValues
          OneInForecasterValues := oneInForecasterValues } } :: rest')

/-- Function `ensureWorkerPresence` of scores.go, on pointers: the collection it
returns, or `none` when it panics on a nil pointer. -/
def ensureWorkerPresencePtr {Dec : Type} (D : DecOps Dec) (ρ : RangeOrder)
    (reportedLosses : ReputerValueBundlesPtr Dec) : Option (ReputerValueBundlesPtr Dec) :=
  match collectWorkersPtr reportedLosses.ReputerValueBundles ([], [], []) with
  | none => none
  | some all =>
    match padBundlesPtr D ρ all.1 all.2.1 all.2.2 0 reportedLosses.ReputerValueBundles with
    | none => none
    | some bundles => some { reportedLosses with ReputerValueBundles := bundles }

/-- A collection on pointers without nil pointer: no bundle is nil, no bundle has a
nil `ValueBundle`, and no list of a value bundle has a nil entry. -/
def NoNilPointer {Dec : Type} (reportedLosses : ReputerValueBundlesPtr Dec) : Prop :=
  ∀ entry ∈ reportedLosses.ReputerValueBundles,
    ∃ bundle valueBundle, entry = some bundle ∧ bundle.ValueBundle = some valueBundle ∧
      none ∉ valueBundle.InfererValues ∧ none ∉ valueBundle.ForecasterValues ∧
      none ∉ valueBundle.OneOutInfererValues ∧ none ∉ valueBundle.OneOutForecasterValues ∧
      none ∉ valueBundle.OneInForecasterValues

/-- A collection of two bundles in which the second bundle has no value bundle: its
pointer `ValueBundle` is nil. -/
def nilValueBundle : ReputerValueBundlesPtr (Option Int) :=
  { ReputerValueBundles :=
      [ some (reputerValueBundlePtr (sampleBundle "r1" [{ Worker := "x", Value := some 1 }] [] [])),
        some { ValueBundle := none, Signature := [], Pubkey := "" } ] }

/-! ## Two runs of the normalizer -/

/-- What two runs of a padding function on the list `submitted` have in common, when
they return the lists `run` and `run'`: both lists begin with the submitted entries,
in their order, the entries they add are rearrangements of one another, and the
values of the two lists are the same position by position. -/
def PaddedAlike {α Dec : Type} (value : α → Dec) (submitted run run' : List α) : Prop :=
  ∃ padding padding', run = submitted ++ padding ∧ run' = submitted ++ padding' ∧
    padding.Perm padding' ∧ run.map value = run'.map value

/-- Two value bundles that differ at most in the worker keys of their three padded
lists: every other field is the same, and the values of the three lists are the same
position by position. -/
def SameValues {Dec : Type} (bundle bundle' : ValueBundle Dec) : Prop :=
  bundle.TopicId = bundle'.TopicId ∧
  bundle.Reputer = bundle'.Reputer ∧
  bundle.CombinedValue = bundle'.CombinedValue ∧
  bundle.InfererValues = bundle'.InfererValues ∧
  bundle.ForecasterValues = bundle'.ForecasterValues ∧
  bundle.NaiveValue = bundle'.NaiveValue ∧
  bundle.OneOutInfererValues.map (fun value => value.Value)
    = bundle'.OneOutInfererValues.map (fun value => value.Value) ∧
  bundle.OneOutForecasterValues.map (fun value => value.Value)
    = bundle'.OneOutForecasterValues.map (fun value => value.Value) ∧
  bundle.OneInForecasterValues.map (fun value => value.Value)
    = bundle'.OneInForecasterValues.map (fun value => value.Value) ∧
  bundle.ReputerRequestNonce = bundle'.ReputerRequestNonce

/-! ## Error messages of the sub-steps -/

/-- The messages with which scores.go wraps the errors of its sub-steps, in the
order of the source. -/
def stepMessages : List String :=
  [ "Error getting GetStakeOnReputerInTopic",
    "Error converting reputer stake to Dec",
    "Error getting GetListeningCoefficient",
    "Error getting GetParams",
    "Error getting GetAllReputersOutput",
    "Error setting listening coefficient",
    "Error inserting reputer score",
    "Error setting latest reputer score",
    "Error getting worker score",
    "Error inserting worker inference score",
    "error setting latest inferer score",
    "Error getting fUniqueAgg",
    "Error getting final worker score forecast task",
    "Error inserting worker forecast score",
    "Error setting latest forecaster score" ]

/-- What C21 asks of a returned error: it is `errors.Wrapf(e, msg)` for the error `e`
of a sub-step and a message `msg` of scores.go that names the sub-step. -/
def Wrapped (err : Error) : Prop :=
  ∃ e msg, err = .Wrapf e msg ∧ msg ∈ stepMessages

/-! ## How a call fails

The sub-step at which a call of a scorer fails, the error that the sub-step reports
and the error that the call returns: the error of the address decoder as it is, the
error of every other sub-step wrapped with the message that scores.go gives to that
sub-step. -/

/-- The pass of the loop of `GenerateInferenceScores` on the entry `oneOutLoss`, from
the store `ctx`, fails and the call returns `err`. -/
def InferenceStepFails {σ Dec Addr : Type} (D : DecOps Dec) (A : AddrOps Addr)
    (keeper : Keeper σ Dec Addr) (topicId : Nat) (block : Int)
    (networkLosses : ValueBundle Dec) (oneOutLoss : WithheldWorkerAttributedValue Dec)
    (ctx : σ) (err : Error) : Prop :=
  A.AccAddressFromBech32 oneOutLoss.Worker = .error err ∨
  ∃ workerAddr, A.AccAddressFromBech32 oneOutLoss.Worker = .ok workerAddr ∧
    ((∃ e, D.Sub networkLosses.CombinedValue oneOutLoss.Value = .error e ∧
        err = .Wrapf e "Error getting worker score") ∨
     ∃ workerNewScore,
      D.Sub networkLosses.CombinedValue oneOutLoss.Value = .ok workerNewScore ∧
      ((∃ e,
          keeper.InsertWorkerInferenceScore ctx topicId block
            { TopicId := topicId, BlockNumber := block, Address := A.String workerAddr,
              Score := workerNewScore } = .error e ∧
          err = .Wrapf e "Error inserting worker inference score") ∨
       ∃ ctx1 e,
          keeper.InsertWorkerInferenceScore ctx topicId block
            { TopicId := topicId, BlockNumber := block, Address := A.String workerAddr,
              Score := workerNewScore } = .ok ctx1 ∧
          keeper.SetLatestInfererScore ctx1 topicId workerAddr
            { TopicId := topicId, BlockNumber := block, Address := A.String workerAddr,
              Score := workerNewScore } = .error e ∧
          err = .Wrapf e "error setting latest inferer score"))

/-- The call of `GenerateInferenceScores` fails and returns `err`: in the
single-inferer branch the insert of the zero score fails; on the general path the
entries before the `k`-th are scored without error and the pass on the `k`-th entry
fails. -/
def InferenceCallFails {σ Dec Addr : Type} (D : DecOps Dec) (A : AddrOps Addr)
    (keeper : Keeper σ Dec Addr) (ctx : σ) (topicId : Nat) (block : Int)
    (networkLosses : ValueBundle Dec) (err : Error) : Prop :=
  (networkLosses.InfererValues.length = 1 ∧
    ∃ first e, networkLosses.InfererValues[0]? = some first ∧
      keeper.InsertWorkerInferenceScore ctx topicId block
        { TopicId := topicId, BlockNumber := block, Address := first.Worker,
          Score := D.ZeroDec } = .error e ∧
      err = .Wrapf e "Error inserting worker inference score") ∨
  (networkLosses.InfererValues.length ≠ 1 ∧
    ∃ k oneOutLoss scoresK ctxK,
      networkLosses.OneOutInfererValues[k]? = some oneOutLoss ∧
      inferenceLoop D A keeper topicId block networkLosses
        (networkLosses.OneOutInfererValues.take k) [] ctx = (.returned scoresK none, ctxK) ∧
      InferenceStepFails D A keeper topicId block networkLosses oneOutLoss ctxK err)

/-- The pass of the second loop of `GenerateForecastScores` on the entry
`oneInNaiveLoss` at index `i`, from the store `ctx`, fails and the call returns
`err`. -/
def ForecastStepFails {σ Dec Addr : Type} (D : DecOps Dec) (A : AddrOps Addr)
    (R : ForecastOps Dec) (keeper : Keeper σ Dec Addr) (topicId : Nat) (block : Int)
    (networkLosses : ValueBundle Dec) (workersScoresOneOut : List Dec) (fUniqueAgg : Dec)
    (i : Nat) (oneInNaiveLoss : WorkerAttributedValue Dec) (ctx : σ) (err : Error) : Prop :=
  A.AccAddressFromBech32 oneInNaiveLoss.Worker = .error err ∨
  ∃ workerAddr, A.AccAddressFromBech32 oneInNaiveLoss.Worker = .ok workerAddr ∧
    ((∃ e, D.Sub oneInNaiveLoss.Value networkLosses.NaiveValue = .error e ∧
        err = .Wrapf e "Error getting worker score") ∨
     ∃ workerScoreOneIn workerScoreOneOut,
      D.Sub oneInNaiveLoss.Value networkLosses.NaiveValue = .ok workerScoreOneIn ∧
      workersScoresOneOut[i]? = some workerScoreOneOut ∧
      ((∃ e,
          R.GetFinalWorkerScoreForecastTask workerScoreOneIn workerScoreOneOut fUniqueAgg
            = .error e ∧
          err = .Wrapf e "Error getting final worker score forecast task") ∨
       ∃ workerFinalScore,
        R.GetFinalWorkerScoreForecastTask workerScoreOneIn workerScoreOneOut fUniqueAgg
          = .ok workerFinalScore ∧
        ((∃ e,
            keeper.InsertWorkerForecastScore ctx topicId block
              { TopicId := topicId, BlockNumber := block, Address := A.String workerAddr,
                Score := workerFinalScore } = .error e ∧
            err = .Wrapf e "Error inserting worker forecast score") ∨
         ∃ ctx1 e,
            keeper.InsertWorkerForecastScore ctx topicId block
              { TopicId := topicId, BlockNumber := block, Address := A.String workerAddr,
                Score := workerFinalScore } = .ok ctx1 ∧
            keeper.SetLatestForecasterScore ctx1 topicId workerAddr
              { TopicId := topicId, BlockNumber := block, Address := A.String workerAddr,
                Score := workerFinalScore } = .error e ∧
            err = .Wrapf e "Error setting latest forecaster score")))

/-- The call of `GenerateForecastScores` fails and returns `err`: in the
single-forecaster branch the insert of the zero score fails; on the general path a
subtraction of the first loop fails, or `GetfUniqueAgg` fails, or the entries of the
second loop before the `k`-th are scored without error and the pass on the `k`-th
entry fails. -/
def ForecastCallFails {σ Dec Addr : Type} (D : DecOps Dec) (A : AddrOps Addr)
    (R : ForecastOps Dec) (keeper : Keeper σ Dec Addr) (ctx : σ) (topicId : Nat) (block : Int)
    (networkLosses : ValueBundle Dec) (err : Error) : Prop :=
  (networkLosses.ForecasterValues.length = 1 ∧
    ∃ first e, networkLosses.InfererValues[0]? = some first ∧
      keeper.InsertWorkerInferenceScore ctx topicId block
        { TopicId := topicId, BlockNumber := block, Address := first.Worker,
          Score := D.ZeroDec } = .error e ∧
      err = .Wrapf e "Error inserting worker inference score") ∨
  (networkLosses.ForecasterValues.length ≠ 1 ∧
    ((∃ k oneOutLoss scoresK e,
        networkLosses.OneOutForecasterValues[k]? = some oneOutLoss ∧
        oneOutLoop D networkLosses (networkLosses.OneOutForecasterValues.take k) []
          = .ok scoresK ∧
        D.Sub networkLosses.CombinedValue oneOutLoss.Value = .error e ∧
        err = .Wrapf e "Error getting worker score") ∨
     ∃ workersScoresOneOut,
      oneOutLoop D networkLosses networkLosses.OneOutForecasterValues []
        = .ok workersScoresOneOut ∧
      ((∃ e,
          R.GetfUniqueAgg (D.NewDecFromInt64 (workersScoresOneOut.length : Int)) = .error e ∧
          err = .Wrapf e "Error getting fUniqueAgg") ∨
       ∃ fUniqueAgg,
        R.GetfUniqueAgg (D.NewDecFromInt64 (workersScoresOneOut.length : Int))
          = .ok fUniqueAgg ∧
        ∃ k oneInNaiveLoss scoresK ctxK,
          networkLosses.OneInForecasterValues[k]? = some oneInNaiveLoss ∧
          forecastLoop D A R keeper topicId block networkLosses workersScoresOneOut fUniqueAgg
            0 (networkLosses.OneInForecasterValues.take k) [] ctx
              = (.returned scoresK none, ctxK) ∧
          ForecastStepFails D A R keeper topicId block networkLosses workersScoresOneOut
            fUniqueAgg k oneInNaiveLoss ctxK err)))

/-- The pass of the first loop of `GenerateReputerScores` on the bundle
`reportedLoss` fails and the call returns `err`. -/
def ReputerFetchFails {σ Dec Addr : Type} (D : DecOps Dec) (A : AddrOps Addr)
    (keeper : Keeper σ Dec Addr) (ctx : σ) (topicId : Nat)
    (reportedLoss : ReputerValueBundle Dec) (err : Error) : Prop :=
  A.AccAddressFromBech32 reportedLoss.ValueBundle.Reputer = .error err ∨
  ∃ reputerAddr, A.AccAddressFromBech32 reportedLoss.ValueBundle.Reputer = .ok reputerAddr ∧
    ((∃ e, keeper.GetStakeOnReputerInTopic ctx topicId reputerAddr = .error e ∧
        err = .Wrapf e "Error getting GetStakeOnReputerInTopic") ∨
     ∃ reputerStake, keeper.GetStakeOnReputerInTopic ctx topicId reputerAddr = .ok reputerStake ∧
      ((∃ e, D.NewDecFromSdkUint reputerStake = .error e ∧
          err = .Wrapf e "Error converting reputer stake to Dec") ∨
       ∃ reputerStakeDec e, D.NewDecFromSdkUint reputerStake = .ok reputerStakeDec ∧
          keeper.GetListeningCoefficient ctx topicId reputerAddr = .error e ∧
          err = .Wrapf e "Error getting GetListeningCoefficient"))

/-- The pass of the second loop of `GenerateReputerScores` on the address
`reputerAddr` at index `i`, from the store `ctx`, fails and the call returns `err`. -/
def ReputerInsertFails {σ Dec Addr : Type} (A : AddrOps Addr) (keeper : Keeper σ Dec Addr)
    (topicId : Nat) (block : Int) (scores newCoefficients : List Dec)
    (i : Nat) (reputerAddr : Addr) (ctx : σ) (err : Error) : Prop :=
  ∃ newCoefficient, newCoefficients[i]? = some newCoefficient ∧
    ((∃ e,
        keeper.SetListeningCoefficient ctx topicId reputerAddr
          { Coefficient := newCoefficient } = .error e ∧
        err = .Wrapf e "Error setting listening coefficient") ∨
     ∃ ctx1 score,
      keeper.SetListeningCoefficient ctx topicId reputerAddr
        { Coefficient := newCoefficient } = .ok ctx1 ∧
      scores[i]? = some score ∧
      ((∃ e,
          keeper.InsertReputerScore ctx1 topicId block
            { TopicId := topicId, BlockNumber := block, Address := A.String reputerAddr,
              Score := score } = .error e ∧
          err = .Wrapf e "Error inserting reputer score") ∨
       ∃ ctx2 e,
          keeper.InsertReputerScore ctx1 topicId block
            { TopicId := topicId, BlockNumber := block, Address := A.String reputerAddr,
              Score := score } = .ok ctx2 ∧
          keeper.SetLatestReputerScore ctx2 topicId reputerAddr
            { TopicId := topicId, BlockNumber := block, Address := A.String reputerAddr,
              Score := score } = .error e ∧
          err = .Wrapf e "Error setting latest reputer score"))

/-- The call of `GenerateReputerScores` fails and returns `err`: the first loop reads
the normalized bundles before the `k`-th without error and its pass on the `k`-th
bundle fails; or `GetParams` fails; or `GetAllReputersOutput` fails; or the second
loop writes for the addresses before the `k`-th without error and its pass on the
`k`-th address fails. -/
def ReputerCallFails {σ Dec Addr : Type} (D : DecOps Dec) (A : AddrOps Addr)
    (R : ReputerOps Dec) (keeper : Keeper σ Dec Addr) (ρ : RangeOrder) (ctx : σ)
    (topicId : Nat) (block : Int) (reportedLosses : ReputerValueBundles Dec)
    (err : Error) : Prop :=
  (∃ k reportedLoss dataK,
    (ensureWorkerPresence D ρ reportedLosses).ReputerValueBundles[k]? = some reportedLoss ∧
    fetchReputers D A R keeper ctx topicId
      ((ensureWorkerPresence D ρ reportedLosses).ReputerValueBundles.take k)
      { reputerAddresses := [], reputerStakes := [], reputerListeningCoefficients := [],
        losses := [] } = .ok dataK ∧
    ReputerFetchFails D A keeper ctx topicId reportedLoss err) ∨
  ∃ data,
    fetchReputers D A R keeper ctx topicId
      (ensureWorkerPresence D ρ reportedLosses).ReputerValueBundles
      { reputerAddresses := [], reputerStakes := [], reputerListeningCoefficients := [],
        losses := [] } = .ok data ∧
    ((∃ e, keeper.GetParams ctx = .error e ∧ err = .Wrapf e "Error getting GetParams") ∨
     ∃ params, keeper.GetParams ctx = .ok params ∧
      ((∃ e,
          R.GetAllReputersOutput data.losses data.reputerStakes
            data.reputerListeningCoefficients (data.reputerStakes.length : Int)
            params.LearningRate params.GradientDescentMaxIters = .error e ∧
          err = .Wrapf e "Error getting GetAllReputersOutput") ∨
       ∃ scores newCoefficients,
        R.GetAllReputersOutput data.losses data.reputerStakes
          data.reputerListeningCoefficients (data.reputerStakes.length : Int)
          params.LearningRate params.GradientDescentMaxIters = .ok (scores, newCoefficients) ∧
        ∃ k reputerAddr scoresK ctxK,
          data.reputerAddresses[k]? = some reputerAddr ∧
          insertReputerScores A keeper topicId block scores newCoefficients 0
            (data.reputerAddresses.take k) [] ctx = (.returned scoresK none, ctxK) ∧
          ReputerInsertFails A keeper topicId block scores newCoefficients k reputerAddr
            ctxK err))

/-! ## Lemmas on the padding loop -/

/-- The padding loop appends, in visiting order, one entry per visited key that is
not among `found`. -/
theorem foldl_pad {α : Type} (found : List String) (f : String → α) (l : List String)
    (acc : List α) :
    l.foldl (fun values worker => if worker ∉ found then values ++ [f worker] else values) acc
      = acc ++ (l.filter (fun worker => decide (worker ∉ found))).map f := by
  induction l generalizing acc with
  | nil => simp
  | cons w l ih =>
    rw [List.foldl_cons, ih]
    by_cases h : w ∈ found
    · simp [h]
    · simp [h]

/-- Closed form of `EnsureAllWorkersPresent`. -/
theorem EnsureAllWorkersPresent_eq {Dec : Type} (D : DecOps Dec)
    (visit : List String → List String) (values : List (WorkerAttributedValue Dec))
    (allWorkers : List String) :
    EnsureAllWorkersPresent D visit values allWorkers
      = values ++
        ((visit allWorkers).filter
          (fun worker => decide (worker ∉ values.map (fun value => value.Worker)))).map
          (fun worker => { Worker := worker, Value := D.NewNaN }) := by
  unfold EnsureAllWorkersPresent
  exact foldl_pad _ _ _ _

/-- Closed form of `EnsureAllWorkersPresentWithheld`. -/
theorem EnsureAllWorkersPresentWithheld_eq {Dec : Type} (D : DecOps Dec)
    (visit : List String → List String) (values : List (WithheldWorkerAttributedValue Dec))
    (allWorkers : List String) :
    EnsureAllWorkersPresentWithheld D visit values allWorkers
      = values ++
        ((visit allWorkers).filter
          (fun worker => decide (worker ∉ values.map (fun value => value.Worker)))).map
          (fun worker => { Worker := worker, Value := D.NewNaN }) := by
  unfold EnsureAllWorkersPresentWithheld
  exact foldl_pad _ _ _ _

/-- Keys of a padded list: the submitted keys, then the visited keys that were missing. -/
theorem keys_EnsureAllWorkersPresent {Dec : Type} (D : DecOps Dec)
    (visit : List String → List String) (values : List (WorkerAttributedValue Dec))
    (allWorkers : List String) :
    (EnsureAllWorkersPresent D visit values allWorkers).map (fun value => value.Worker)
      = values.map (fun value => value.Worker) ++
        (visit allWorkers).filter
          (fun worker => decide (worker ∉ values.map (fun value => value.Worker))) := by
  rw [EnsureAllWorkersPresent_eq, List.map_append, List.map_map]
  congr 1
  exact List.map_id _

/-- Keys of a padded withheld list. -/
theorem keys_EnsureAllWorkersPresentWithheld {Dec : Type} (D : DecOps Dec)
    (visit : List String → List String) (values : List (WithheldWorkerAttributedValue Dec))
    (allWorkers : List String) :
    (EnsureAllWorkersPresentWithheld D visit values allWorkers).map (fun value => value.Worker)
      = values.map (fun value => value.Worker) ++
        (visit allWorkers).filter
          (fun worker => decide (worker ∉ values.map (fun value => value.Worker))) := by
  rw [EnsureAllWorkersPresentWithheld_eq, List.map_append, List.map_map]
  congr 1
  exact List.map_id _

/-! ## Lemmas on the key sets -/

theorem mem_mapSet (m : List String) (k w : String) : w ∈ mapSet m k ↔ w ∈ m ∨ w = k := by
  unfold mapSet
  by_cases h : k ∈ m
  · simp only [h, if_true]
    constructor
    · exact fun hw => Or.inl hw
    · rintro (hw | rfl)
      · exact hw
      · exact h
  · simp [h]

/-- Inserting a key keeps the keys of a map distinct. -/
theorem nodup_mapSet (m : List String) (k : String) (hm : m.Nodup) : (mapSet m k).Nodup := by
  unfold mapSet
  by_cases h : k ∈ m
  · simpa [h] using hm
  · simp only [h, if_false]
    exact List.Nodup.append hm (List.nodup_singleton k) (by simpa using h)

/-- Keys inserted by a loop `for _, v := range values { m[key v] = struct{}{} }`. -/
theorem mem_foldl_mapSet {α : Type} (key : α → String) (values : List α) (m : List String)
    (w : String) :
    w ∈ values.foldl (fun m v => mapSet m (key v)) m ↔ w ∈ m ∨ w ∈ values.map key := by
  induction values generalizing m with
  | nil => simp
  | cons v values ih =>
    rw [List.foldl_cons, ih, mem_mapSet]
    simp only [List.map_cons, List.mem_cons]
    constructor
    · rintro ((h | h) | h)
      · exact Or.inl h
      · exact Or.inr (Or.inl h)
      · exact Or.inr (Or.inr h)
    · rintro (h | h | h)
      · exact Or.inl (Or.inl h)
      · exact Or.inl (Or.inr h)
      · exact Or.inr h

/-- A loop of insertions keeps the keys of a map distinct. -/
theorem nodup_foldl_mapSet {α : Type} (key : α → String) (values : List α) (m : List String)
    (hm : m.Nodup) : (values.foldl (fun m v => mapSet m (key v)) m).Nodup := by
  induction values generalizing m with
  | nil => simpa using hm
  | cons v values ih =>
    rw [List.foldl_cons]
    exact ih _ (nodup_mapSet m (key v) hm)

/-- Keys inserted by a loop over bundles whose body inserts the keys of one list. -/
theorem mem_foldl_foldl_mapSet {β α : Type} (sel : β → List α) (key : α → String)
    (bundles : List β) (m : List String) (w : String) :
    w ∈ bundles.foldl (fun m b => (sel b).foldl (fun m v => mapSet m (key v)) m) m ↔
      w ∈ m ∨ ∃ b ∈ bundles, w ∈ (sel b).map key := by
  induction bundles generalizing m with
  | nil => simp
  | cons b bundles ih =>
    rw [List.foldl_cons, ih, mem_foldl_mapSet]
    simp only [List.mem_cons, exists_eq_or_imp]
    exact or_assoc

/-- A nested loop of insertions keeps the keys of a map distinct. -/
theorem nodup_foldl_foldl_mapSet {β α : Type} (sel : β → List α) (key : α → String)
    (bundles : List β) (m : List String) (hm : m.Nodup) :
    (bundles.foldl (fun m b => (sel b).foldl (fun m v => mapSet m (key v)) m) m).Nodup := by
  induction bundles generalizing m with
  | nil => simpa using hm
  | cons b bundles ih =>
    rw [List.foldl_cons]
    exact ih _ (nodup_foldl_mapSet key (sel b) m hm)

/-- The first loop works on its three key sets independently of one another. -/
theorem foldl_collectStep {Dec : Type} (bundles : List (ReputerValueBundle Dec))
    (all : List String × List String × List String) :
    bundles.foldl collectStep all =
      (bundles.foldl (fun m b => b.ValueBundle.OneOutInfererValues.foldl
          (fun m v => mapSet m v.Worker) m) all.1,
       bundles.foldl (fun m b => b.ValueBundle.OneOutForecasterValues.foldl
          (fun m v => mapSet m v.Worker) m) all.2.1,
       bundles.foldl (fun m b => b.ValueBundle.OneInForecasterValues.foldl
          (fun m v => mapSet m v.Worker) m) all.2.2) := by
  induction bundles generalizing all with
  | nil => rfl
  | cons b bundles ih =>
    rw [List.foldl_cons, ih]
    rfl

/-- The key sets built by `ensureWorkerPresence` hold exactly the submitted keys. -/
theorem mem_collectWorkers {Dec : Type} (bundles : List (ReputerValueBundle Dec)) (w : String) :
    (w ∈ (collectWorkers bundles).1 ↔ ∃ b ∈ bundles,
        w ∈ b.ValueBundle.OneOutInfererValues.map (fun value => value.Worker)) ∧
    (w ∈ (collectWorkers bundles).2.1 ↔ ∃ b ∈ bundles,
        w ∈ b.ValueBundle.OneOutForecasterValues.map (fun value => value.Worker)) ∧
    (w ∈ (collectWorkers bundles).2.2 ↔ ∃ b ∈ bundles,
        w ∈ b.ValueBundle.OneInForecasterValues.map (fun value => value.Worker)) := by
  unfold collectWorkers
  rw [foldl_collectStep]
  refine ⟨?_, ?_, ?_⟩
  · simpa using mem_foldl_foldl_mapSet
      (fun b : ReputerValueBundle Dec => b.ValueBundle.OneOutInfererValues)
      (fun v => v.Worker) bundles [] w
  · simpa using mem_foldl_foldl_mapSet
      (fun b : ReputerValueBundle Dec => b.ValueBundle.OneOutForecasterValues)
      (fun v => v.Worker) bundles [] w
  · simpa using mem_foldl_foldl_mapSet
      (fun b : ReputerValueBundle Dec => b.ValueBundle.OneInForecasterValues)
      (fun v => v.Worker) bundles [] w

/-- A Go map holds every key once. -/
theorem nodup_collectWorkers {Dec : Type} (bundles : List (ReputerValueBundle Dec)) :
    (collectWorkers bundles).1.Nodup ∧ (collectWorkers bundles).2.1.Nodup ∧
      (collectWorkers bundles).2.2.Nodup := by
  unfold collectWorkers
  rw [foldl_collectStep]
  exact ⟨nodup_foldl_foldl_mapSet _ _ _ _ List.nodup_nil,
    nodup_foldl_foldl_mapSet _ _ _ _ List.nodup_nil,
    nodup_foldl_foldl_mapSet _ _ _ _ List.nodup_nil⟩

/-- Every bundle of the second loop's result is the padding of the bundle at the same
position of its input. -/
theorem forall₂_padBundles {Dec : Type} (D : DecOps Dec) (ρ : RangeOrder)
    (a b c : List String) (n : Nat) (bundles : List (ReputerValueBundle Dec)) :
    List.Forall₂ (fun bundle bundle' => ∃ k, bundle' = padBundle D ρ a b c k bundle)
      bundles (padBundles D ρ a b c n bundles) := by
  induction bundles generalizing n with
  | nil => exact List.Forall₂.nil
  | cons bundle rest ih => exact List.Forall₂.cons ⟨n, rfl⟩ (ih (n + 3))

/-- Every bundle of the second loop's result is the padding of an input bundle. -/
theorem mem_padBundles {Dec : Type} (D : DecOps Dec) (ρ : RangeOrder)
    (a b c : List String) (n : Nat) (bundles : List (ReputerValueBundle Dec))
    (bundle' : ReputerValueBundle Dec) (h : bundle' ∈ padBundles D ρ a b c n bundles) :
    ∃ bundle ∈ bundles, ∃ k, bundle' = padBundle D ρ a b c k bundle := by
  induction bundles generalizing n with
  | nil => simp [padBundles] at h
  | cons bundle rest ih =>
    simp only [padBundles, List.mem_cons] at h
    rcases h with h | h
    · exact ⟨bundle, List.mem_cons_self _ _, n, h⟩
    · obtain ⟨b0, hb0, k, hk⟩ := ih (n + 3) h
      exact ⟨b0, List.mem_cons_of_mem _ hb0, k, hk⟩

/-- Membership in a padded key list, when the visit reaches every key of the set and
the set holds the submitted keys. -/
theorem mem_padded_keys (found visited all : List String) (hv : visited.Perm all)
    (hsub : ∀ w ∈ found, w ∈ all) (w : String) :
    w ∈ found ++ visited.filter (fun worker => decide (worker ∉ found)) ↔ w ∈ all := by
  simp only [List.mem_append, List.mem_filter, decide_eq_true_eq, hv.mem_iff]
  constructor
  · rintro (h | ⟨h, _⟩)
    · exact hsub w h
    · exact h
  · intro h
    by_cases hf : w ∈ found
    · exact Or.inl hf
    · exact Or.inr ⟨h, hf⟩

/-- Visiting the keys in order of insertion visits every key once. -/
theorem inOrder_valid : RangeOrder.Valid inOrder := fun _ keys => List.Perm.refl keys

/-- Visiting the keys in reverse order of insertion visits every key once. -/
theorem reversed_valid : RangeOrder.Valid reversed := fun _ keys => List.reverse_perm keys

/-- The keys of every list of a padded bundle are the keys of the key set it was
padded with, when that set holds the submitted keys. -/
theorem keys_padBundle {Dec : Type} (D : DecOps Dec) (ρ : RangeOrder) (hρ : ρ.Valid)
    (a b c : List String) (k : Nat) (bundle : ReputerValueBundle Dec)
    (ha : ∀ w ∈ bundle.ValueBundle.OneOutInfererValues.map (fun value => value.Worker), w ∈ a)
    (hb : ∀ w ∈ bundle.ValueBundle.OneOutForecasterValues.map (fun value => value.Worker), w ∈ b)
    (hc : ∀ w ∈ bundle.ValueBundle.OneInForecasterValues.map (fun value => value.Worker), w ∈ c)
    (w : String) :
    (w ∈ (padBundle D ρ a b c k bundle).ValueBundle.OneOutInfererValues.map
        (fun value => value.Worker) ↔ w ∈ a) ∧
    (w ∈ (padBundle D ρ a b c k bundle).ValueBundle.OneOutForecasterValues.map
        (fun value => value.Worker) ↔ w ∈ b) ∧
    (w ∈ (padBundle D ρ a b c k bundle).ValueBundle.OneInForecasterValues.map
        (fun value => value.Worker) ↔ w ∈ c) := by
  refine ⟨?_, ?_, ?_⟩
  · show w ∈ (EnsureAllWorkersPresentWithheld D (ρ k) _ a).map _ ↔ _
    rw [keys_EnsureAllWorkersPresentWithheld]
    exact mem_padded_keys _ _ _ (hρ k a) ha w
  · show w ∈ (EnsureAllWorkersPresentWithheld D (ρ (k + 1)) _ b).map _ ↔ _
    rw [keys_EnsureAllWorkersPresentWithheld]
    exact mem_padded_keys _ _ _ (hρ (k + 1) b) hb w
  · show w ∈ (EnsureAllWorkersPresent D (ρ (k + 2)) _ c).map _ ↔ _
    rw [keys_EnsureAllWorkersPresent]
    exact mem_padded_keys _ _ _ (hρ (k + 2) c) hc w

/-- After normalization the keys of every list are the keys of the category's key set. -/
theorem keys_ensureWorkerPresence {Dec : Type} (D : DecOps Dec) (ρ : RangeOrder)
    (hρ : ρ.Valid) (reportedLosses : ReputerValueBundles Dec)
    (bundle' : ReputerValueBundle Dec)
    (h : bundle' ∈ (ensureWorkerPresence D ρ reportedLosses).ReputerValueBundles)
    (w : String) :
    (w ∈ bundle'.ValueBundle.OneOutInfererValues.map (fun value => value.Worker) ↔
        w ∈ (collectWorkers reportedLosses.ReputerValueBundles).1) ∧
    (w ∈ bundle'.ValueBundle.OneOutForecasterValues.map (fun value => value.Worker) ↔
        w ∈ (collectWorkers reportedLosses.ReputerValueBundles).2.1) ∧
    (w ∈ bundle'.ValueBundle.OneInForecasterValues.map (fun value => value.Worker) ↔
        w ∈ (collectWorkers reportedLosses.ReputerValueBundles).2.2) := by
  obtain ⟨bundle, hmem, k, rfl⟩ := mem_padBundles D ρ _ _ _ 0 _ bundle' h
  apply keys_padBundle D ρ hρ
  · intro w hw
    exact ((mem_collectWorkers _ w).1).2 ⟨bundle, hmem, hw⟩
  · intro w hw
    exact ((mem_collectWorkers _ w).2.1).2 ⟨bundle, hmem, hw⟩
  · intro w hw
    exact ((mem_collectWorkers _ w).2.2).2 ⟨bundle, hmem, hw⟩

/-! ## Claims on the bundle normalizer -/

/-- C1. Padding completeness: after `ensureWorkerPresence`, in each of the three
categories the worker keys of every bundle are exactly the worker keys that occur in
some input bundle of that category, whatever order the map iterations take. -/
theorem ensureWorkerPresence_keys_eq_union {Dec : Type} (D : DecOps Dec) (ρ : RangeOrder)
    (hρ : ρ.Valid) (reportedLosses : ReputerValueBundles Dec) :
    ∀ bundle' ∈ (ensureWorkerPresence D ρ reportedLosses).ReputerValueBundles, ∀ w : String,
      (w ∈ bundle'.ValueBundle.OneOutInfererValues.map (fun value => value.Worker) ↔
        ∃ bundle ∈ reportedLosses.ReputerValueBundles,
          w ∈ bundle.ValueBundle.OneOutInfererValues.map (fun value => value.Worker)) ∧
      (w ∈ bundle'.ValueBundle.OneOutForecasterValues.map (fun value => value.Worker) ↔
        ∃ bundle ∈ reportedLosses.ReputerValueBundles,
          w ∈ bundle.ValueBundle.OneOutForecasterValues.map (fun value => value.Worker)) ∧
      (w ∈ bundle'.ValueBundle.OneInForecasterValues.map (fun value => value.Worker) ↔
        ∃ bundle ∈ reportedLosses.ReputerValueBundles,
          w ∈ bundle.ValueBundle.OneInForecasterValues.map (fun value => value.Worker)) := by
  intro bundle' h w
  obtain ⟨h1, h2, h3⟩ := keys_ensureWorkerPresence D ρ hρ reportedLosses bundle' h w
  obtain ⟨m1, m2, m3⟩ := mem_collectWorkers reportedLosses.ReputerValueBundles w
  exact ⟨h1.trans m1, h2.trans m2, h3.trans m3⟩

/-- Padding completeness at the collection `twoReputers`, the maps visited in reverse
order of insertion. -/
theorem ensureWorkerPresence_keys_eq_union_witness :
    RangeOrder.Valid reversed ∧
    ∀ bundle' ∈ (ensureWorkerPresence intDec reversed twoReputers).ReputerValueBundles,
      ∀ w : String,
      (w ∈ bundle'.ValueBundle.OneOutInfererValues.map (fun value => value.Worker) ↔
        ∃ bundle ∈ twoReputers.ReputerValueBundles,
          w ∈ bundle.ValueBundle.OneOutInfererValues.map (fun value => value.Worker)) ∧
      (w ∈ bundle'.ValueBundle.OneOutForecasterValues.map (fun value => value.Worker) ↔
        ∃ bundle ∈ twoReputers.ReputerValueBundles,
          w ∈ bundle.ValueBundle.OneOutForecasterValues.map (fun value => value.Worker)) ∧
      (w ∈ bundle'.ValueBundle.OneInForecasterValues.map (fun value => value.Worker) ↔
        ∃ bundle ∈ twoReputers.ReputerValueBundles,
          w ∈ bundle.ValueBundle.OneInForecasterValues.map (fun value => value.Worker)) :=
  ⟨reversed_valid, ensureWorkerPresence_keys_eq_union intDec reversed reversed_valid twoReputers⟩

/-- The padding loop only appends. -/
theorem prefix_EnsureAllWorkersPresent {Dec : Type} (D : DecOps Dec)
    (visit : List String → List String) (values : List (WorkerAttributedValue Dec))
    (allWorkers : List String) :
    values <+: EnsureAllWorkersPresent D visit values allWorkers := by
  rw [EnsureAllWorkersPresent_eq]
  exact List.prefix_append _ _

/-- The padding loop of the withheld lists only appends. -/
theorem prefix_EnsureAllWorkersPresentWithheld {Dec : Type} (D : DecOps Dec)
    (visit : List String → List String) (values : List (WithheldWorkerAttributedValue Dec))
    (allWorkers : List String) :
    values <+: EnsureAllWorkersPresentWithheld D visit values allWorkers := by
  rw [EnsureAllWorkersPresentWithheld_eq]
  exact List.prefix_append _ _

/-- C2. Normalization alters and removes nothing that was submitted: the input list
is a prefix of the list `EnsureAllWorkersPresent` returns, likewise for
`EnsureAllWorkersPresentWithheld`, and so, bundle by bundle and category by category,
each input list is a prefix of the list `ensureWorkerPresence` puts in its place. -/
theorem submitted_entries_kept {Dec : Type} (D : DecOps Dec) (ρ : RangeOrder)
    (reportedLosses : ReputerValueBundles Dec) :
    (∀ (visit : List String → List String) (values : List (WorkerAttributedValue Dec))
        (allWorkers : List String),
        values <+: EnsureAllWorkersPresent D visit values allWorkers) ∧
    (∀ (visit : List String → List String) (values : List (WithheldWorkerAttributedValue Dec))
        (allWorkers : List String),
        values <+: EnsureAllWorkersPresentWithheld D visit values allWorkers) ∧
    List.Forall₂
      (fun bundle bundle' =>
        bundle.ValueBundle.OneOutInfererValues <+: bundle'.ValueBundle.OneOutInfererValues ∧
        bundle.ValueBundle.OneOutForecasterValues <+:
          bundle'.ValueBundle.OneOutForecasterValues ∧
        bundle.ValueBundle.OneInForecasterValues <+: bundle'.ValueBundle.OneInForecasterValues)
      reportedLosses.ReputerValueBundles
      (ensureWorkerPresence D ρ reportedLosses).ReputerValueBundles := by
  refine ⟨prefix_EnsureAllWorkersPresent D, prefix_EnsureAllWorkersPresentWithheld D, ?_⟩
  refine List.Forall₂.imp ?_ (forall₂_padBundles D ρ _ _ _ 0 _)
  rintro bundle bundle' ⟨k, rfl⟩
  exact ⟨prefix_EnsureAllWorkersPresentWithheld D _ _ _,
    prefix_EnsureAllWorkersPresentWithheld D _ _ _, prefix_EnsureAllWorkersPresent D _ _ _⟩

/-- A missing key of the set is kept once by the filter of the padding loop. -/
theorem count_missing (found visited all : List String) (hv : visited.Perm all)
    (hall : all.Nodup) (w : String) (hw : w ∈ all) (hnf : w ∉ found) :
    (visited.filter (fun worker => decide (worker ∉ found))).count w = 1 := by
  rw [List.count_filter (by simpa using hnf), hv.count_eq, List.count_eq_one_of_mem hall hw]

/-- What `EnsureAllWorkersPresent` appends: entries valued NaN, with keys that were
missing, one for every missing key of the key set. -/
theorem added_EnsureAllWorkersPresent {Dec : Type} (D : DecOps Dec)
    (visit : List String → List String) (values : List (WorkerAttributedValue Dec))
    (allWorkers : List String) (hv : (visit allWorkers).Perm allWorkers)
    (hall : allWorkers.Nodup) :
    (∀ e ∈ (EnsureAllWorkersPresent D visit values allWorkers).drop values.length,
        e.Value = D.NewNaN ∧ e.Worker ∉ values.map (fun value => value.Worker)) ∧
    (∀ w ∈ allWorkers, w ∉ values.map (fun value => value.Worker) →
        (((EnsureAllWorkersPresent D visit values allWorkers).drop values.length).map
          (fun value => value.Worker)).count w = 1) := by
  rw [EnsureAllWorkersPresent_eq, List.drop_left]
  constructor
  · intro e he
    obtain ⟨w, hw, rfl⟩ := List.mem_map.1 he
    exact ⟨rfl, by simpa using (List.mem_filter.1 hw).2⟩
  · intro w hw hnf
    rw [List.map_map]
    have hid : ((fun value : WorkerAttributedValue Dec => value.Worker) ∘
        fun worker => ({ Worker := worker, Value := D.NewNaN } : WorkerAttributedValue Dec))
        = id := rfl
    rw [hid, List.map_id]
    exact count_missing _ _ _ hv hall w hw hnf

/-- What `EnsureAllWorkersPresentWithheld` appends: entries valued NaN, with keys that
were missing, one for every missing key of the key set. -/
theorem added_EnsureAllWorkersPresentWithheld {Dec : Type} (D : DecOps Dec)
    (visit : List String → List String) (values : List (WithheldWorkerAttributedValue Dec))
    (allWorkers : List String) (hv : (visit allWorkers).Perm allWorkers)
    (hall : allWorkers.Nodup) :
    (∀ e ∈ (EnsureAllWorkersPresentWithheld D visit values allWorkers).drop values.length,
        e.Value = D.NewNaN ∧ e.Worker ∉ values.map (fun value => value.Worker)) ∧
    (∀ w ∈ allWorkers, w ∉ values.map (fun value => value.Worker) →
        (((EnsureAllWorkersPresentWithheld D visit values allWorkers).drop values.length).map
          (fun value => value.Worker)).count w = 1) := by
  rw [EnsureAllWorkersPresentWithheld_eq, List.drop_left]
  constructor
  · intro e he
    obtain ⟨w, hw, rfl⟩ := List.mem_map.1 he
    exact ⟨rfl, by simpa using (List.mem_filter.1 hw).2⟩
  · intro w hw hnf
    rw [List.map_map]
    have hid : ((fun value : WithheldWorkerAttributedValue Dec => value.Worker) ∘
        fun worker =>
          ({ Worker := worker, Value := D.NewNaN } : WithheldWorkerAttributedValue Dec))
        = id := rfl
    rw [hid, List.map_id]
    exact count_missing _ _ _ hv hall w hw hnf

/-- C3. Every entry that `ensureWorkerPresence` adds to a list of a bundle (the
entries after the submitted ones) has the value NaN and a worker key that did not
occur in the submitted list, and every worker key of the category's union that was
missing from the submitted list is added exactly once. -/
theorem padding_entries_NaN_new_once {Dec : Type} (D : DecOps Dec) (ρ : RangeOrder)
    (hρ : ρ.Valid) (reportedLosses : ReputerValueBundles Dec) :
    List.Forall₂
      (fun bundle bundle' =>
        ((∀ e ∈ bundle'.ValueBundle.OneOutInfererValues.drop
              bundle.ValueBundle.OneOutInfererValues.length,
            e.Value = D.NewNaN ∧
            e.Worker ∉ bundle.ValueBundle.OneOutInfererValues.map (fun value => value.Worker)) ∧
          (∀ w : String,
            (∃ b ∈ reportedLosses.ReputerValueBundles,
              w ∈ b.ValueBundle.OneOutInfererValues.map (fun value => value.Worker)) →
            w ∉ bundle.ValueBundle.OneOutInfererValues.map (fun value => value.Worker) →
            ((bundle'.ValueBundle.OneOutInfererValues.drop
              bundle.ValueBundle.OneOutInfererValues.length).map
                (fun value => value.Worker)).count w = 1)) ∧
        ((∀ e ∈ bundle'.ValueBundle.OneOutForecasterValues.drop
              bundle.ValueBundle.OneOutForecasterValues.length,
            e.Value = D.NewNaN ∧
            e.Worker ∉
              bundle.ValueBundle.OneOutForecasterValues.map (fun value => value.Worker)) ∧
          (∀ w : String,
            (∃ b ∈ reportedLosses.ReputerValueBundles,
              w ∈ b.ValueBundle.OneOutForecasterValues.map (fun value => value.Worker)) →
            w ∉ bundle.ValueBundle.OneOutForecasterValues.map (fun value => value.Worker) →
            ((bundle'.ValueBundle.OneOutForecasterValues.drop
              bundle.ValueBundle.OneOutForecasterValues.length).map
                (fun value => value.Worker)).count w = 1)) ∧
        ((∀ e ∈ bundle'.ValueBundle.OneInForecasterValues.drop
              bundle.ValueBundle.OneInForecasterValues.length,
            e.Value = D.NewNaN ∧
            e.Worker ∉
              bundle.ValueBundle.OneInForecasterValues.map (fun value => value.Worker)) ∧
          (∀ w : String,
            (∃ b ∈ reportedLosses.ReputerValueBundles,
              w ∈ b.ValueBundle.OneInForecasterValues.map (fun value => value.Worker)) →
            w ∉ bundle.ValueBundle.OneInForecasterValues.map (fun value => value.Worker) →
            ((bundle'.ValueBundle.OneInForecasterValues.drop
              bundle.ValueBundle.OneInForecasterValues.length).map
                (fun value => value.Worker)).count w = 1)))
      reportedLosses.ReputerValueBundles
      (ensureWorkerPresence D ρ reportedLosses).ReputerValueBundles := by
  refine List.Forall₂.imp ?_ (forall₂_padBundles D ρ _ _ _ 0 _)
  rintro bundle bundle' ⟨k, rfl⟩
  obtain ⟨n1, n2, n3⟩ := nodup_collectWorkers reportedLosses.ReputerValueBundles
  obtain ⟨a1, a2⟩ := added_EnsureAllWorkersPresentWithheld D (ρ k)
    bundle.ValueBundle.OneOutInfererValues _ (hρ k _) n1
  obtain ⟨b1, b2⟩ := added_EnsureAllWorkersPresentWithheld D (ρ (k + 1))
    bundle.ValueBundle.OneOutForecasterValues _ (hρ (k + 1) _) n2
  obtain ⟨c1, c2⟩ := added_EnsureAllWorkersPresent D (ρ (k + 2))
    bundle.ValueBundle.OneInForecasterValues _ (hρ (k + 2) _) n3
  refine ⟨⟨a1, ?_⟩, ⟨b1, ?_⟩, ⟨c1, ?_⟩⟩
  · intro w hw hnf
    exact a2 w (((mem_collectWorkers _ w).1).2 hw) hnf
  · intro w hw hnf
    exact b2 w (((mem_collectWorkers _ w).2.1).2 hw) hnf
  · intro w hw hnf
    exact c2 w (((mem_collectWorkers _ w).2.2).2 hw) hnf

/-- The padded collection `twoReputers`, the maps visited in reverse order of
insertion, and the property of its padding entries. -/
theorem padding_entries_NaN_new_once_witness :
    RangeOrder.Valid reversed ∧
    (ensureWorkerPresence intDec reversed twoReputers).ReputerValueBundles =
      [ sampleBundle "r1"
          [{ Worker := "x", Value := some 1 }, { Worker := "y", Value := none }]
          [{ Worker := "b", Value := none }, { Worker := "a", Value := none }]
          [{ Worker := "x", Value := some 1 }, { Worker := "y", Value := none }],
        sampleBundle "r2"
          [{ Worker := "y", Value := some 2 }, { Worker := "x", Value := none }]
          [{ Worker := "a", Value := some 3 }, { Worker := "b", Value := some 4 }]
          [{ Worker := "y", Value := some 2 }, { Worker := "x", Value := none }] ] ∧
    List.Forall₂
      (fun bundle bundle' =>
        ((∀ e ∈ bundle'.ValueBundle.OneOutInfererValues.drop
              bundle.ValueBundle.OneOutInfererValues.length,
            e.Value = intDec.NewNaN ∧
            e.Worker ∉ bundle.ValueBundle.OneOutInfererValues.map (fun value => value.Worker)) ∧
          (∀ w : String,
            (∃ b ∈ twoReputers.ReputerValueBundles,
              w ∈ b.ValueBundle.OneOutInfererValues.map (fun value => value.Worker)) →
            w ∉ bundle.ValueBundle.OneOutInfererValues.map (fun value => value.Worker) →
            ((bundle'.ValueBundle.OneOutInfererValues.drop
              bundle.ValueBundle.OneOutInfererValues.length).map
                (fun value => value.Worker)).count w = 1)) ∧
        ((∀ e ∈ bundle'.ValueBundle.OneOutForecasterValues.drop
              bundle.ValueBundle.OneOutForecasterValues.length,
            e.Value = intDec.NewNaN ∧
            e.Worker ∉
              bundle.ValueBundle.OneOutForecasterValues.map (fun value => value.Worker)) ∧
          (∀ w : String,
            (∃ b ∈ twoReputers.ReputerValueBundles,
              w ∈ b.ValueBundle.OneOutForecasterValues.map (fun value => value.Worker)) →
            w ∉ bundle.ValueBundle.OneOutForecasterValues.map (fun value => value.Worker) →
            ((bundle'.ValueBundle.OneOutForecasterValues.drop
              bundle.ValueBundle.OneOutForecasterValues.length).map
                (fun value => value.Worker)).count w = 1)) ∧
        ((∀ e ∈ bundle'.ValueBundle.OneInForecasterValues.drop
              bundle.ValueBundle.OneInForecasterValues.length,
            e.Value = intDec.NewNaN ∧
            e.Worker ∉
              bundle.ValueBundle.OneInForecasterValues.map (fun value => value.Worker)) ∧
          (∀ w : String,
            (∃ b ∈ twoReputers.ReputerValueBundles,
              w ∈ b.ValueBundle.OneInForecasterValues.map (fun value => value.Worker)) →
            w ∉ bundle.ValueBundle.OneInForecasterValues.map (fun value => value.Worker) →
            ((bundle'.ValueBundle.OneInForecasterValues.drop
              bundle.ValueBundle.OneInForecasterValues.length).map
                (fun value => value.Worker)).count w = 1)))
      twoReputers.ReputerValueBundles
      (ensureWorkerPresence intDec reversed twoReputers).ReputerValueBundles :=
  ⟨reversed_valid, by decide,
    padding_entries_NaN_new_once intDec reversed reversed_valid twoReputers⟩

/-- A list that already holds every visited key is returned as it is. -/
theorem EnsureAllWorkersPresent_of_complete {Dec : Type} (D : DecOps Dec)
    (visit : List String → List String) (values : List (WorkerAttributedValue Dec))
    (allWorkers : List String)
    (h : ∀ w ∈ visit allWorkers, w ∈ values.map (fun value => value.Worker)) :
    EnsureAllWorkersPresent D visit values allWorkers = values := by
  rw [EnsureAllWorkersPresent_eq]
  have hnil : (visit allWorkers).filter
      (fun worker => decide (worker ∉ values.map (fun value => value.Worker))) = [] := by
    rw [List.filter_eq_nil_iff]
    intro w hw
    simpa using h w hw
  rw [hnil]
  simp

/-- A withheld list that already holds every visited key is returned as it is. -/
theorem EnsureAllWorkersPresentWithheld_of_complete {Dec : Type} (D : DecOps Dec)
    (visit : List String → List String) (values : List (WithheldWorkerAttributedValue Dec))
    (allWorkers : List String)
    (h : ∀ w ∈ visit allWorkers, w ∈ values.map (fun value => value.Worker)) :
    EnsureAllWorkersPresentWithheld D visit values allWorkers = values := by
  rw [EnsureAllWorkersPresentWithheld_eq]
  have hnil : (visit allWorkers).filter
      (fun worker => decide (worker ∉ values.map (fun value => value.Worker))) = [] := by
    rw [List.filter_eq_nil_iff]
    intro w hw
    simpa using h w hw
  rw [hnil]
  simp

/-- The second loop changes no bundle whose three lists hold all keys of the sets. -/
theorem padBundles_of_complete {Dec : Type} (D : DecOps Dec) (ρ : RangeOrder) (hρ : ρ.Valid)
    (a b c : List String) (n : Nat) (bundles : List (ReputerValueBundle Dec))
    (h : ∀ bundle ∈ bundles,
      (∀ w ∈ a, w ∈ bundle.ValueBundle.OneOutInfererValues.map (fun value => value.Worker)) ∧
      (∀ w ∈ b, w ∈ bundle.ValueBundle.OneOutForecasterValues.map (fun value => value.Worker)) ∧
      (∀ w ∈ c, w ∈ bundle.ValueBundle.OneInForecasterValues.map (fun value => value.Worker))) :
    padBundles D ρ a b c n bundles = bundles := by
  induction bundles generalizing n with
  | nil => rfl
  | cons bundle rest ih =>
    obtain ⟨h1, h2, h3⟩ := h bundle (List.mem_cons_self _ _)
    have e1 := EnsureAllWorkersPresentWithheld_of_complete D (ρ n)
      bundle.ValueBundle.OneOutInfererValues a (fun w hw => h1 w ((hρ n a).mem_iff.1 hw))
    have e2 := EnsureAllWorkersPresentWithheld_of_complete D (ρ (n + 1))
      bundle.ValueBundle.OneOutForecasterValues b
      (fun w hw => h2 w ((hρ (n + 1) b).mem_iff.1 hw))
    have e3 := EnsureAllWorkersPresent_of_complete D (ρ (n + 2))
      bundle.ValueBundle.OneInForecasterValues c
      (fun w hw => h3 w ((hρ (n + 2) c).mem_iff.1 hw))
    have hrest := ih (n + 3) (fun b0 hb0 => h b0 (List.mem_cons_of_mem _ hb0))
    simp only [padBundles, padBundle, e1, e2, e3, hrest]

/-- C4. Idempotence of normalization: normalizing an already normalized collection
returns it unchanged, whatever orders the map iterations of the two runs take. -/
theorem ensureWorkerPresence_idempotent {Dec : Type} (D : DecOps Dec) (ρ ρ' : RangeOrder)
    (hρ : ρ.Valid) (hρ' : ρ'.Valid) (reportedLosses : ReputerValueBundles Dec) :
    ensureWorkerPresence D ρ' (ensureWorkerPresence D ρ reportedLosses)
      = ensureWorkerPresence D ρ reportedLosses := by
  have key : ∀ bundle ∈ (ensureWorkerPresence D ρ reportedLosses).ReputerValueBundles,
      (∀ w ∈ (collectWorkers (ensureWorkerPresence D ρ reportedLosses).ReputerValueBundles).1,
        w ∈ bundle.ValueBundle.OneOutInfererValues.map (fun value => value.Worker)) ∧
      (∀ w ∈ (collectWorkers (ensureWorkerPresence D ρ reportedLosses).ReputerValueBundles).2.1,
        w ∈ bundle.ValueBundle.OneOutForecasterValues.map (fun value => value.Worker)) ∧
      (∀ w ∈ (collectWorkers (ensureWorkerPresence D ρ reportedLosses).ReputerValueBundles).2.2,
        w ∈ bundle.ValueBundle.OneInForecasterValues.map (fun value => value.Worker)) := by
    intro bundle hbundle
    refine ⟨?_, ?_, ?_⟩
    · intro w hw
      obtain ⟨b1, hb1, hw1⟩ := ((mem_collectWorkers _ w).1).1 hw
      have hu := ((keys_ensureWorkerPresence D ρ hρ reportedLosses b1 hb1 w).1).1 hw1
      exact ((keys_ensureWorkerPresence D ρ hρ reportedLosses bundle hbundle w).1).2 hu
    · intro w hw
      obtain ⟨b1, hb1, hw1⟩ := ((mem_collectWorkers _ w).2.1).1 hw
      have hu := ((keys_ensureWorkerPresence D ρ hρ reportedLosses b1 hb1 w).2.1).1 hw1
      exact ((keys_ensureWorkerPresence D ρ hρ reportedLosses bundle hbundle w).2.1).2 hu
    · intro w hw
      obtain ⟨b1, hb1, hw1⟩ := ((mem_collectWorkers _ w).2.2).1 hw
      have hu := ((keys_ensureWorkerPresence D ρ hρ reportedLosses b1 hb1 w).2.2).1 hw1
      exact ((keys_ensureWorkerPresence D ρ hρ reportedLosses bundle hbundle w).2.2).2 hu
  have hpad := padBundles_of_complete D ρ' hρ' _ _ _ 0 _ key
  show ({ ReputerValueBundles := _ } : ReputerValueBundles Dec) = _
  rw [hpad]

/-- Idempotence at the collection `twoReputers`: a first run that visits the maps in
reverse order of insertion, a second run that visits them in order of insertion. -/
theorem ensureWorkerPresence_idempotent_witness :
    RangeOrder.Valid reversed ∧ RangeOrder.Valid inOrder ∧
    ensureWorkerPresence intDec inOrder (ensureWorkerPresence intDec reversed twoReputers)
      = ensureWorkerPresence intDec reversed twoReputers :=
  ⟨reversed_valid, inOrder_valid,
    ensureWorkerPresence_idempotent intDec reversed inOrder reversed_valid inOrder_valid
      twoReputers⟩

/-! ## Claims on the inference scorer -/

/-- The loop of `GenerateInferenceScores` runs to its end when every address is
well-formed and every subtraction and store write succeeds; it appends one score per
entry, in order. -/
theorem inferenceLoop_ok {σ Dec Addr : Type} (D : DecOps Dec) (A : AddrOps Addr)
    (keeper : Keeper σ Dec Addr) (topicId : Nat) (block : Int)
    (networkLosses : ValueBundle Dec)
    (hins : ∀ s sc, ∃ s', keeper.InsertWorkerInferenceScore s topicId block sc = .ok s')
    (hset : ∀ s a sc, ∃ s', keeper.SetLatestInfererScore s topicId a sc = .ok s')
    (l : List (WithheldWorkerAttributedValue Dec))
    (haddr : ∀ v ∈ l, ∃ a, A.AccAddressFromBech32 v.Worker = .ok a)
    (hsub : ∀ v ∈ l, ∃ d, D.Sub networkLosses.CombinedValue v.Value = .ok d)
    (newScores : List (Score Dec)) (ctx : σ) :
    ∃ scores ctx',
      inferenceLoop D A keeper topicId block networkLosses l newScores ctx
        = (.returned (newScores ++ scores) none, ctx') ∧
      List.Forall₂
        (fun v sc =>
          D.Sub networkLosses.CombinedValue v.Value = .ok sc.Score ∧
          (∃ a, A.AccAddressFromBech32 v.Worker = .ok a ∧ sc.Address = A.String a) ∧
          sc.TopicId = topicId ∧ sc.BlockNumber = block)
        l scores := by
  induction l generalizing newScores ctx with
  | nil => exact ⟨[], ctx, by simp [inferenceLoop], List.Forall₂.nil⟩
  | cons v rest ih =>
    obtain ⟨a, ha⟩ := haddr v (List.mem_cons_self _ _)
    obtain ⟨d, hd⟩ := hsub v (List.mem_cons_self _ _)
    obtain ⟨s1, hs1⟩ := hins ctx
      { TopicId := topicId, BlockNumber := block, Address := A.String a, Score := d }
    obtain ⟨s2, hs2⟩ := hset s1 a
      { TopicId := topicId, BlockNumber := block, Address := A.String a, Score := d }
    obtain ⟨scores, ctx', hrun, hall⟩ :=
      ih (fun v hv => haddr v (List.mem_cons_of_mem _ hv))
        (fun v hv => hsub v (List.mem_cons_of_mem _ hv))
        (newScores ++
          [{ TopicId := topicId, BlockNumber := block, Address := A.String a, Score := d }]) s2
    refine ⟨{ TopicId := topicId, BlockNumber := block, Address := A.String a, Score := d }
      :: scores, ctx', ?_, ?_⟩
    · simp only [inferenceLoop, ha, hd, hs1, hs2, hrun, List.append_assoc,
        List.singleton_append]
    · exact List.Forall₂.cons ⟨hd, ⟨a, ha, rfl⟩, rfl, rfl⟩ hall

/-- The addresses of `twoInferers` are well-formed and its subtractions succeed. -/
theorem twoInferers_ok :
    (∀ v ∈ twoInferers.OneOutInfererValues,
      ∃ a, plainAddr.AccAddressFromBech32 v.Worker = .ok a) ∧
    (∀ v ∈ twoInferers.OneOutInfererValues,
      ∃ d, intDec.Sub twoInferers.CombinedValue v.Value = .ok d) := by
  constructor
  · intro v hv
    simp only [twoInferers, List.mem_cons, List.mem_singleton, List.not_mem_nil, or_false] at hv
    rcases hv with rfl | rfl
    · exact ⟨"w1", rfl⟩
    · exact ⟨"w2", rfl⟩
  · intro v hv
    simp only [twoInferers, List.mem_cons, List.mem_singleton, List.not_mem_nil, or_false] at hv
    rcases hv with rfl | rfl
    · exact ⟨some 0, rfl⟩
    · exact ⟨some 10, rfl⟩

/-- C5, as stated, fails: on the bundle `twoInferers` (two inferers, well-formed
addresses, subtractions that succeed) `GenerateInferenceScores` returns an error and
no score when the keeper fails to insert the first score. -/
theorem inference_scores_store_failure :
    twoInferers.InfererValues.length ≠ 1 ∧
    (∀ v ∈ twoInferers.OneOutInfererValues,
      ∃ a, plainAddr.AccAddressFromBech32 v.Worker = .ok a) ∧
    (∀ v ∈ twoInferers.OneOutInfererValues,
      ∃ d, intDec.Sub twoInferers.CombinedValue v.Value = .ok d) ∧
    (GenerateInferenceScores intDec plainAddr (failingInsertKeeper (some 1))
        (emptyStore (some 1)) 0 1 twoInferers).1
      = .returned []
          (some (.Wrapf (.root "store: write failed") "Error inserting worker inference score")) ∧
    ¬ ∃ scores,
      (GenerateInferenceScores intDec plainAddr (failingInsertKeeper (some 1))
        (emptyStore (some 1)) 0 1 twoInferers).1 = .returned scores none ∧
      scores.length = twoInferers.OneOutInfererValues.length := by
  refine ⟨by decide, twoInferers_ok.1, twoInferers_ok.2, by decide, ?_⟩
  rintro ⟨scores, h, -⟩
  revert h
  have he : (GenerateInferenceScores intDec plainAddr (failingInsertKeeper (some 1))
        (emptyStore (some 1)) 0 1 twoInferers).1
      = .returned []
          (some (.Wrapf (.root "store: write failed") "Error inserting worker inference score")) := by
    decide
  rw [he]
  intro h
  cases h

/-- C5, amended. Leave-one-out inference score: when `InfererValues` does not have
exactly one entry, every address of `OneOutInfererValues` is well-formed, every
subtraction succeeds and the store writes succeed, `GenerateInferenceScores` returns
without error one score per entry of `OneOutInfererValues`, in the same order, and
the score of an entry is `CombinedValue - OneOutLoss` under the decimal subtraction,
with the address of the entry's worker, the topic and the block. -/
theorem GenerateInferenceScores_leave_one_out {σ Dec Addr : Type} (D : DecOps Dec)
    (A : AddrOps Addr) (keeper : Keeper σ Dec Addr) (ctx : σ) (topicId : Nat) (block : Int)
    (networkLosses : ValueBundle Dec)
    (hlen : networkLosses.InfererValues.length ≠ 1)
    (haddr : ∀ v ∈ networkLosses.OneOutInfererValues,
      ∃ a, A.AccAddressFromBech32 v.Worker = .ok a)
    (hsub : ∀ v ∈ networkLosses.OneOutInfererValues,
      ∃ d, D.Sub networkLosses.CombinedValue v.Value = .ok d)
    (hins : ∀ s sc, ∃ s', keeper.InsertWorkerInferenceScore s topicId block sc = .ok s')
    (hset : ∀ s a sc, ∃ s', keeper.SetLatestInfererScore s topicId a sc = .ok s') :
    ∃ scores,
      (GenerateInferenceScores D A keeper ctx topicId block networkLosses).1
        = .returned scores none ∧
      List.Forall₂
        (fun v sc =>
          D.Sub networkLosses.CombinedValue v.Value = .ok sc.Score ∧
          (∃ a, A.AccAddressFromBech32 v.Worker = .ok a ∧ sc.Address = A.String a) ∧
          sc.TopicId = topicId ∧ sc.BlockNumber = block)
        networkLosses.OneOutInfererValues scores := by
  obtain ⟨scores, ctx', hrun, hall⟩ :=
    inferenceLoop_ok D A keeper topicId block networkLosses hins hset
      networkLosses.OneOutInfererValues haddr hsub [] ctx
  refine ⟨scores, ?_, hall⟩
  unfold GenerateInferenceScores
  rw [if_neg hlen, hrun]
  rfl

/-- Leave-one-out scores of the bundle `twoInferers`: combined loss 100 and one-out
loss 100 give the score 0, combined loss 100 and one-out loss 90 give the score 10. -/
theorem GenerateInferenceScores_leave_one_out_witness :
    twoInferers.InfererValues.length ≠ 1 ∧
    (GenerateInferenceScores intDec plainAddr (memKeeper (some 1))
        (emptyStore (some 1)) 0 1 twoInferers).1
      = .returned
          [ { TopicId := 0, BlockNumber := 1, Address := "w1", Score := some 0 },
            { TopicId := 0, BlockNumber := 1, Address := "w2", Score := some 10 } ] none ∧
    ∃ scores,
      (GenerateInferenceScores intDec plainAddr (memKeeper (some 1))
        (emptyStore (some 1)) 0 1 twoInferers).1 = .returned scores none ∧
      List.Forall₂
        (fun v sc =>
          intDec.Sub twoInferers.CombinedValue v.Value = .ok sc.Score ∧
          (∃ a, plainAddr.AccAddressFromBech32 v.Worker = .ok a ∧
            sc.Address = plainAddr.String a) ∧
          sc.TopicId = 0 ∧ sc.BlockNumber = 1)
        twoInferers.OneOutInfererValues scores :=
  ⟨by decide, by decide,
    GenerateInferenceScores_leave_one_out intDec plainAddr (memKeeper (some 1))
      (emptyStore (some 1)) 0 1 twoInferers (by decide) twoInferers_ok.1 twoInferers_ok.2
      (fun _ _ => ⟨_, rfl⟩) (fun _ _ _ => ⟨_, rfl⟩)⟩

/-- C6, as stated, fails: on the bundle of the message-server test (one inferer)
`GenerateInferenceScores` returns an error and no score when the keeper fails to
insert the zero score. -/
theorem single_inferer_store_failure :
    (testValueBundle "worker").InfererValues.length = 1 ∧
    (GenerateInferenceScores intDec plainAddr (failingInsertKeeper (some 1))
        (emptyStore (some 1)) 0 1 (testValueBundle "worker")).1
      = .returned []
          (some (.Wrapf (.root "store: write failed") "Error inserting worker inference score")) := by
  constructor
  · decide
  · decide

/-- C6, amended. Single-inferer case: when `InfererValues` has exactly one entry and
the keeper inserts the score without error, `GenerateInferenceScores` returns without
error exactly one score, of value zero and with that inferer's address, whatever
`OneOutInfererValues` contains. -/
theorem GenerateInferenceScores_single_inferer {σ Dec Addr : Type} (D : DecOps Dec)
    (A : AddrOps Addr) (keeper : Keeper σ Dec Addr) (ctx ctx1 : σ) (topicId : Nat) (block : Int)
    (networkLosses : ValueBundle Dec) (first : WorkerAttributedValue Dec)
    (hone : networkLosses.InfererValues = [first])
    (hins : keeper.InsertWorkerInferenceScore ctx topicId block
        { TopicId := topicId, BlockNumber := block, Address := first.Worker,
          Score := D.ZeroDec } = .ok ctx1) :
    GenerateInferenceScores D A keeper ctx topicId block networkLosses
      = (.returned
          [{ TopicId := topicId, BlockNumber := block, Address := first.Worker,
             Score := D.ZeroDec }] none, ctx1) := by
  unfold GenerateInferenceScores
  simp only [hone, List.length_singleton, if_true, List.getElem?_cons_zero, hins,
    List.nil_append]

/-- The single-inferer case at the bundle of the message-server test: one zero score
for its worker, and one row in the inference score history. -/
theorem GenerateInferenceScores_single_inferer_witness :
    (testValueBundle "worker").InfererValues = [{ Worker := "worker", Value := some 100 }] ∧
    GenerateInferenceScores intDec plainAddr (memKeeper (some 1)) (emptyStore (some 1)) 0 1
        (testValueBundle "worker")
      = (.returned
          [{ TopicId := 0, BlockNumber := 1, Address := "worker", Score := some 0 }] none,
         { emptyStore (some 1) with
           infererScores :=
             [((0, 1), { TopicId := 0, BlockNumber := 1, Address := "worker",
                         Score := some 0 })] }) :=
  ⟨rfl,
    GenerateInferenceScores_single_inferer intDec plainAddr (memKeeper (some 1))
      (emptyStore (some 1)) _ 0 1 (testValueBundle "worker")
      { Worker := "worker", Value := some 100 } rfl rfl⟩

/-! ## Claims on the forecast scorer -/

/-- C7. The code at the failing input: on a bundle whose only forecaster is
`forecaster`, `GenerateForecastScores` returns one zero score whose address is
`inferer1`, the first entry of `InfererValues`; and when `InfererValues` is empty the
access `InfererValues[0]` panics. -/
theorem single_forecaster_score_keyed_to_inferer :
    soleForecaster.ForecasterValues = [{ Worker := "forecaster", Value := .lit 100 }] ∧
    (GenerateForecastScores termDec plainAddr termForecast (memKeeper (.lit 1))
        (emptyStore (.lit 1)) 0 1 soleForecaster).1
      = .returned
          [{ TopicId := 0, BlockNumber := 1, Address := "inferer1", Score := .lit 0 }] none ∧
    (GenerateForecastScores termDec plainAddr termForecast (memKeeper (.lit 1))
        (emptyStore (.lit 1)) 0 1 { soleForecaster with InfererValues := [] }).1
      = .panicked := by
  refine ⟨rfl, ?_, ?_⟩
  · decide
  · decide

/-- The first loop of `GenerateForecastScores`, when it succeeds, appends the one-out
score `CombinedValue - OneOutLoss` of every entry, in order. -/
theorem oneOutLoop_ok {Dec : Type} (D : DecOps Dec) (networkLosses : ValueBundle Dec)
    (l : List (WithheldWorkerAttributedValue Dec)) (acc ws : List Dec)
    (h : oneOutLoop D networkLosses l acc = .ok ws) :
    ∃ new, ws = acc ++ new ∧
      List.Forall₂ (fun v y => D.Sub networkLosses.CombinedValue v.Value = .ok y) l new := by
  induction l generalizing acc with
  | nil =>
    simp only [oneOutLoop, Except.ok.injEq] at h
    exact ⟨[], by simp [h], List.Forall₂.nil⟩
  | cons v rest ih =>
    cases hsub : D.Sub networkLosses.CombinedValue v.Value with
    | error e => simp [oneOutLoop, hsub] at h
    | ok y =>
      simp only [oneOutLoop, hsub] at h
      obtain ⟨new, hws, hall⟩ := ih (acc ++ [y]) h
      exact ⟨y :: new, by simp [hws], List.Forall₂.cons hsub hall⟩

/-- The second loop of `GenerateForecastScores`, when it returns without error,
has appended one score per one-in entry, in order, and the score of the entry at
position `j` is computed from the one-out score at position `j`. -/
theorem forecastLoop_returned {σ Dec Addr : Type} (D : DecOps Dec) (A : AddrOps Addr)
    (R : ForecastOps Dec) (keeper : Keeper σ Dec Addr) (topicId : Nat) (block : Int)
    (networkLosses : ValueBundle Dec) (ws : List Dec) (f : Dec)
    (l : List (WorkerAttributedValue Dec)) (i : Nat) (acc : List (Score Dec)) (ctx : σ)
    (scores : List (Score Dec)) (ctx' : σ)
    (h : forecastLoop D A R keeper topicId block networkLosses ws f i l acc ctx
      = (.returned scores none, ctx')) :
    ∃ new, scores = acc ++ new ∧
      List.Forall₂
        (fun (p : Dec × WorkerAttributedValue Dec) sc =>
          (∃ a, A.AccAddressFromBech32 p.2.Worker = .ok a ∧ sc.Address = A.String a) ∧
          (∃ x, D.Sub p.2.Value networkLosses.NaiveValue = .ok x ∧
            R.GetFinalWorkerScoreForecastTask x p.1 f = .ok sc.Score) ∧
          sc.TopicId = topicId ∧ sc.BlockNumber = block)
        ((ws.drop i).zip l) new := by
  induction l generalizing i acc ctx with
  | nil =>
    simp only [forecastLoop, Prod.mk.injEq, Outcome.returned.injEq, and_true] at h
    exact ⟨[], by simp [h.1], by simp⟩
  | cons oneIn rest ih =>
    cases ha : A.AccAddressFromBech32 oneIn.Worker with
    | error e => simp [forecastLoop, ha] at h
    | ok a =>
    cases hx : D.Sub oneIn.Value networkLosses.NaiveValue with
    | error e => simp [forecastLoop, ha, hx] at h
    | ok x =>
    cases hy : ws[i]? with
    | none => simp [forecastLoop, ha, hx, hy] at h
    | some y =>
    cases hf : R.GetFinalWorkerScoreForecastTask x y f with
    | error e => simp [forecastLoop, ha, hx, hy, hf] at h
    | ok z =>
    cases h1 : keeper.InsertWorkerForecastScore ctx topicId block
        { TopicId := topicId, BlockNumber := block, Address := A.String a, Score := z } with
    | error e => simp [forecastLoop, ha, hx, hy, hf, h1] at h
    | ok ctx1 =>
    cases h2 : keeper.SetLatestForecasterScore ctx1 topicId a
        { TopicId := topicId, BlockNumber := block, Address := A.String a, Score := z } with
    | error e => simp [forecastLoop, ha, hx, hy, hf, h1, h2] at h
    | ok ctx2 =>
      simp only [forecastLoop, ha, hx, hy, hf, h1, h2] at h
      obtain ⟨new, hsc, hall⟩ := ih (i + 1) _ ctx2 h
      have hi : i < ws.length := by
        rcases Nat.lt_or_ge i ws.length with hlt | hge
        · exact hlt
        · rw [List.getElem?_eq_none hge] at hy
          cases hy
      have hyi : ws[i] = y := by
        rw [List.getElem?_eq_getElem hi] at hy
        exact Option.some.inj hy
      have hdrop : ws.drop i = y :: ws.drop (i + 1) := by
        rw [← hyi]
        exact List.drop_eq_getElem_cons hi
      refine ⟨{ TopicId := topicId, BlockNumber := block, Address := A.String a, Score := z }
        :: new, by simp [hsc], ?_⟩
      rw [hdrop, List.zip_cons_cons]
      exact List.Forall₂.cons ⟨⟨a, ha, rfl⟩, ⟨x, hx, hf⟩, rfl, rfl⟩ hall

/-- Two position-wise relations along a common middle list compose position-wise. -/
theorem forall₂_zip_compose {X Y W S : Type} (R1 : X → W → Prop) (R2 : W × Y → S → Prop)
    (xs : List X) (ws : List W) (ys : List Y) (scores : List S)
    (h1 : List.Forall₂ R1 xs ws) (h2 : List.Forall₂ R2 (ws.zip ys) scores) :
    List.Forall₂ (fun (p : X × Y) sc => ∃ w, R1 p.1 w ∧ R2 (w, p.2) sc) (xs.zip ys) scores := by
  induction h1 generalizing ys scores with
  | nil =>
    simp only [List.zip_nil_left] at h2 ⊢
    cases h2
    exact List.Forall₂.nil
  | @cons x w xs ws hxw _ ih =>
    cases ys with
    | nil =>
      simp only [List.zip_nil_right] at h2 ⊢
      cases h2
      exact List.Forall₂.nil
    | cons y ys =>
      simp only [List.zip_cons_cons] at h2 ⊢
      cases h2 with
      | cons hhead htail => exact List.Forall₂.cons ⟨w, hxw, hhead⟩ (ih ys _ htail)

/-- Lists with the same keys at the same positions pair entries of equal key. -/
theorem zip_keys_eq {X Y : Type} (kx : X → String) (ky : Y → String) (xs : List X)
    (ys : List Y) (h : xs.map kx = ys.map ky) : ∀ p ∈ xs.zip ys, kx p.1 = ky p.2 := by
  induction xs generalizing ys with
  | nil => simp
  | cons x xs ih =>
    cases ys with
    | nil => simp
    | cons y ys =>
      simp only [List.map_cons, List.cons.injEq] at h
      intro p hp
      simp only [List.zip_cons_cons, List.mem_cons] at hp
      rcases hp with rfl | hp
      · exact h.1
      · exact ih ys h.2 p hp

/-- Every entry of the right list of a position-wise relation has a partner. -/
theorem forall₂_mem_right {X S : Type} (R : X → S → Prop) (xs : List X) (scores : List S)
    (h : List.Forall₂ R xs scores) : ∀ sc ∈ scores, ∃ x ∈ xs, R x sc := by
  induction h with
  | nil => simp
  | @cons x sc xs scores hhead _ ih =>
    intro sc' hsc'
    simp only [List.mem_cons] at hsc'
    rcases hsc' with rfl | hsc'
    · exact ⟨x, List.mem_cons_self _ _, hhead⟩
    · obtain ⟨x', hx', hr⟩ := ih sc' hsc'
      exact ⟨x', List.mem_cons_of_mem _ hx', hr⟩

/-- C8, as stated, fails: `crossedForecasters` lists the same two workers among the
one-out and the one-in losses, in different orders, and the score returned for `b`
is computed from the one-out loss of `a` (10, not 20): the two lists are matched by
position. -/
theorem forecast_scores_matched_by_position :
    (∀ w : String,
      w ∈ crossedForecasters.OneOutForecasterValues.map (fun value => value.Worker) ↔
      w ∈ crossedForecasters.OneInForecasterValues.map (fun value => value.Worker)) ∧
    (GenerateForecastScores termDec plainAddr termForecast (memKeeper (.lit 1))
        (emptyStore (.lit 1)) 0 1 crossedForecasters).1
      = .returned
          [ { TopicId := 0, BlockNumber := 1, Address := "b",
              Score := .finalScore (.sub (.lit 5) (.lit 50)) (.sub (.lit 100) (.lit 10))
                (.fUniqueAgg (.lit 2)) },
            { TopicId := 0, BlockNumber := 1, Address := "a",
              Score := .finalScore (.sub (.lit 7) (.lit 50)) (.sub (.lit 100) (.lit 20))
                (.fUniqueAgg (.lit 2)) } ] none ∧
    ¬ MatchedByWorker termDec plainAddr termForecast crossedForecasters
        { TopicId := 0, BlockNumber := 1, Address := "b",
          Score := .finalScore (.sub (.lit 5) (.lit 50)) (.sub (.lit 100) (.lit 10))
            (.fUniqueAgg (.lit 2)) } := by
  refine ⟨?_, by decide, ?_⟩
  · intro w
    simp only [crossedForecasters, twoForecasters, List.map_cons, List.map_nil, List.mem_cons,
      List.mem_singleton, List.not_mem_nil, or_false]
    exact or_comm
  · rintro ⟨oneIn, hin, oneOut, hout, hw, ⟨a, ha, haddr⟩, x, y, f, hx, hy, -, hfin⟩
    simp only [crossedForecasters, twoForecasters, List.mem_cons, List.not_mem_nil,
      or_false] at hin hout
    simp only [termDec, termForecast, crossedForecasters, twoForecasters, Except.ok.injEq]
      at hx hy hfin
    subst hx hy
    simp only [DecTerm.finalScore.injEq, DecTerm.sub.injEq, DecTerm.lit.injEq, true_and]
      at hfin
    rcases hout with rfl | rfl
    · rcases hin with rfl | rfl
      · simp at hw
      · simp at hfin
    · simp at hfin

/-- C8, amended. Index alignment in forecast scoring: when `OneOutForecasterValues`
and `OneInForecasterValues` list the same workers in the same order, every score
that a call of `GenerateForecastScores` without error returns combines the one-out
score `CombinedValue - OneOutLoss[w]` of a worker `w` with the one-in score of the
same worker `w`, and there is one score per one-in entry. The two lists are matched
by list position. -/
theorem GenerateForecastScores_matched_when_aligned {σ Dec Addr : Type} (D : DecOps Dec)
    (A : AddrOps Addr) (R : ForecastOps Dec) (keeper : Keeper σ Dec Addr) (ctx : σ)
    (topicId : Nat) (block : Int) (networkLosses : ValueBundle Dec) (scores : List (Score Dec))
    (hlen : networkLosses.ForecasterValues.length ≠ 1)
    (hkeys : networkLosses.OneOutForecasterValues.map (fun value => value.Worker)
      = networkLosses.OneInForecasterValues.map (fun value => value.Worker))
    (hrun : (GenerateForecastScores D A R keeper ctx topicId block networkLosses).1
      = .returned scores none) :
    scores.length = networkLosses.OneInForecasterValues.length ∧
    ∀ sc ∈ scores, MatchedByWorker D A R networkLosses sc := by
  unfold GenerateForecastScores at hrun
  rw [if_neg hlen] at hrun
  cases hws : oneOutLoop D networkLosses networkLosses.OneOutForecasterValues [] with
  | error e => simp [hws] at hrun
  | ok ws =>
  obtain ⟨new, hnew, hout⟩ := oneOutLoop_ok D networkLosses _ [] ws hws
  simp only [List.nil_append] at hnew
  subst hnew
  have hwslen : networkLosses.OneOutForecasterValues.length = ws.length := hout.length_eq
  cases hf : R.GetfUniqueAgg (D.NewDecFromInt64 (ws.length : Int)) with
  | error e => simp [hws, hf] at hrun
  | ok f =>
  simp only [hws, hf] at hrun
  have hpair : forecastLoop D A R keeper topicId block networkLosses ws f 0
      networkLosses.OneInForecasterValues [] ctx
      = (.returned scores none,
          (forecastLoop D A R keeper topicId block networkLosses ws f 0
            networkLosses.OneInForecasterValues [] ctx).2) := by
    rw [← hrun]
  obtain ⟨new, hsc, hin⟩ :=
    forecastLoop_returned D A R keeper topicId block networkLosses ws f _ 0 [] ctx scores _ hpair
  simp only [List.nil_append, List.drop_zero] at hsc hin
  subst hsc
  have hall := forall₂_zip_compose _ _ _ _ _ _ hout hin
  have hlenmap := congrArg List.length hkeys
  simp only [List.length_map] at hlenmap
  constructor
  · rw [← hin.length_eq, List.length_zip, ← hwslen, hlenmap, Nat.min_self]
  · intro sc hsc
    obtain ⟨p, hp, y, hy, ⟨a, ha, haddr⟩, ⟨x, hx, hfin⟩, -, -⟩ := forall₂_mem_right _ _ _ hall sc hsc
    have hmem := List.of_mem_zip hp
    refine ⟨p.2, hmem.2, p.1, hmem.1, zip_keys_eq _ _ _ _ hkeys p hp, ⟨a, ha, haddr⟩,
      x, y, f, hx, hy, ?_, hfin⟩
    rw [hwslen]
    exact hf

/-- Forecast scores of `alignedForecasters`, whose two lists share their order: the
score of each worker is computed from its own one-out and one-in loss. -/
theorem GenerateForecastScores_matched_when_aligned_witness :
    alignedForecasters.ForecasterValues.length ≠ 1 ∧
    alignedForecasters.OneOutForecasterValues.map (fun value => value.Worker)
      = alignedForecasters.OneInForecasterValues.map (fun value => value.Worker) ∧
    (GenerateForecastScores termDec plainAddr termForecast (memKeeper (.lit 1))
        (emptyStore (.lit 1)) 0 1 alignedForecasters).1
      = .returned
          [ { TopicId := 0, BlockNumber := 1, Address := "a",
              Score := .finalScore (.sub (.lit 7) (.lit 50)) (.sub (.lit 100) (.lit 10))
                (.fUniqueAgg (.lit 2)) },
            { TopicId := 0, BlockNumber := 1, Address := "b",
              Score := .finalScore (.sub (.lit 5) (.lit 50)) (.sub (.lit 100) (.lit 20))
                (.fUniqueAgg (.lit 2)) } ] none ∧
    ([ { TopicId := 0, BlockNumber := 1, Address := "a",
         Score := DecTerm.finalScore (.sub (.lit 7) (.lit 50)) (.sub (.lit 100) (.lit 10))
           (.fUniqueAgg (.lit 2)) },
       { TopicId := 0, BlockNumber := 1, Address := "b",
         Score := DecTerm.finalScore (.sub (.lit 5) (.lit 50)) (.sub (.lit 100) (.lit 20))
           (.fUniqueAgg (.lit 2)) } ] : List (Score DecTerm)).length
      = alignedForecasters.OneInForecasterValues.length ∧
    ∀ sc ∈ ([ { TopicId := 0, BlockNumber := 1, Address := "a",
                Score := DecTerm.finalScore (.sub (.lit 7) (.lit 50))
                  (.sub (.lit 100) (.lit 10)) (.fUniqueAgg (.lit 2)) },
              { TopicId := 0, BlockNumber := 1, Address := "b",
                Score := DecTerm.finalScore (.sub (.lit 5) (.lit 50))
                  (.sub (.lit 100) (.lit 20)) (.fUniqueAgg (.lit 2)) } ] :
            List (Score DecTerm)),
      MatchedByWorker termDec plainAddr termForecast alignedForecasters sc :=
  ⟨by decide, by decide, by decide,
    GenerateForecastScores_matched_when_aligned termDec plainAddr termForecast
      (memKeeper (.lit 1)) (emptyStore (.lit 1)) 0 1 alignedForecasters _
      (by decide) (by decide) (by decide)⟩

/-! ## Claims on the order of the padded lists -/

/-- A padded key list holds the keys of the key set, each once, when the submitted
keys are distinct. -/
theorem padded_keys_perm (found visited all : List String) (hv : visited.Perm all)
    (hall : all.Nodup) (hf : found.Nodup) (hsub : ∀ w ∈ found, w ∈ all) :
    (found ++ visited.filter (fun worker => decide (worker ∉ found))).Perm all := by
  have hnodup : (found ++ visited.filter (fun worker => decide (worker ∉ found))).Nodup := by
    refine List.Nodup.append hf ((hv.nodup_iff.2 hall).filter _) ?_
    intro w hw hw'
    have := (List.mem_filter.1 hw').2
    simp only [decide_eq_true_eq] at this
    exact this hw
  exact (List.perm_ext_iff_of_nodup hnodup hall).2 (mem_padded_keys found visited all hv hsub)

/-- After normalization every list of a bundle without duplicate keys is a
rearrangement of the category's key set. -/
theorem keys_perm_collectWorkers {Dec : Type} (D : DecOps Dec) (ρ : RangeOrder)
    (hρ : ρ.Valid) (reportedLosses : ReputerValueBundles Dec)
    (hnodup : ∀ b ∈ reportedLosses.ReputerValueBundles,
      (b.ValueBundle.OneOutInfererValues.map (fun value => value.Worker)).Nodup ∧
      (b.ValueBundle.OneOutForecasterValues.map (fun value => value.Worker)).Nodup ∧
      (b.ValueBundle.OneInForecasterValues.map (fun value => value.Worker)).Nodup)
    (bundle' : ReputerValueBundle Dec)
    (h : bundle' ∈ (ensureWorkerPresence D ρ reportedLosses).ReputerValueBundles) :
    (bundle'.ValueBundle.OneOutInfererValues.map (fun value => value.Worker)).Perm
        (collectWorkers reportedLosses.ReputerValueBundles).1 ∧
    (bundle'.ValueBundle.OneOutForecasterValues.map (fun value => value.Worker)).Perm
        (collectWorkers reportedLosses.ReputerValueBundles).2.1 ∧
    (bundle'.ValueBundle.OneInForecasterValues.map (fun value => value.Worker)).Perm
        (collectWorkers reportedLosses.ReputerValueBundles).2.2 := by
  obtain ⟨bundle, hmem, k, rfl⟩ := mem_padBundles D ρ _ _ _ 0 _ bundle' h
  obtain ⟨n1, n2, n3⟩ := nodup_collectWorkers reportedLosses.ReputerValueBundles
  obtain ⟨d1, d2, d3⟩ := hnodup bundle hmem
  refine ⟨?_, ?_, ?_⟩
  · show ((EnsureAllWorkersPresentWithheld D (ρ k) _ _).map _).Perm _
    rw [keys_EnsureAllWorkersPresentWithheld]
    exact padded_keys_perm _ _ _ (hρ k _) n1 d1
      (fun w hw => ((mem_collectWorkers _ w).1).2 ⟨bundle, hmem, hw⟩)
  · show ((EnsureAllWorkersPresentWithheld D (ρ (k + 1)) _ _).map _).Perm _
    rw [keys_EnsureAllWorkersPresentWithheld]
    exact padded_keys_perm _ _ _ (hρ (k + 1) _) n2 d2
      (fun w hw => ((mem_collectWorkers _ w).2.1).2 ⟨bundle, hmem, hw⟩)
  · show ((EnsureAllWorkersPresent D (ρ (k + 2)) _ _).map _).Perm _
    rw [keys_EnsureAllWorkersPresent]
    exact padded_keys_perm _ _ _ (hρ (k + 2) _) n3 d3
      (fun w hw => ((mem_collectWorkers _ w).2.2).2 ⟨bundle, hmem, hw⟩)

/-- The lists of `twoReputers` hold no worker key twice. -/
theorem twoReputers_nodup :
    ∀ b ∈ twoReputers.ReputerValueBundles,
      (b.ValueBundle.OneOutInfererValues.map (fun value => value.Worker)).Nodup ∧
      (b.ValueBundle.OneOutForecasterValues.map (fun value => value.Worker)).Nodup ∧
      (b.ValueBundle.OneInForecasterValues.map (fun value => value.Worker)).Nodup := by
  decide

/-- C9, as stated, fails: no list of `twoReputers` holds a key twice, and after
`ensureWorkerPresence` the first reputer lists the one-in workers in the order `x`,
`y` and the second in the order `y`, `x`, whichever way the maps are iterated:
position 0 is worker `x` in one row and worker `y` in the other. -/
theorem normalized_rows_not_aligned :
    (∀ b ∈ twoReputers.ReputerValueBundles,
      (b.ValueBundle.OneOutInfererValues.map (fun value => value.Worker)).Nodup ∧
      (b.ValueBundle.OneOutForecasterValues.map (fun value => value.Worker)).Nodup ∧
      (b.ValueBundle.OneInForecasterValues.map (fun value => value.Worker)).Nodup) ∧
    (ensureWorkerPresence intDec inOrder twoReputers).ReputerValueBundles.map
        (fun b => b.ValueBundle.OneInForecasterValues.map (fun value => value.Worker))
      = [["x", "y"], ["y", "x"]] ∧
    (ensureWorkerPresence intDec reversed twoReputers).ReputerValueBundles.map
        (fun b => b.ValueBundle.OneInForecasterValues.map (fun value => value.Worker))
      = [["x", "y"], ["y", "x"]] := by
  refine ⟨twoReputers_nodup, ?_, ?_⟩
  · decide
  · decide

/-- C9, amended. After `ensureWorkerPresence` on bundles without duplicate worker
keys inside a list, all bundles list the same worker keys of a category, each key
exactly once: the key lists of any two bundles are rearrangements of one another (so
they have the same length). Each bundle keeps its own order of keys. -/
theorem normalized_rows_same_keys {Dec : Type} (D : DecOps Dec) (ρ : RangeOrder)
    (hρ : ρ.Valid) (reportedLosses : ReputerValueBundles Dec)
    (hnodup : ∀ b ∈ reportedLosses.ReputerValueBundles,
      (b.ValueBundle.OneOutInfererValues.map (fun value => value.Worker)).Nodup ∧
      (b.ValueBundle.OneOutForecasterValues.map (fun value => value.Worker)).Nodup ∧
      (b.ValueBundle.OneInForecasterValues.map (fun value => value.Worker)).Nodup) :
    ∀ b1 ∈ (ensureWorkerPresence D ρ reportedLosses).ReputerValueBundles,
    ∀ b2 ∈ (ensureWorkerPresence D ρ reportedLosses).ReputerValueBundles,
      ((b1.ValueBundle.OneOutInfererValues.map (fun value => value.Worker)).Nodup ∧
        (b1.ValueBundle.OneOutInfererValues.map (fun value => value.Worker)).Perm
          (b2.ValueBundle.OneOutInfererValues.map (fun value => value.Worker))) ∧
      ((b1.ValueBundle.OneOutForecasterValues.map (fun value => value.Worker)).Nodup ∧
        (b1.ValueBundle.OneOutForecasterValues.map (fun value => value.Worker)).Perm
          (b2.ValueBundle.OneOutForecasterValues.map (fun value => value.Worker))) ∧
      ((b1.ValueBundle.OneInForecasterValues.map (fun value => value.Worker)).Nodup ∧
        (b1.ValueBundle.OneInForecasterValues.map (fun value => value.Worker)).Perm
          (b2.ValueBundle.OneInForecasterValues.map (fun value => value.Worker))) := by
  intro b1 h1 b2 h2
  obtain ⟨p1, p2, p3⟩ := keys_perm_collectWorkers D ρ hρ reportedLosses hnodup b1 h1
  obtain ⟨q1, q2, q3⟩ := keys_perm_collectWorkers D ρ hρ reportedLosses hnodup b2 h2
  obtain ⟨n1, n2, n3⟩ := nodup_collectWorkers reportedLosses.ReputerValueBundles
  exact ⟨⟨p1.nodup_iff.2 n1, p1.trans q1.symm⟩, ⟨p2.nodup_iff.2 n2, p2.trans q2.symm⟩,
    ⟨p3.nodup_iff.2 n3, p3.trans q3.symm⟩⟩

/-- The rows of the padded collection `twoReputers` hold the same keys, each once. -/
theorem normalized_rows_same_keys_witness :
    RangeOrder.Valid reversed ∧
    (∀ b ∈ twoReputers.ReputerValueBundles,
      (b.ValueBundle.OneOutInfererValues.map (fun value => value.Worker)).Nodup ∧
      (b.ValueBundle.OneOutForecasterValues.map (fun value => value.Worker)).Nodup ∧
      (b.ValueBundle.OneInForecasterValues.map (fun value => value.Worker)).Nodup) ∧
    ∀ b1 ∈ (ensureWorkerPresence intDec reversed twoReputers).ReputerValueBundles,
    ∀ b2 ∈ (ensureWorkerPresence intDec reversed twoReputers).ReputerValueBundles,
      ((b1.ValueBundle.OneOutInfererValues.map (fun value => value.Worker)).Nodup ∧
        (b1.ValueBundle.OneOutInfererValues.map (fun value => value.Worker)).Perm
          (b2.ValueBundle.OneOutInfererValues.map (fun value => value.Worker))) ∧
      ((b1.ValueBundle.OneOutForecasterValues.map (fun value => value.Worker)).Nodup ∧
        (b1.ValueBundle.OneOutForecasterValues.map (fun value => value.Worker)).Perm
          (b2.ValueBundle.OneOutForecasterValues.map (fun value => value.Worker))) ∧
      ((b1.ValueBundle.OneInForecasterValues.map (fun value => value.Worker)).Nodup ∧
        (b1.ValueBundle.OneInForecasterValues.map (fun value => value.Worker)).Perm
          (b2.ValueBundle.OneInForecasterValues.map (fun value => value.Worker))) :=
  ⟨reversed_valid, twoReputers_nodup,
    normalized_rows_same_keys intDec reversed reversed_valid twoReputers twoReputers_nodup⟩

/-- C10, as stated, fails: on `twoReputers` the first reputer reports no one-out
forecaster loss and the workers `a` and `b` are padded in. The padding follows the
order in which the range over the key set visits the keys, and the code sorts
nowhere: when the keys are visited in the order `a`, `b` the padded list is `a`, `b`,
when they are visited in the order `b`, `a` it is `b`, `a` (not the lexicographic
order), so two runs on this input return bundles that are not identical entry for
entry. -/
theorem padding_order_follows_map_iteration :
    RangeOrder.Valid inOrder ∧ RangeOrder.Valid reversed ∧
    (ensureWorkerPresence intDec inOrder twoReputers).ReputerValueBundles.map
        (fun b => b.ValueBundle.OneOutForecasterValues)
      = [ [{ Worker := "a", Value := none }, { Worker := "b", Value := none }],
          [{ Worker := "a", Value := some 3 }, { Worker := "b", Value := some 4 }] ] ∧
    (ensureWorkerPresence intDec reversed twoReputers).ReputerValueBundles.map
        (fun b => b.ValueBundle.OneOutForecasterValues)
      = [ [{ Worker := "b", Value := none }, { Worker := "a", Value := none }],
          [{ Worker := "a", Value := some 3 }, { Worker := "b", Value := some 4 }] ] ∧
    ensureWorkerPresence intDec inOrder twoReputers
      ≠ ensureWorkerPresence intDec reversed twoReputers := by
  refine ⟨inOrder_valid, reversed_valid, ?_, ?_, ?_⟩
  · decide
  · decide
  · decide

/-! ## Claims on two runs of the normalizer -/

/-- Two padding loops that visit the same keys in two orders add rearrangements of the
same entries, and lists with the same values when every added value is `nan`. -/
theorem paddedAlike_of_perm {α Dec : Type} (value : α → Dec) (nan : Dec) (f : String → α)
    (hf : ∀ w, value (f w) = nan) (found visited visited' : List String)
    (hv : visited.Perm visited') (submitted : List α) :
    PaddedAlike value submitted
      (submitted ++ (visited.filter (fun worker => decide (worker ∉ found))).map f)
      (submitted ++ (visited'.filter (fun worker => decide (worker ∉ found))).map f) := by
  have hperm : ((visited.filter (fun worker => decide (worker ∉ found))).map f).Perm
      ((visited'.filter (fun worker => decide (worker ∉ found))).map f) :=
    (hv.filter _).map f
  refine ⟨_, _, rfl, rfl, hperm, ?_⟩
  have hconst : ∀ l : List String, (l.map f).map value = List.replicate l.length nan := by
    intro l
    induction l with
    | nil => rfl
    | cons w l ih => simp [List.replicate_succ, hf w, ih]
  rw [List.map_append, List.map_append, hconst, hconst, (hv.filter _).length_eq]

/-- Two runs of `EnsureAllWorkersPresent` that visit the keys in two orders. -/
theorem EnsureAllWorkersPresent_alike {Dec : Type} (D : DecOps Dec)
    (visit visit' : List String → List String)
    (values : List (WorkerAttributedValue Dec)) (allWorkers : List String)
    (hv : (visit allWorkers).Perm (visit' allWorkers)) :
    PaddedAlike (fun value => value.Value) values
      (EnsureAllWorkersPresent D visit values allWorkers)
      (EnsureAllWorkersPresent D visit' values allWorkers) := by
  rw [EnsureAllWorkersPresent_eq, EnsureAllWorkersPresent_eq]
  exact paddedAlike_of_perm (fun value : WorkerAttributedValue Dec => value.Value) D.NewNaN
    (fun worker => { Worker := worker, Value := D.NewNaN }) (fun _ => rfl) _ _ _ hv values

/-- Two runs of `EnsureAllWorkersPresentWithheld` that visit the keys in two orders. -/
theorem EnsureAllWorkersPresentWithheld_alike {Dec : Type} (D : DecOps Dec)
    (visit visit' : List String → List String)
    (values : List (WithheldWorkerAttributedValue Dec)) (allWorkers : List String)
    (hv : (visit allWorkers).Perm (visit' allWorkers)) :
    PaddedAlike (fun value => value.Value) values
      (EnsureAllWorkersPresentWithheld D visit values allWorkers)
      (EnsureAllWorkersPresentWithheld D visit' values allWorkers) := by
  rw [EnsureAllWorkersPresentWithheld_eq, EnsureAllWorkersPresentWithheld_eq]
  exact paddedAlike_of_perm (fun value : WithheldWorkerAttributedValue Dec => value.Value)
    D.NewNaN (fun worker => { Worker := worker, Value := D.NewNaN }) (fun _ => rfl) _ _ _ hv
    values

/-- What two runs of the normalizer make of one bundle: the three padded lists are
alike, and the two bundles differ at most in the worker keys of these lists. -/
theorem padBundle_alike {Dec : Type} (D : DecOps Dec) (ρ ρ' : RangeOrder)
    (hρ : ρ.Valid) (hρ' : ρ'.Valid) (a b c : List String) (n n' : Nat)
    (bundle : ReputerValueBundle Dec) :
    PaddedAlike (fun value => value.Value) bundle.ValueBundle.OneOutInfererValues
      (padBundle D ρ a b c n bundle).ValueBundle.OneOutInfererValues
      (padBundle D ρ' a b c n' bundle).ValueBundle.OneOutInfererValues ∧
    PaddedAlike (fun value => value.Value) bundle.ValueBundle.OneOutForecasterValues
      (padBundle D ρ a b c n bundle).ValueBundle.OneOutForecasterValues
      (padBundle D ρ' a b c n' bundle).ValueBundle.OneOutForecasterValues ∧
    PaddedAlike (fun value => value.Value) bundle.ValueBundle.OneInForecasterValues
      (padBundle D ρ a b c n bundle).ValueBundle.OneInForecasterValues
      (padBundle D ρ' a b c n' bundle).ValueBundle.OneInForecasterValues ∧
    SameValues (padBundle D ρ a b c n bundle).ValueBundle
      (padBundle D ρ' a b c n' bundle).ValueBundle ∧
    (padBundle D ρ a b c n bundle).Signature = (padBundle D ρ' a b c n' bundle).Signature ∧
    (padBundle D ρ a b c n bundle).Pubkey = (padBundle D ρ' a b c n' bundle).Pubkey := by
  have h1 := EnsureAllWorkersPresentWithheld_alike D (ρ n) (ρ' n')
    bundle.ValueBundle.OneOutInfererValues a ((hρ n a).trans (hρ' n' a).symm)
  have h2 := EnsureAllWorkersPresentWithheld_alike D (ρ (n + 1)) (ρ' (n' + 1))
    bundle.ValueBundle.OneOutForecasterValues b ((hρ (n + 1) b).trans (hρ' (n' + 1) b).symm)
  have h3 := EnsureAllWorkersPresent_alike D (ρ (n + 2)) (ρ' (n' + 2))
    bundle.ValueBundle.OneInForecasterValues c ((hρ (n + 2) c).trans (hρ' (n' + 2) c).symm)
  refine ⟨h1, h2, h3, ⟨rfl, rfl, rfl, rfl, rfl, rfl, ?_, ?_, ?_, rfl⟩, rfl, rfl⟩
  · obtain ⟨_, _, _, _, _, h⟩ := h1
    exact h
  · obtain ⟨_, _, _, _, _, h⟩ := h2
    exact h
  · obtain ⟨_, _, _, _, _, h⟩ := h3
    exact h

/-- Two runs of the second loop of `ensureWorkerPresence`, bundle by bundle. -/
theorem padBundles_alike {Dec : Type} (D : DecOps Dec) (ρ ρ' : RangeOrder)
    (a b c : List String) (n n' : Nat) (bundles : List (ReputerValueBundle Dec)) :
    List.Forall₂
      (fun bundle (runs : ReputerValueBundle Dec × ReputerValueBundle Dec) =>
        ∃ k k', runs.1 = padBundle D ρ a b c k bundle ∧ runs.2 = padBundle D ρ' a b c k' bundle)
      bundles ((padBundles D ρ a b c n bundles).zip (padBundles D ρ' a b c n' bundles)) := by
  induction bundles generalizing n n' with
  | nil => exact List.Forall₂.nil
  | cons bundle rest ih =>
    exact List.Forall₂.cons ⟨n, n', rfl, rfl⟩ (ih (n + 3) (n' + 3))

/-- Two runs of the second loop of `ensureWorkerPresence`, one against the other. -/
theorem padBundles_sameValues {Dec : Type} (D : DecOps Dec) (ρ ρ' : RangeOrder)
    (hρ : ρ.Valid) (hρ' : ρ'.Valid)
    (a b c : List String) (n n' : Nat) (bundles : List (ReputerValueBundle Dec)) :
    List.Forall₂ (fun run run' => SameValues run.ValueBundle run'.ValueBundle)
      (padBundles D ρ a b c n bundles) (padBundles D ρ' a b c n' bundles) := by
  induction bundles generalizing n n' with
  | nil => exact List.Forall₂.nil
  | cons bundle rest ih =>
    exact List.Forall₂.cons (padBundle_alike D ρ ρ' hρ hρ' a b c n n' bundle).2.2.2.1
      (ih (n + 3) (n' + 3))

/-- The first loop of `GenerateReputerScores` reads of a bundle its reputer and its
row of losses only. -/
theorem fetchReputers_congr {σ Dec Addr : Type} (D : DecOps Dec) (A : AddrOps Addr)
    (R : ReputerOps Dec) (keeper : Keeper σ Dec Addr) (ctx : σ) (topicId : Nat)
    (l l' : List (ReputerValueBundle Dec))
    (h : List.Forall₂
      (fun run run' =>
        run.ValueBundle.Reputer = run'.ValueBundle.Reputer ∧
        R.ExtractValues run.ValueBundle = R.ExtractValues run'.ValueBundle) l l')
    (data : ReputerData Dec Addr) :
    fetchReputers D A R keeper ctx topicId l data
      = fetchReputers D A R keeper ctx topicId l' data := by
  induction h generalizing data with
  | nil => rfl
  | @cons x y xs ys hxy _ ih =>
    obtain ⟨hr, hv⟩ := hxy
    simp only [fetchReputers, hr, hv, ih]

/-- Two lists whose entries have the same image position by position have the same
list of images. -/
theorem map_eq_of_forall₂ {X Y : Type} (f : X → Y) (l l' : List X)
    (h : List.Forall₂ (fun x x' => f x = f x') l l') : l.map f = l'.map f := by
  induction h with
  | nil => rfl
  | cons hxy _ ih => rw [List.map_cons, List.map_cons, hxy, ih]

/-- The functions `sampleReputerOps` build the row of a bundle from its values. -/
theorem sampleReputerOps_reads_values :
    ∀ bundle bundle' : ValueBundle (Option Int), SameValues bundle bundle' →
      sampleReputerOps.ExtractValues bundle = sampleReputerOps.ExtractValues bundle' := by
  rintro bundle bundle' ⟨-, -, h1, h2, h3, -, h4, h5, h6, -⟩
  simp only [sampleReputerOps, h1, h2, h3, h4, h5, h6]

/-- C10, amended. The padding entries of a list are the keys of the category that
the list misses, appended in the order in which the range over the key set visits
them, whatever that order is. Two runs of `ensureWorkerPresence` on the same input,
under any two visiting orders, return for every bundle lists that begin with the
submitted entries, continue with the same padding entries up to their order, and
hold the same values position by position (every padding value is NaN); outside the
worker keys of the padding the two results are the same. So when `ExtractValues`
reads of a bundle nothing but its values, `GenerateReputerScores` sees the same loss
rows in both runs, returns the same outcome and leaves the same store. -/
theorem padding_runs_agree_up_to_order {σ Dec Addr : Type} (D : DecOps Dec)
    (A : AddrOps Addr) (R : ReputerOps Dec) (keeper : Keeper σ Dec Addr)
    (ρ ρ' : RangeOrder) (hρ : ρ.Valid) (hρ' : ρ'.Valid)
    (hR : ∀ bundle bundle' : ValueBundle Dec, SameValues bundle bundle' →
      R.ExtractValues bundle = R.ExtractValues bundle')
    (ctx : σ) (topicId : Nat) (block : Int) (reportedLosses : ReputerValueBundles Dec) :
    List.Forall₂
      (fun bundle run => ∃ n,
        run.ValueBundle.OneOutInfererValues
          = bundle.ValueBundle.OneOutInfererValues ++
            ((ρ n (collectWorkers reportedLosses.ReputerValueBundles).1).filter
              (fun worker => decide (worker ∉
                bundle.ValueBundle.OneOutInfererValues.map (fun value => value.Worker)))).map
              (fun worker => { Worker := worker, Value := D.NewNaN }) ∧
        run.ValueBundle.OneOutForecasterValues
          = bundle.ValueBundle.OneOutForecasterValues ++
            ((ρ (n + 1) (collectWorkers reportedLosses.ReputerValueBundles).2.1).filter
              (fun worker => decide (worker ∉
                bundle.ValueBundle.OneOutForecasterValues.map
                  (fun value => value.Worker)))).map
              (fun worker => { Worker := worker, Value := D.NewNaN }) ∧
        run.ValueBundle.OneInForecasterValues
          = bundle.ValueBundle.OneInForecasterValues ++
            ((ρ (n + 2) (collectWorkers reportedLosses.ReputerValueBundles).2.2).filter
              (fun worker => decide (worker ∉
                bundle.ValueBundle.OneInForecasterValues.map
                  (fun value => value.Worker)))).map
              (fun worker => { Worker := worker, Value := D.NewNaN }))
      reportedLosses.ReputerValueBundles
      (ensureWorkerPresence D ρ reportedLosses).ReputerValueBundles ∧
    List.Forall₂
      (fun bundle (runs : ReputerValueBundle Dec × ReputerValueBundle Dec) =>
        PaddedAlike (fun value => value.Value) bundle.ValueBundle.OneOutInfererValues
          runs.1.ValueBundle.OneOutInfererValues runs.2.ValueBundle.OneOutInfererValues ∧
        PaddedAlike (fun value => value.Value) bundle.ValueBundle.OneOutForecasterValues
          runs.1.ValueBundle.OneOutForecasterValues
          runs.2.ValueBundle.OneOutForecasterValues ∧
        PaddedAlike (fun value => value.Value) bundle.ValueBundle.OneInForecasterValues
          runs.1.ValueBundle.OneInForecasterValues runs.2.ValueBundle.OneInForecasterValues ∧
        SameValues runs.1.ValueBundle runs.2.ValueBundle ∧
        runs.1.Signature = runs.2.Signature ∧ runs.1.Pubkey = runs.2.Pubkey)
      reportedLosses.ReputerValueBundles
      ((ensureWorkerPresence D ρ reportedLosses).ReputerValueBundles.zip
        (ensureWorkerPresence D ρ' reportedLosses).ReputerValueBundles) ∧
    (ensureWorkerPresence D ρ reportedLosses).ReputerValueBundles.map
        (fun bundle => R.ExtractValues bundle.ValueBundle)
      = (ensureWorkerPresence D ρ' reportedLosses).ReputerValueBundles.map
        (fun bundle => R.ExtractValues bundle.ValueBundle) ∧
    GenerateReputerScores D A R keeper ρ ctx topicId block reportedLosses
      = GenerateReputerScores D A R keeper ρ' ctx topicId block reportedLosses := by
  have hsame := padBundles_sameValues D ρ ρ' hρ hρ'
    (collectWorkers reportedLosses.ReputerValueBundles).1
    (collectWorkers reportedLosses.ReputerValueBundles).2.1
    (collectWorkers reportedLosses.ReputerValueBundles).2.2 0 0
    reportedLosses.ReputerValueBundles
  refine ⟨?_, ?_, ?_, ?_⟩
  · refine List.Forall₂.imp ?_ (forall₂_padBundles D ρ _ _ _ 0 _)
    rintro bundle run ⟨k, rfl⟩
    exact ⟨k, EnsureAllWorkersPresentWithheld_eq D _ _ _,
      EnsureAllWorkersPresentWithheld_eq D _ _ _, EnsureAllWorkersPresent_eq D _ _ _⟩
  · refine List.Forall₂.imp ?_ (padBundles_alike D ρ ρ' _ _ _ 0 0 _)
    rintro bundle ⟨run, run'⟩ ⟨k, k', h1, h2⟩
    simp only at h1 h2
    subst h1
    subst h2
    exact padBundle_alike D ρ ρ' hρ hρ' _ _ _ k k' bundle
  · exact map_eq_of_forall₂ _ _ _ (List.Forall₂.imp (fun run run' h => hR _ _ h) hsame)
  · have hfetch := fetchReputers_congr D A R keeper ctx topicId _ _
      (List.Forall₂.imp (fun run run' h => ⟨h.2.1, hR _ _ h⟩) hsame)
      { reputerAddresses := [], reputerStakes := [], reputerListeningCoefficients := [],
        losses := [] }
    unfold GenerateReputerScores
    simp only []
    show (match fetchReputers D A R keeper ctx topicId (padBundles D ρ _ _ _ 0 _) _ with
      | .error err => _ | .ok data => _) = _
    rw [hfetch]
    rfl

/-- Two runs on `twoReputers`, one visiting the keys in insertion order and one in
reverse order: the results are alike, and the reputer scorer returns the same scores
and leaves the same store. -/
theorem padding_runs_agree_up_to_order_witness :
    RangeOrder.Valid inOrder ∧ RangeOrder.Valid reversed ∧
    (∀ bundle bundle' : ValueBundle (Option Int), SameValues bundle bundle' →
      sampleReputerOps.ExtractValues bundle = sampleReputerOps.ExtractValues bundle') ∧
    List.Forall₂
      (fun bundle run => ∃ n,
        run.ValueBundle.OneOutInfererValues
          = bundle.ValueBundle.OneOutInfererValues ++
            ((inOrder n (collectWorkers twoReputers.ReputerValueBundles).1).filter
              (fun worker => decide (worker ∉
                bundle.ValueBundle.OneOutInfererValues.map (fun value => value.Worker)))).map
              (fun worker => { Worker := worker, Value := intDec.NewNaN }) ∧
        run.ValueBundle.OneOutForecasterValues
          = bundle.ValueBundle.OneOutForecasterValues ++
            ((inOrder (n + 1) (collectWorkers twoReputers.ReputerValueBundles).2.1).filter
              (fun worker => decide (worker ∉
                bundle.ValueBundle.OneOutForecasterValues.map
                  (fun value => value.Worker)))).map
              (fun worker => { Worker := worker, Value := intDec.NewNaN }) ∧
        run.ValueBundle.OneInForecasterValues
          = bundle.ValueBundle.OneInForecasterValues ++
            ((inOrder (n + 2) (collectWorkers twoReputers.ReputerValueBundles).2.2).filter
              (fun worker => decide (worker ∉
                bundle.ValueBundle.OneInForecasterValues.map
                  (fun value => value.Worker)))).map
              (fun worker => { Worker := worker, Value := intDec.NewNaN }))
      twoReputers.ReputerValueBundles
      (ensureWorkerPresence intDec inOrder twoReputers).ReputerValueBundles ∧
    List.Forall₂
      (fun bundle
          (runs : ReputerValueBundle (Option Int) × ReputerValueBundle (Option Int)) =>
        PaddedAlike (fun value => value.Value) bundle.ValueBundle.OneOutInfererValues
          runs.1.ValueBundle.OneOutInfererValues runs.2.ValueBundle.OneOutInfererValues ∧
        PaddedAlike (fun value => value.Value) bundle.ValueBundle.OneOutForecasterValues
          runs.1.ValueBundle.OneOutForecasterValues
          runs.2.ValueBundle.OneOutForecasterValues ∧
        PaddedAlike (fun value => value.Value) bundle.ValueBundle.OneInForecasterValues
          runs.1.ValueBundle.OneInForecasterValues runs.2.ValueBundle.OneInForecasterValues ∧
        SameValues runs.1.ValueBundle runs.2.ValueBundle ∧
        runs.1.Signature = runs.2.Signature ∧ runs.1.Pubkey = runs.2.Pubkey)
      twoReputers.ReputerValueBundles
      ((ensureWorkerPresence intDec inOrder twoReputers).ReputerValueBundles.zip
        (ensureWorkerPresence intDec reversed twoReputers).ReputerValueBundles) ∧
    (ensureWorkerPresence intDec inOrder twoReputers).ReputerValueBundles.map
        (fun bundle => sampleReputerOps.ExtractValues bundle.ValueBundle)
      = (ensureWorkerPresence intDec reversed twoReputers).ReputerValueBundles.map
        (fun bundle => sampleReputerOps.ExtractValues bundle.ValueBundle) ∧
    GenerateReputerScores intDec plainAddr sampleReputerOps (memKeeper (some 1)) inOrder
        (emptyStore (some 1)) 0 1 twoReputers
      = GenerateReputerScores intDec plainAddr sampleReputerOps (memKeeper (some 1)) reversed
        (emptyStore (some 1)) 0 1 twoReputers :=
  ⟨inOrder_valid, reversed_valid, sampleReputerOps_reads_values,
    padding_runs_agree_up_to_order intDec plainAddr sampleReputerOps (memKeeper (some 1))
      inOrder reversed inOrder_valid reversed_valid sampleReputerOps_reads_values
      (emptyStore (some 1)) 0 1 twoReputers⟩

/-! ## Claims on failing calls -/

/-- The loop of `GenerateInferenceScores` returns an error and no score as soon as
one of the entries it is given has a malformed address or a failing subtraction. -/
theorem inferenceLoop_bad {σ Dec Addr : Type} (D : DecOps Dec) (A : AddrOps Addr)
    (keeper : Keeper σ Dec Addr) (topicId : Nat) (block : Int)
    (networkLosses : ValueBundle Dec) (l : List (WithheldWorkerAttributedValue Dec))
    (hbad : ∃ v ∈ l, (∃ e, A.AccAddressFromBech32 v.Worker = .error e) ∨
      (∃ e, D.Sub networkLosses.CombinedValue v.Value = .error e))
    (newScores : List (Score Dec)) (ctx : σ) :
    ∃ err ctx',
      inferenceLoop D A keeper topicId block networkLosses l newScores ctx
        = (.returned [] (some err), ctx') := by
  induction l generalizing newScores ctx with
  | nil =>
    obtain ⟨v, hv, -⟩ := hbad
    simp at hv
  | cons v rest ih =>
    cases ha : A.AccAddressFromBech32 v.Worker with
    | error e => exact ⟨e, ctx, by simp only [inferenceLoop, ha]⟩
    | ok a =>
    cases hd : D.Sub networkLosses.CombinedValue v.Value with
    | error e =>
      exact ⟨.Wrapf e "Error getting worker score", ctx, by simp only [inferenceLoop, ha, hd]⟩
    | ok d =>
    cases h1 : keeper.InsertWorkerInferenceScore ctx topicId block
        { TopicId := topicId, BlockNumber := block, Address := A.String a, Score := d } with
    | error e =>
      exact ⟨.Wrapf e "Error inserting worker inference score", ctx,
        by simp only [inferenceLoop, ha, hd, h1]⟩
    | ok ctx1 =>
    cases h2 : keeper.SetLatestInfererScore ctx1 topicId a
        { TopicId := topicId, BlockNumber := block, Address := A.String a, Score := d } with
    | error e =>
      exact ⟨.Wrapf e "error setting latest inferer score", ctx1,
        by simp only [inferenceLoop, ha, hd, h1, h2]⟩
    | ok ctx2 =>
      have hrest : ∃ v ∈ rest, (∃ e, A.AccAddressFromBech32 v.Worker = .error e) ∨
          (∃ e, D.Sub networkLosses.CombinedValue v.Value = .error e) := by
        obtain ⟨v', hv', hb⟩ := hbad
        simp only [List.mem_cons] at hv'
        rcases hv' with rfl | hv'
        · rcases hb with ⟨e, he⟩ | ⟨e, he⟩
          · rw [ha] at he
            cases he
          · rw [hd] at he
            cases he
        · exact ⟨v', hv', hb⟩
      obtain ⟨err, ctx', hrun⟩ := ih hrest
        (newScores ++
          [{ TopicId := topicId, BlockNumber := block, Address := A.String a, Score := d }]) ctx2
      exact ⟨err, ctx', by simp only [inferenceLoop, ha, hd, h1, h2, hrun]⟩

/-- C11, as stated, fails: the only worker address of `malformedSoleInferer` is
malformed, `GenerateInferenceScores` uses it as the address of the score it builds,
and the call returns that score without an error. -/
theorem malformed_sole_inferer_accepted :
    (∃ e, plainAddr.AccAddressFromBech32 "" = .error e) ∧
    malformedSoleInferer.InfererValues = [{ Worker := "", Value := some 100 }] ∧
    (GenerateInferenceScores intDec plainAddr (memKeeper (some 1)) (emptyStore (some 1)) 0 1
        malformedSoleInferer).1
      = .returned [{ TopicId := 0, BlockNumber := 1, Address := "", Score := some 0 }] none := by
  refine ⟨⟨_, rfl⟩, rfl, ?_⟩
  decide

/-- C11, amended. Inference scoring fails as a whole on a bad worker: when
`InfererValues` does not have exactly one entry and some address of
`OneOutInfererValues` is malformed or some subtraction `CombinedValue - OneOutLoss`
fails, `GenerateInferenceScores` returns an error and an empty score list, never the
scores of the other workers. -/
theorem GenerateInferenceScores_fails_as_a_whole {σ Dec Addr : Type} (D : DecOps Dec)
    (A : AddrOps Addr) (keeper : Keeper σ Dec Addr) (ctx : σ) (topicId : Nat) (block : Int)
    (networkLosses : ValueBundle Dec)
    (hlen : networkLosses.InfererValues.length ≠ 1)
    (hbad : ∃ v ∈ networkLosses.OneOutInfererValues,
      (∃ e, A.AccAddressFromBech32 v.Worker = .error e) ∨
      (∃ e, D.Sub networkLosses.CombinedValue v.Value = .error e)) :
    ∃ err,
      (GenerateInferenceScores D A keeper ctx topicId block networkLosses).1
        = .returned [] (some err) := by
  obtain ⟨err, ctx', hrun⟩ :=
    inferenceLoop_bad D A keeper topicId block networkLosses _ hbad [] ctx
  refine ⟨err, ?_⟩
  unfold GenerateInferenceScores
  rw [if_neg hlen, hrun]

/-- The second worker of `secondWorkerMalformed` has a malformed address. -/
theorem secondWorkerMalformed_bad :
    ∃ v ∈ secondWorkerMalformed.OneOutInfererValues,
      (∃ e, plainAddr.AccAddressFromBech32 v.Worker = .error e) ∨
      (∃ e, intDec.Sub secondWorkerMalformed.CombinedValue v.Value = .error e) :=
  ⟨{ Worker := "", Value := some 90 }, by decide, Or.inl ⟨_, rfl⟩⟩

/-- The failing call on `secondWorkerMalformed`: the error of the address decoder and
no score, although the first worker is well-formed. -/
theorem GenerateInferenceScores_fails_as_a_whole_witness :
    secondWorkerMalformed.InfererValues.length ≠ 1 ∧
    (GenerateInferenceScores intDec plainAddr (memKeeper (some 1)) (emptyStore (some 1)) 0 1
        secondWorkerMalformed).1
      = .returned [] (some (.root "empty address string is not allowed")) ∧
    ∃ err,
      (GenerateInferenceScores intDec plainAddr (memKeeper (some 1)) (emptyStore (some 1)) 0 1
        secondWorkerMalformed).1 = .returned [] (some err) :=
  ⟨by decide, by decide,
    GenerateInferenceScores_fails_as_a_whole intDec plainAddr (memKeeper (some 1))
      (emptyStore (some 1)) 0 1 secondWorkerMalformed (by decide) secondWorkerMalformed_bad⟩

/-- The first loop of `GenerateReputerScores` fails as soon as one of the bundles it
is given has a malformed reputer address, a stake that cannot be read or a listening
coefficient that cannot be read. -/
theorem fetchReputers_bad {σ Dec Addr : Type} (D : DecOps Dec) (A : AddrOps Addr)
    (R : ReputerOps Dec) (keeper : Keeper σ Dec Addr) (ctx : σ) (topicId : Nat)
    (l : List (ReputerValueBundle Dec))
    (hbad : ∃ b ∈ l, (∃ e, A.AccAddressFromBech32 b.ValueBundle.Reputer = .error e) ∨
      ∃ a, A.AccAddressFromBech32 b.ValueBundle.Reputer = .ok a ∧
        ((∃ e, keeper.GetStakeOnReputerInTopic ctx topicId a = .error e) ∨
          (∃ e, keeper.GetListeningCoefficient ctx topicId a = .error e)))
    (data : ReputerData Dec Addr) :
    ∃ err, fetchReputers D A R keeper ctx topicId l data = .error err := by
  induction l generalizing data with
  | nil =>
    obtain ⟨b, hb, -⟩ := hbad
    simp at hb
  | cons b rest ih =>
    cases ha : A.AccAddressFromBech32 b.ValueBundle.Reputer with
    | error e => exact ⟨e, by simp only [fetchReputers, ha]⟩
    | ok a =>
    cases hs : keeper.GetStakeOnReputerInTopic ctx topicId a with
    | error e =>
      exact ⟨.Wrapf e "Error getting GetStakeOnReputerInTopic",
        by simp only [fetchReputers, ha, hs]⟩
    | ok stake =>
    cases hd : D.NewDecFromSdkUint stake with
    | error e =>
      exact ⟨.Wrapf e "Error converting reputer stake to Dec",
        by simp only [fetchReputers, ha, hs, hd]⟩
    | ok stakeDec =>
    cases hc : keeper.GetListeningCoefficient ctx topicId a with
    | error e =>
      exact ⟨.Wrapf e "Error getting GetListeningCoefficient",
        by simp only [fetchReputers, ha, hs, hd, hc]⟩
    | ok res =>
      have hrest : ∃ b ∈ rest,
          (∃ e, A.AccAddressFromBech32 b.ValueBundle.Reputer = .error e) ∨
          ∃ a, A.AccAddressFromBech32 b.ValueBundle.Reputer = .ok a ∧
            ((∃ e, keeper.GetStakeOnReputerInTopic ctx topicId a = .error e) ∨
              (∃ e, keeper.GetListeningCoefficient ctx topicId a = .error e)) := by
        obtain ⟨b', hb', hb⟩ := hbad
        simp only [List.mem_cons] at hb'
        rcases hb' with rfl | hb'
        · rcases hb with ⟨e, he⟩ | ⟨a', ha', hread⟩
          · rw [ha] at he
            cases he
          · rw [ha] at ha'
            cases ha'
            rcases hread with ⟨e, he⟩ | ⟨e, he⟩
            · rw [hs] at he
              cases he
            · rw [hc] at he
              cases he
        · exact ⟨b', hb', hb⟩
      obtain ⟨err, hrun⟩ := ih hrest
        { reputerAddresses := data.reputerAddresses ++ [a]
          reputerStakes := data.reputerStakes ++ [stakeDec]
          reputerListeningCoefficients := data.reputerListeningCoefficients ++ [res.Coefficient]
          losses := data.losses ++ [R.ExtractValues b.ValueBundle] }
      exact ⟨err, by simp only [fetchReputers, ha, hs, hd, hc, hrun]⟩

/-- Every input bundle has its padding in the result of the second loop of the
normalizer. -/
theorem mem_padBundles_of_mem {Dec : Type} (D : DecOps Dec) (ρ : RangeOrder)
    (a b c : List String) (n : Nat) (bundles : List (ReputerValueBundle Dec))
    (bundle : ReputerValueBundle Dec) (h : bundle ∈ bundles) :
    ∃ k, padBundle D ρ a b c k bundle ∈ padBundles D ρ a b c n bundles := by
  induction bundles generalizing n with
  | nil => simp at h
  | cons b0 rest ih =>
    simp only [List.mem_cons] at h
    rcases h with rfl | h
    · exact ⟨n, by simp [padBundles]⟩
    · obtain ⟨k, hk⟩ := ih (n + 3) h
      exact ⟨k, by simp [padBundles, hk]⟩

/-- C13. The reputer batch aborts cleanly on a bad address or a failed read: when
some reputer address of the collection is malformed, or the stake or the prior
listening coefficient of some reputer cannot be read, `GenerateReputerScores`
returns an error and an empty score list and leaves the store as it was before the
call: no listening coefficient, no history score and no latest score is written. -/
theorem GenerateReputerScores_aborts_cleanly {σ Dec Addr : Type} (D : DecOps Dec)
    (A : AddrOps Addr) (R : ReputerOps Dec) (keeper : Keeper σ Dec Addr) (ρ : RangeOrder)
    (ctx : σ) (topicId : Nat) (block : Int) (reportedLosses : ReputerValueBundles Dec)
    (hbad : ∃ b ∈ reportedLosses.ReputerValueBundles,
      (∃ e, A.AccAddressFromBech32 b.ValueBundle.Reputer = .error e) ∨
      ∃ a, A.AccAddressFromBech32 b.ValueBundle.Reputer = .ok a ∧
        ((∃ e, keeper.GetStakeOnReputerInTopic ctx topicId a = .error e) ∨
          (∃ e, keeper.GetListeningCoefficient ctx topicId a = .error e))) :
    ∃ err,
      GenerateReputerScores D A R keeper ρ ctx topicId block reportedLosses
        = (.returned [] (some err), ctx) := by
  obtain ⟨b, hb, hbadb⟩ := hbad
  obtain ⟨k, hk⟩ := mem_padBundles_of_mem D ρ
    (collectWorkers reportedLosses.ReputerValueBundles).1
    (collectWorkers reportedLosses.ReputerValueBundles).2.1
    (collectWorkers reportedLosses.ReputerValueBundles).2.2 0 _ b hb
  obtain ⟨err, hrun⟩ := fetchReputers_bad D A R keeper ctx topicId
    (ensureWorkerPresence D ρ reportedLosses).ReputerValueBundles
    ⟨_, hk, hbadb⟩
    { reputerAddresses := [], reputerStakes := [], reputerListeningCoefficients := [],
      losses := [] }
  refine ⟨err, ?_⟩
  unfold GenerateReputerScores
  simp only [hrun]

/-- The second reputer of `secondReputerMalformed` has a malformed address. -/
theorem secondReputerMalformed_bad :
    ∃ b ∈ secondReputerMalformed.ReputerValueBundles,
      (∃ e, plainAddr.AccAddressFromBech32 b.ValueBundle.Reputer = .error e) ∨
      ∃ a, plainAddr.AccAddressFromBech32 b.ValueBundle.Reputer = .ok a ∧
        ((∃ e, (memKeeper (some (1 : Int))).GetStakeOnReputerInTopic
            (emptyStore (some (1 : Int))) 0 a = .error e) ∨
          (∃ e, (memKeeper (some (1 : Int))).GetListeningCoefficient
            (emptyStore (some (1 : Int))) 0 a = .error e)) :=
  ⟨sampleBundle "" [{ Worker := "y", Value := some 2 }] []
      [{ Worker := "y", Value := some 2 }], by decide, Or.inl ⟨_, rfl⟩⟩

/-- The failing batch `secondReputerMalformed`: the error of the address decoder, no
score, and the store as it was, although the first reputer is well-formed. -/
theorem GenerateReputerScores_aborts_cleanly_witness :
    GenerateReputerScores intDec plainAddr sampleReputerOps (memKeeper (some 1)) reversed
        (emptyStore (some 1)) 0 1 secondReputerMalformed
      = (.returned [] (some (.root "empty address string is not allowed")),
          emptyStore (some 1)) ∧
    ∃ err,
      GenerateReputerScores intDec plainAddr sampleReputerOps (memKeeper (some 1)) reversed
        (emptyStore (some 1)) 0 1 secondReputerMalformed
      = (.returned [] (some err), emptyStore (some 1)) :=
  ⟨by decide,
    GenerateReputerScores_aborts_cleanly intDec plainAddr sampleReputerOps (memKeeper (some 1))
      reversed (emptyStore (some 1)) 0 1 secondReputerMalformed secondReputerMalformed_bad⟩

/-! ## Claims on the frame of the normalizer -/

/-- The loop that collects the keys of a list, on pointers that are not nil. -/
theorem insertWorkersPtr_some {α : Type} (key : α → String) (values : List α)
    (m : List String) :
    insertWorkersPtr key (values.map some) m
      = some (values.foldl (fun m v => mapSet m (key v)) m) := by
  induction values generalizing m with
  | nil => rfl
  | cons v rest ih => simp only [List.map_cons, insertWorkersPtr, List.foldl_cons, ih]

/-- The loop that collects the submitted keys, on pointers that are not nil. -/
theorem foundWorkersPtr_some {α : Type} (key : α → String) (values : List α)
    (found : List String) :
    foundWorkersPtr key (values.map some) found = some (found ++ values.map key) := by
  induction values generalizing found with
  | nil => simp [foundWorkersPtr]
  | cons v rest ih =>
    simp only [List.map_cons, foundWorkersPtr, ih, List.append_assoc, List.singleton_append]

/-- The first loop of `ensureWorkerPresence`, on pointers that are not nil. -/
theorem collectWorkersPtr_some {Dec : Type} (bundles : List (ReputerValueBundle Dec))
    (all : List String × List String × List String) :
    collectWorkersPtr (bundles.map (fun bundle => some (reputerValueBundlePtr bundle))) all
      = some (bundles.foldl collectStep all) := by
  induction bundles generalizing all with
  | nil => rfl
  | cons b rest ih =>
    rw [List.map_cons, List.foldl_cons, ← ih]
    have h1 : (reputerValueBundlePtr b).ValueBundle = some (valueBundlePtr b.ValueBundle) := rfl
    have h2 : (valueBundlePtr b.ValueBundle).OneOutInfererValues
        = b.ValueBundle.OneOutInfererValues.map some := rfl
    have h3 : (valueBundlePtr b.ValueBundle).OneOutForecasterValues
        = b.ValueBundle.OneOutForecasterValues.map some := rfl
    have h4 : (valueBundlePtr b.ValueBundle).OneInForecasterValues
        = b.ValueBundle.OneInForecasterValues.map some := rfl
    simp only [collectWorkersPtr, h1, h2, h3, h4, insertWorkersPtr_some]
    rfl

/-- Function `EnsureAllWorkersPresent` on pointers that are not nil. -/
theorem EnsureAllWorkersPresentPtr_some {Dec : Type} (D : DecOps Dec)
    (visit : List String → List String) (values : List (WorkerAttributedValue Dec))
    (allWorkers : List String) :
    EnsureAllWorkersPresentPtr D visit (values.map some) allWorkers
      = some ((EnsureAllWorkersPresent D visit values allWorkers).map some) := by
  unfold EnsureAllWorkersPresentPtr
  rw [foundWorkersPtr_some, EnsureAllWorkersPresent_eq]
  simp only [List.nil_append]
  rw [foldl_pad (values.map (fun value => value.Worker))
    (fun worker => some ({ Worker := worker, Value := D.NewNaN } : WorkerAttributedValue Dec))]
  simp only [List.map_append, List.map_map]
  rfl

/-- Function `EnsureAllWorkersPresentWithheld` on pointers that are not nil. -/
theorem EnsureAllWorkersPresentWithheldPtr_some {Dec : Type} (D : DecOps Dec)
    (visit : List String → List String) (values : List (WithheldWorkerAttributedValue Dec))
    (allWorkers : List String) :
    EnsureAllWorkersPresentWithheldPtr D visit (values.map some) allWorkers
      = some ((EnsureAllWorkersPresentWithheld D visit values allWorkers).map some) := by
  unfold EnsureAllWorkersPresentWithheldPtr
  rw [foundWorkersPtr_some, EnsureAllWorkersPresentWithheld_eq]
  simp only [List.nil_append]
  rw [foldl_pad (values.map (fun value => value.Worker))
    (fun worker =>
      some ({ Worker := worker, Value := D.NewNaN } : WithheldWorkerAttributedValue Dec))]
  simp only [List.map_append, List.map_map]
  rfl

/-- The second loop of `ensureWorkerPresence`, on pointers that are not nil. -/
theorem padBundlesPtr_some {Dec : Type} (D : DecOps Dec) (ρ : RangeOrder)
    (a b c : List String) (n : Nat) (bundles : List (ReputerValueBundle Dec)) :
    padBundlesPtr D ρ a b c n (bundles.map (fun bundle => some (reputerValueBundlePtr bundle)))
      = some ((padBundles D ρ a b c n bundles).map
          (fun bundle => some (reputerValueBundlePtr bundle))) := by
  induction bundles generalizing n with
  | nil => rfl
  | cons bundle rest ih =>
    have h1 : (reputerValueBundlePtr bundle).ValueBundle
        = some (valueBundlePtr bundle.ValueBundle) := rfl
    have h2 : (valueBundlePtr bundle.ValueBundle).OneOutInfererValues
        = bundle.ValueBundle.OneOutInfererValues.map some := rfl
    have h3 : (valueBundlePtr bundle.ValueBundle).OneOutForecasterValues
        = bundle.ValueBundle.OneOutForecasterValues.map some := rfl
    have h4 : (valueBundlePtr bundle.ValueBundle).OneInForecasterValues
        = bundle.ValueBundle.OneInForecasterValues.map some := rfl
    rw [List.map_cons]
    simp only [padBundlesPtr, h1, h2, h3, h4, EnsureAllWorkersPresentPtr_some,
      EnsureAllWorkersPresentWithheldPtr_some, ih]
    rfl

/-- Function `ensureWorkerPresence` on pointers that are not nil: it does not panic,
and returns what `ensureWorkerPresence` returns on the values. -/
theorem ensureWorkerPresencePtr_some {Dec : Type} (D : DecOps Dec) (ρ : RangeOrder)
    (reportedLosses : ReputerValueBundles Dec) :
    ensureWorkerPresencePtr D ρ (reputerValueBundlesPtr reportedLosses)
      = some (reputerValueBundlesPtr (ensureWorkerPresence D ρ reportedLosses)) := by
  unfold ensureWorkerPresencePtr
  have h : (reputerValueBundlesPtr reportedLosses).ReputerValueBundles
      = reportedLosses.ReputerValueBundles.map
          (fun bundle => some (reputerValueBundlePtr bundle)) := rfl
  simp only [h, collectWorkersPtr_some, padBundlesPtr_some]
  rfl

/-- A list of pointers without nil entry is a list of values, each behind a pointer. -/
theorem exists_map_some {α : Type} (l : List (Option α)) (h : none ∉ l) :
    ∃ values : List α, l = values.map some := by
  induction l with
  | nil => exact ⟨[], rfl⟩
  | cons x rest ih =>
    obtain ⟨values, hv⟩ := ih (fun hm => h (List.mem_cons_of_mem _ hm))
    cases x with
    | none => exact absurd (List.mem_cons_self _ _) h
    | some v => exact ⟨v :: values, by rw [hv, List.map_cons]⟩

/-- A collection on pointers has no nil pointer exactly when it holds a collection of
values. -/
theorem noNilPointer_iff {Dec : Type} (reportedLosses : ReputerValueBundlesPtr Dec) :
    NoNilPointer reportedLosses ↔
      ∃ values : ReputerValueBundles Dec, reportedLosses = reputerValueBundlesPtr values := by
  constructor
  · intro h
    obtain ⟨l⟩ := reportedLosses
    suffices hs : ∃ bundles : List (ReputerValueBundle Dec),
        l = bundles.map (fun bundle => some (reputerValueBundlePtr bundle)) by
      obtain ⟨bundles, hb⟩ := hs
      exact ⟨{ ReputerValueBundles := bundles }, by rw [hb]; rfl⟩
    unfold NoNilPointer at h
    simp only at h
    induction l with
    | nil => exact ⟨[], rfl⟩
    | cons entry rest ih =>
      obtain ⟨bundles, hb⟩ := ih (fun e he => h e (List.mem_cons_of_mem _ he))
      obtain ⟨bundle, valueBundle, he, hv, n1, n2, n3, n4, n5⟩ :=
        h entry (List.mem_cons_self _ _)
      obtain ⟨l1, e1⟩ := exists_map_some _ n1
      obtain ⟨l2, e2⟩ := exists_map_some _ n2
      obtain ⟨l3, e3⟩ := exists_map_some _ n3
      obtain ⟨l4, e4⟩ := exists_map_some _ n4
      obtain ⟨l5, e5⟩ := exists_map_some _ n5
      refine ⟨{ ValueBundle :=
                  { TopicId := valueBundle.TopicId
                    Reputer := valueBundle.Reputer
                    CombinedValue := valueBundle.CombinedValue
                    InfererValues := l1
                    ForecasterValues := l2
                    NaiveValue := valueBundle.NaiveValue
                    OneOutInfererValues := l3
                    OneOutForecasterValues := l4
                    OneInForecasterValues := l5
                    ReputerRequestNonce := valueBundle.ReputerRequestNonce }
                Signature := bundle.Signature
                Pubkey := bundle.Pubkey } :: bundles, ?_⟩
      rw [List.map_cons, ← hb, he]
      congr 2
      obtain ⟨vb, sig, pk⟩ := bundle
      simp only at hv
      subst hv
      obtain ⟨t, r, cv, iv, fv, nv, ooi, oof, oif, nonce⟩ := valueBundle
      simp only at e1 e2 e3 e4 e5
      subst e1 e2 e3 e4 e5
      rfl
  · rintro ⟨values, rfl⟩ entry he
    simp only [reputerValueBundlesPtr, List.mem_map] at he
    obtain ⟨bundle, -, rfl⟩ := he
    refine ⟨reputerValueBundlePtr bundle, valueBundlePtr bundle.ValueBundle, rfl, rfl, ?_, ?_,
      ?_, ?_, ?_⟩ <;> simp [valueBundlePtr]

/-- C14, as stated, fails: `ensureWorkerPresence` reads `bundle.ValueBundle` and the
entries of the three lists through their pointers and checks none of them. On the
collection `nilValueBundle`, whose second bundle has a nil `ValueBundle`, it panics
with a nil pointer dereference, as it does on a collection with a nil bundle and on
one with a nil entry in a list; on the first bundle of `nilValueBundle` alone it
returns. -/
theorem nil_value_bundle_panics :
    ensureWorkerPresencePtr intDec inOrder nilValueBundle = none ∧
    ensureWorkerPresencePtr intDec inOrder
        ({ ReputerValueBundles := [none] } : ReputerValueBundlesPtr (Option Int)) = none ∧
    ensureWorkerPresencePtr intDec inOrder
        { ReputerValueBundles :=
            [ some
                { ValueBundle :=
                    some { valueBundlePtr (sampleBundle "r1" [] [] []).ValueBundle with
                           OneOutInfererValues := [none] }
                  Signature := []
                  Pubkey := "" } ] } = none ∧
    ensureWorkerPresencePtr intDec inOrder
        { ReputerValueBundles := nilValueBundle.ReputerValueBundles.take 1 }
      = some { ReputerValueBundles := nilValueBundle.ReputerValueBundles.take 1 } := by
  refine ⟨?_, ?_, ?_, ?_⟩
  · decide
  · decide
  · decide
  · decide

/-- C14, amended. Normalization keeps the cardinality of the collection and
everything outside the three padded lists: `ensureWorkerPresence` returns as many
bundles as it is given, in the same order, and in every bundle the reputer, the
topic, the combined value, the naive value, the inferer values and the forecaster
values (and the nonce, the signature and the public key) are unchanged. It does not
fail on a collection in which no pointer is nil: such a collection holds a collection
of values, and the call returns the collection that holds the normalized values. It
returns the empty collection for the empty one. -/
theorem ensureWorkerPresence_frame {Dec : Type} (D : DecOps Dec) (ρ : RangeOrder)
    (reportedLosses : ReputerValueBundles Dec) :
    (∀ pointers : ReputerValueBundlesPtr Dec, NoNilPointer pointers →
      ∃ values : ReputerValueBundles Dec,
        pointers = reputerValueBundlesPtr values ∧
        ensureWorkerPresencePtr D ρ pointers
          = some (reputerValueBundlesPtr (ensureWorkerPresence D ρ values))) ∧
    NoNilPointer (reputerValueBundlesPtr reportedLosses) ∧
    ensureWorkerPresencePtr D ρ (reputerValueBundlesPtr reportedLosses)
      = some (reputerValueBundlesPtr (ensureWorkerPresence D ρ reportedLosses)) ∧
    (ensureWorkerPresence D ρ reportedLosses).ReputerValueBundles.length
      = reportedLosses.ReputerValueBundles.length ∧
    List.Forall₂
      (fun bundle bundle' =>
        bundle'.ValueBundle.Reputer = bundle.ValueBundle.Reputer ∧
        bundle'.ValueBundle.TopicId = bundle.ValueBundle.TopicId ∧
        bundle'.ValueBundle.CombinedValue = bundle.ValueBundle.CombinedValue ∧
        bundle'.ValueBundle.NaiveValue = bundle.ValueBundle.NaiveValue ∧
        bundle'.ValueBundle.InfererValues = bundle.ValueBundle.InfererValues ∧
        bundle'.ValueBundle.ForecasterValues = bundle.ValueBundle.ForecasterValues ∧
        bundle'.ValueBundle.ReputerRequestNonce = bundle.ValueBundle.ReputerRequestNonce ∧
        bundle'.Signature = bundle.Signature ∧
        bundle'.Pubkey = bundle.Pubkey)
      reportedLosses.ReputerValueBundles
      (ensureWorkerPresence D ρ reportedLosses).ReputerValueBundles ∧
    ensureWorkerPresencePtr D ρ ({ ReputerValueBundles := [] } : ReputerValueBundlesPtr Dec)
      = some { ReputerValueBundles := [] } ∧
    ensureWorkerPresence D ρ { ReputerValueBundles := [] } = { ReputerValueBundles := [] } := by
  have hall := forall₂_padBundles D ρ
    (collectWorkers reportedLosses.ReputerValueBundles).1
    (collectWorkers reportedLosses.ReputerValueBundles).2.1
    (collectWorkers reportedLosses.ReputerValueBundles).2.2 0
    reportedLosses.ReputerValueBundles
  refine ⟨?_, (noNilPointer_iff _).2 ⟨reportedLosses, rfl⟩,
    ensureWorkerPresencePtr_some D ρ reportedLosses, hall.length_eq.symm, ?_, rfl, rfl⟩
  · intro pointers hnil
    obtain ⟨values, rfl⟩ := (noNilPointer_iff pointers).1 hnil
    exact ⟨values, rfl, ensureWorkerPresencePtr_some D ρ values⟩
  · refine List.Forall₂.imp ?_ hall
    rintro bundle bundle' ⟨k, rfl⟩
    exact ⟨rfl, rfl, rfl, rfl, rfl, rfl, rfl, rfl, rfl⟩

/-- The collection `twoReputers`, held on pointers, has no nil pointer, and the call
on it returns the collection that holds the normalized values. -/
theorem ensureWorkerPresence_frame_witness :
    NoNilPointer (reputerValueBundlesPtr twoReputers) ∧
    ∃ values : ReputerValueBundles (Option Int),
      reputerValueBundlesPtr twoReputers = reputerValueBundlesPtr values ∧
      ensureWorkerPresencePtr intDec reversed (reputerValueBundlesPtr twoReputers)
        = some (reputerValueBundlesPtr (ensureWorkerPresence intDec reversed values)) :=
  ⟨(noNilPointer_iff _).2 ⟨twoReputers, rfl⟩,
    (ensureWorkerPresence_frame intDec reversed twoReputers).1
      (reputerValueBundlesPtr twoReputers) ((noNilPointer_iff _).2 ⟨twoReputers, rfl⟩)⟩

/-! ## Claims on the previous reward fractions -/

/-- A slot that was just overwritten reads as the value written. -/
theorem getSlot_setSlot_self {κ α : Type} [DecidableEq κ] (slots : List (κ × α)) (key : κ)
    (value : α) : getSlot (setSlot slots key value) key = some value := by
  simp [getSlot, setSlot]

/-- Overwriting a slot leaves the slots of the other keys as they were. -/
theorem getSlot_setSlot_ne {κ α : Type} [DecidableEq κ] (slots : List (κ × α)) (key key' : κ)
    (value : α) (h : key' ≠ key) :
    getSlot (setSlot slots key value) key' = getSlot slots key' := by
  have hne : ¬ key = key' := fun e => h e.symm
  have hfind : ∀ l : List (κ × α),
      (l.filter (fun entry => decide (entry.1 ≠ key))).find? (fun entry => decide (entry.1 = key'))
        = l.find? (fun entry => decide (entry.1 = key')) := by
    intro l
    induction l with
    | nil => rfl
    | cons e l ih =>
      by_cases he : e.1 = key
      · have he' : ¬ e.1 = key' := fun e' => h (e'.symm.trans he)
        have h1 : decide (e.1 ≠ key) = false := by simp [he]
        have h2 : decide (e.1 = key') = false := by simp [he']
        rw [List.filter_cons, h1, List.find?_cons, h2]
        exact ih
      · have h1 : decide (e.1 ≠ key) = true := by simp [he]
        rw [List.filter_cons, h1]
        simp only [if_true]
        rw [List.find?_cons, List.find?_cons, ih]
  unfold getSlot setSlot
  rw [List.find?_cons]
  simp only [hne, decide_False, hfind]

/-- C15. Reward-fraction round trip, for the reputer, the inference and the forecast
reward fraction: before any set a read returns zero with `NotFound = true`, and
after `SetPrevious...RewardFraction(topic, address, v)` a read at the same topic and
address returns `v` with `NotFound = false`. -/
theorem previous_reward_fraction_round_trip {Dec : Type} (D : DecOps Dec)
    (ctx : RewardFractions Dec) (topicId : Nat) (address : String) (v : Dec) :
    (GetPreviousReputerRewardFraction D noRewardFractions topicId address
        = { RewardFraction := D.ZeroDec, NotFound := true } ∧
      GetPreviousReputerRewardFraction D
          (SetPreviousReputerRewardFraction ctx topicId address v) topicId address
        = { RewardFraction := v, NotFound := false }) ∧
    (GetPreviousInferenceRewardFraction D noRewardFractions topicId address
        = { RewardFraction := D.ZeroDec, NotFound := true } ∧
      GetPreviousInferenceRewardFraction D
          (SetPreviousInferenceRewardFraction ctx topicId address v) topicId address
        = { RewardFraction := v, NotFound := false }) ∧
    (GetPreviousForecastRewardFraction D noRewardFractions topicId address
        = { RewardFraction := D.ZeroDec, NotFound := true } ∧
      GetPreviousForecastRewardFraction D
          (SetPreviousForecastRewardFraction ctx topicId address v) topicId address
        = { RewardFraction := v, NotFound := false }) := by
  refine ⟨⟨rfl, ?_⟩, ⟨rfl, ?_⟩, ⟨rfl, ?_⟩⟩
  · simp only [GetPreviousReputerRewardFraction, SetPreviousReputerRewardFraction,
      getSlot_setSlot_self]
  · simp only [GetPreviousInferenceRewardFraction, SetPreviousInferenceRewardFraction,
      getSlot_setSlot_self]
  · simp only [GetPreviousForecastRewardFraction, SetPreviousForecastRewardFraction,
      getSlot_setSlot_self]

/-! ## Claims on the composition of the forecast score -/

/-- The second loop of `GenerateForecastScores`, when it returns without error, has
appended exactly one score per one-in entry. -/
theorem forecastLoop_returned_length {σ Dec Addr : Type} (D : DecOps Dec) (A : AddrOps Addr)
    (R : ForecastOps Dec) (keeper : Keeper σ Dec Addr) (topicId : Nat) (block : Int)
    (networkLosses : ValueBundle Dec) (ws : List Dec) (f : Dec)
    (l : List (WorkerAttributedValue Dec)) (i : Nat) (acc : List (Score Dec)) (ctx : σ)
    (scores : List (Score Dec)) (ctx' : σ)
    (h : forecastLoop D A R keeper topicId block networkLosses ws f i l acc ctx
      = (.returned scores none, ctx')) :
    scores.length = acc.length + l.length := by
  induction l generalizing i acc ctx with
  | nil =>
    simp only [forecastLoop, Prod.mk.injEq, Outcome.returned.injEq, and_true] at h
    simp [h.1]
  | cons oneIn rest ih =>
    cases ha : A.AccAddressFromBech32 oneIn.Worker with
    | error e => simp [forecastLoop, ha] at h
    | ok a =>
    cases hx : D.Sub oneIn.Value networkLosses.NaiveValue with
    | error e => simp [forecastLoop, ha, hx] at h
    | ok x =>
    cases hy : ws[i]? with
    | none => simp [forecastLoop, ha, hx, hy] at h
    | some y =>
    cases hf : R.GetFinalWorkerScoreForecastTask x y f with
    | error e => simp [forecastLoop, ha, hx, hy, hf] at h
    | ok z =>
    cases h1 : keeper.InsertWorkerForecastScore ctx topicId block
        { TopicId := topicId, BlockNumber := block, Address := A.String a, Score := z } with
    | error e => simp [forecastLoop, ha, hx, hy, hf, h1] at h
    | ok ctx1 =>
    cases h2 : keeper.SetLatestForecasterScore ctx1 topicId a
        { TopicId := topicId, BlockNumber := block, Address := A.String a, Score := z } with
    | error e => simp [forecastLoop, ha, hx, hy, hf, h1, h2] at h
    | ok ctx2 =>
      simp only [forecastLoop, ha, hx, hy, hf, h1, h2] at h
      have := ih (i + 1) _ ctx2 h
      simp only [List.length_append, List.length_singleton, List.length_cons,
        List.length_nil] at this ⊢
      omega

/-- C16. Forecast score composition: when `ForecasterValues` does not have exactly
one entry and the call returns without error, `GenerateForecastScores` returns one
score per entry of `OneInForecasterValues`, in order, and the score of the entry at
position `i` is `GetFinalWorkerScoreForecastTask(OneInLoss - NaiveValue, oneOutScore,
GetfUniqueAgg(n))`, where `oneOutScore = CombinedValue - OneOutLoss` of the one-out
entry at position `i` and `n` is the number of `OneOutForecasterValues` entries. -/
theorem GenerateForecastScores_composition {σ Dec Addr : Type} (D : DecOps Dec)
    (A : AddrOps Addr) (R : ForecastOps Dec) (keeper : Keeper σ Dec Addr) (ctx : σ)
    (topicId : Nat) (block : Int) (networkLosses : ValueBundle Dec) (scores : List (Score Dec))
    (hlen : networkLosses.ForecasterValues.length ≠ 1)
    (hrun : (GenerateForecastScores D A R keeper ctx topicId block networkLosses).1
      = .returned scores none) :
    scores.length = networkLosses.OneInForecasterValues.length ∧
    ∃ fUniqueAgg,
      R.GetfUniqueAgg
        (D.NewDecFromInt64 (networkLosses.OneOutForecasterValues.length : Int))
          = .ok fUniqueAgg ∧
      List.Forall₂
        (fun (p : WithheldWorkerAttributedValue Dec × WorkerAttributedValue Dec) sc =>
          ∃ scoreOneIn scoreOneOut,
            D.Sub p.2.Value networkLosses.NaiveValue = .ok scoreOneIn ∧
            D.Sub networkLosses.CombinedValue p.1.Value = .ok scoreOneOut ∧
            R.GetFinalWorkerScoreForecastTask scoreOneIn scoreOneOut fUniqueAgg
              = .ok sc.Score)
        (networkLosses.OneOutForecasterValues.zip networkLosses.OneInForecasterValues)
        scores := by
  unfold GenerateForecastScores at hrun
  rw [if_neg hlen] at hrun
  cases hws : oneOutLoop D networkLosses networkLosses.OneOutForecasterValues [] with
  | error e => simp [hws] at hrun
  | ok ws =>
  obtain ⟨new, hnew, hout⟩ := oneOutLoop_ok D networkLosses _ [] ws hws
  simp only [List.nil_append] at hnew
  subst hnew
  have hwslen : networkLosses.OneOutForecasterValues.length = ws.length := hout.length_eq
  cases hf : R.GetfUniqueAgg (D.NewDecFromInt64 (ws.length : Int)) with
  | error e => simp [hws, hf] at hrun
  | ok f =>
  simp only [hws, hf] at hrun
  have hpair : forecastLoop D A R keeper topicId block networkLosses ws f 0
      networkLosses.OneInForecasterValues [] ctx
      = (.returned scores none,
          (forecastLoop D A R keeper topicId block networkLosses ws f 0
            networkLosses.OneInForecasterValues [] ctx).2) := by
    rw [← hrun]
  have hlength := forecastLoop_returned_length D A R keeper topicId block networkLosses ws f
    _ 0 [] ctx scores _ hpair
  obtain ⟨new, hsc, hin⟩ :=
    forecastLoop_returned D A R keeper topicId block networkLosses ws f _ 0 [] ctx scores _ hpair
  simp only [List.nil_append, List.drop_zero] at hsc hin
  subst hsc
  have hall := forall₂_zip_compose _ _ _ _ _ _ hout hin
  refine ⟨by simpa using hlength, f, by rw [hwslen]; exact hf, ?_⟩
  refine List.Forall₂.imp ?_ hall
  rintro p sc ⟨y, hy, -, ⟨x, hx, hfin⟩, -, -⟩
  exact ⟨x, y, hx, hy, hfin⟩

/-- The forecast scores of `crossedForecasters`: one score per one-in entry, each
computed from the one-out loss at the same position. -/
theorem GenerateForecastScores_composition_witness :
    crossedForecasters.ForecasterValues.length ≠ 1 ∧
    (GenerateForecastScores termDec plainAddr termForecast (memKeeper (.lit 1))
        (emptyStore (.lit 1)) 0 1 crossedForecasters).1
      = .returned
          [ { TopicId := 0, BlockNumber := 1, Address := "b",
              Score := .finalScore (.sub (.lit 5) (.lit 50)) (.sub (.lit 100) (.lit 10))
                (.fUniqueAgg (.lit 2)) },
            { TopicId := 0, BlockNumber := 1, Address := "a",
              Score := .finalScore (.sub (.lit 7) (.lit 50)) (.sub (.lit 100) (.lit 20))
                (.fUniqueAgg (.lit 2)) } ] none ∧
    ([ { TopicId := 0, BlockNumber := 1, Address := "b",
         Score := DecTerm.finalScore (.sub (.lit 5) (.lit 50)) (.sub (.lit 100) (.lit 10))
           (.fUniqueAgg (.lit 2)) },
       { TopicId := 0, BlockNumber := 1, Address := "a",
         Score := DecTerm.finalScore (.sub (.lit 7) (.lit 50)) (.sub (.lit 100) (.lit 20))
           (.fUniqueAgg (.lit 2)) } ] : List (Score DecTerm)).length
      = crossedForecasters.OneInForecasterValues.length ∧
    ∃ fUniqueAgg,
      termForecast.GetfUniqueAgg
        (termDec.NewDecFromInt64 (crossedForecasters.OneOutForecasterValues.length : Int))
          = .ok fUniqueAgg ∧
      List.Forall₂
        (fun (p : WithheldWorkerAttributedValue DecTerm × WorkerAttributedValue DecTerm)
            (sc : Score DecTerm) =>
          ∃ scoreOneIn scoreOneOut,
            termDec.Sub p.2.Value crossedForecasters.NaiveValue = .ok scoreOneIn ∧
            termDec.Sub crossedForecasters.CombinedValue p.1.Value = .ok scoreOneOut ∧
            termForecast.GetFinalWorkerScoreForecastTask scoreOneIn scoreOneOut fUniqueAgg
              = .ok sc.Score)
        (crossedForecasters.OneOutForecasterValues.zip
          crossedForecasters.OneInForecasterValues)
        [ { TopicId := 0, BlockNumber := 1, Address := "b",
            Score := DecTerm.finalScore (.sub (.lit 5) (.lit 50)) (.sub (.lit 100) (.lit 10))
              (.fUniqueAgg (.lit 2)) },
          { TopicId := 0, BlockNumber := 1, Address := "a",
            Score := DecTerm.finalScore (.sub (.lit 7) (.lit 50)) (.sub (.lit 100) (.lit 20))
              (.fUniqueAgg (.lit 2)) } ] :=
  ⟨by decide, by decide,
    GenerateForecastScores_composition termDec plainAddr termForecast (memKeeper (.lit 1))
      (emptyStore (.lit 1)) 0 1 crossedForecasters _ (by decide) (by decide)⟩

/-! ## Claims on what the worker scorers persist -/

/-- C17. The code at the failing input: on the bundle of the message-server test
(one inferer) `GenerateInferenceScores` returns the zero score and appends it to the
inference score history, and the latest inferer score of the worker stays unset; on
the bundle `twoInferers` the loop sets the latest inferer score of every worker. -/
theorem single_inferer_latest_score_not_set :
    (GenerateInferenceScores intDec plainAddr (memKeeper (some 1)) (emptyStore (some 1)) 0 1
        (testValueBundle "worker")).1
      = .returned
          [{ TopicId := 0, BlockNumber := 1, Address := "worker", Score := some 0 }] none ∧
    (GenerateInferenceScores intDec plainAddr (memKeeper (some 1)) (emptyStore (some 1)) 0 1
        (testValueBundle "worker")).2.infererScores
      = [((0, 1), { TopicId := 0, BlockNumber := 1, Address := "worker", Score := some 0 })] ∧
    getSlot
        (GenerateInferenceScores intDec plainAddr (memKeeper (some 1)) (emptyStore (some 1)) 0 1
          (testValueBundle "worker")).2.latestInfererScores (0, "worker")
      = none ∧
    getSlot
        (GenerateInferenceScores intDec plainAddr (memKeeper (some 1)) (emptyStore (some 1)) 0 1
          twoInferers).2.latestInfererScores (0, "w1")
      = some { TopicId := 0, BlockNumber := 1, Address := "w1", Score := some 0 } := by
  refine ⟨?_, ?_, ?_, ?_⟩
  · decide
  · decide
  · decide
  · decide

/-- C18. The code at the failing input: on the bundle `soleForecaster` (one
forecaster) a successful `GenerateForecastScores` appends its zero score to the
inference score history, leaves the forecast score history empty and sets no latest
forecaster score. -/
theorem single_forecaster_score_in_inference_history :
    soleForecaster.ForecasterValues.length = 1 ∧
    (GenerateForecastScores termDec plainAddr termForecast (memKeeper (.lit 1))
        (emptyStore (.lit 1)) 0 1 soleForecaster).1
      = .returned
          [{ TopicId := 0, BlockNumber := 1, Address := "inferer1", Score := .lit 0 }] none ∧
    (GenerateForecastScores termDec plainAddr termForecast (memKeeper (.lit 1))
        (emptyStore (.lit 1)) 0 1 soleForecaster).2.infererScores
      = [((0, 1), { TopicId := 0, BlockNumber := 1, Address := "inferer1", Score := .lit 0 })] ∧
    (GenerateForecastScores termDec plainAddr termForecast (memKeeper (.lit 1))
        (emptyStore (.lit 1)) 0 1 soleForecaster).2.forecasterScores = [] ∧
    (GenerateForecastScores termDec plainAddr termForecast (memKeeper (.lit 1))
        (emptyStore (.lit 1)) 0 1 soleForecaster).2.latestForecasterScores = [] := by
  refine ⟨?_, ?_, ?_, ?_, ?_⟩
  · decide
  · decide
  · decide
  · decide
  · decide

/-! ## Claims on the forecaster count -/

/-- C20, as stated, fails: the bundle `noForecasters` passes the single-forecaster
short-circuit (it has no forecaster, not one), and `GetfUniqueAgg` is called with the
count zero: with a `GetfUniqueAgg` that rejects zero the call returns that error. -/
theorem forecaster_count_can_be_zero :
    noForecasters.ForecasterValues.length ≠ 1 ∧
    (GenerateForecastScores termDec plainAddr strictForecast (memKeeper (.lit 1))
        (emptyStore (.lit 1)) 0 1 noForecasters).1
      = .returned []
          (some (.Wrapf (.root "fUniqueAgg of zero forecasters") "Error getting fUniqueAgg")) := by
  refine ⟨?_, ?_⟩
  · decide
  · decide

/-- C20, amended. For every consensus bundle that passes the single-forecaster
short-circuit and whose one-out subtractions succeed, the value `numForecasters`
passed to `GetfUniqueAgg` is the number of `OneOutForecasterValues` entries: the call
goes on with `GetfUniqueAgg` of that number. It is at least 1 exactly when
`OneOutForecasterValues` is not empty. -/
theorem numForecasters_eq_oneOut_length {σ Dec Addr : Type} (D : DecOps Dec)
    (A : AddrOps Addr) (R : ForecastOps Dec) (keeper : Keeper σ Dec Addr) (ctx : σ)
    (topicId : Nat) (block : Int) (networkLosses : ValueBundle Dec) (ws : List Dec)
    (hlen : networkLosses.ForecasterValues.length ≠ 1)
    (hws : oneOutLoop D networkLosses networkLosses.OneOutForecasterValues [] = .ok ws) :
    GenerateForecastScores D A R keeper ctx topicId block networkLosses
      = (match R.GetfUniqueAgg
            (D.NewDecFromInt64 (networkLosses.OneOutForecasterValues.length : Int)) with
        | .error err => (.returned [] (some (.Wrapf err "Error getting fUniqueAgg")), ctx)
        | .ok fUniqueAgg =>
          forecastLoop D A R keeper topicId block networkLosses ws fUniqueAgg
            0 networkLosses.OneInForecasterValues [] ctx) ∧
    ((1 : Int) ≤ (networkLosses.OneOutForecasterValues.length : Int) ↔
      networkLosses.OneOutForecasterValues ≠ []) := by
  obtain ⟨new, hnew, hout⟩ := oneOutLoop_ok D networkLosses _ [] ws hws
  simp only [List.nil_append] at hnew
  subst hnew
  have hwslen : networkLosses.OneOutForecasterValues.length = ws.length := hout.length_eq
  constructor
  · unfold GenerateForecastScores
    rw [if_neg hlen]
    simp only [hws, hwslen]
  · cases h : networkLosses.OneOutForecasterValues with
    | nil => simp
    | cons v rest => simp

/-- The forecaster count of `crossedForecasters` is 2, the number of its one-out
entries. -/
theorem numForecasters_eq_oneOut_length_witness :
    crossedForecasters.ForecasterValues.length ≠ 1 ∧
    oneOutLoop termDec crossedForecasters crossedForecasters.OneOutForecasterValues []
      = .ok [.sub (.lit 100) (.lit 10), .sub (.lit 100) (.lit 20)] ∧
    GenerateForecastScores termDec plainAddr termForecast (memKeeper (.lit 1))
        (emptyStore (.lit 1)) 0 1 crossedForecasters
      = (match termForecast.GetfUniqueAgg
            (termDec.NewDecFromInt64
              (crossedForecasters.OneOutForecasterValues.length : Int)) with
        | .error err => (.returned [] (some (.Wrapf err "Error getting fUniqueAgg")),
            emptyStore (.lit 1))
        | .ok fUniqueAgg =>
          forecastLoop termDec plainAddr termForecast (memKeeper (.lit 1)) 0 1
            crossedForecasters [.sub (.lit 100) (.lit 10), .sub (.lit 100) (.lit 20)]
            fUniqueAgg 0 crossedForecasters.OneInForecasterValues [] (emptyStore (.lit 1))) ∧
    ((1 : Int) ≤ (crossedForecasters.OneOutForecasterValues.length : Int) ↔
      crossedForecasters.OneOutForecasterValues ≠ []) :=
  ⟨by decide, rfl,
    numForecasters_eq_oneOut_length termDec plainAddr termForecast (memKeeper (.lit 1))
      (emptyStore (.lit 1)) 0 1 crossedForecasters _ (by decide) rfl⟩

/-! ## Claims on the store after a failing call -/

/-- When the loop of `GenerateInferenceScores` returns an error, it has scored the
entries before some entry `k` without error and its pass on entry `k` fails: the
store is the one left by the passes before, or that store with the history row of
entry `k` when the failing sub-step is the write of its latest score. -/
theorem inferenceLoop_fails {σ Dec Addr : Type} (D : DecOps Dec) (A : AddrOps Addr)
    (keeper : Keeper σ Dec Addr) (topicId : Nat) (block : Int)
    (networkLosses : ValueBundle Dec) (l : List (WithheldWorkerAttributedValue Dec))
    (acc : List (Score Dec)) (ctx : σ) (scores : List (Score Dec)) (err : Error) (ctx' : σ)
    (h : inferenceLoop D A keeper topicId block networkLosses l acc ctx
      = (.returned scores (some err), ctx')) :
    ∃ k oneOutLoss scoresK ctxK,
      l[k]? = some oneOutLoss ∧
      inferenceLoop D A keeper topicId block networkLosses (l.take k) acc ctx
        = (.returned scoresK none, ctxK) ∧
      scoresK.length = acc.length + k ∧
      InferenceStepFails D A keeper topicId block networkLosses oneOutLoss ctxK err ∧
      inferenceLoop D A keeper topicId block networkLosses [oneOutLoss] [] ctxK
        = (.returned [] (some err), ctx') ∧
      (ctx' = ctxK ∨
        ∃ workerAddr workerNewScore,
          A.AccAddressFromBech32 oneOutLoss.Worker = .ok workerAddr ∧
          D.Sub networkLosses.CombinedValue oneOutLoss.Value = .ok workerNewScore ∧
          keeper.InsertWorkerInferenceScore ctxK topicId block
            { TopicId := topicId, BlockNumber := block, Address := A.String workerAddr,
              Score := workerNewScore } = .ok ctx' ∧
          ∃ e, keeper.SetLatestInfererScore ctx' topicId workerAddr
            { TopicId := topicId, BlockNumber := block, Address := A.String workerAddr,
              Score := workerNewScore } = .error e) := by
  induction l generalizing acc ctx with
  | nil => simp [inferenceLoop] at h
  | cons v rest ih =>
    have hzero : inferenceLoop D A keeper topicId block networkLosses
        ((v :: rest).take 0) acc ctx = (.returned acc none, ctx) := by
      simp [inferenceLoop]
    cases ha : A.AccAddressFromBech32 v.Worker with
    | error e =>
      simp only [inferenceLoop, ha, Prod.mk.injEq, Outcome.returned.injEq,
        Option.some.injEq] at h
      obtain ⟨⟨-, rfl⟩, rfl⟩ := h
      refine ⟨0, v, acc, ctx, List.getElem?_cons_zero, hzero, rfl, Or.inl ha, ?_, Or.inl rfl⟩
      simp only [inferenceLoop, ha]
    | ok a =>
    cases hd : D.Sub networkLosses.CombinedValue v.Value with
    | error e =>
      simp only [inferenceLoop, ha, hd, Prod.mk.injEq, Outcome.returned.injEq,
        Option.some.injEq] at h
      obtain ⟨⟨-, rfl⟩, rfl⟩ := h
      refine ⟨0, v, acc, ctx, List.getElem?_cons_zero, hzero, rfl, Or.inr ⟨a, ha, Or.inl ⟨e, hd, rfl⟩⟩, ?_,
        Or.inl rfl⟩
      simp only [inferenceLoop, ha, hd]
    | ok d =>
    cases h1 : keeper.InsertWorkerInferenceScore ctx topicId block
        { TopicId := topicId, BlockNumber := block, Address := A.String a, Score := d } with
    | error e =>
      simp only [inferenceLoop, ha, hd, h1, Prod.mk.injEq, Outcome.returned.injEq,
        Option.some.injEq] at h
      obtain ⟨⟨-, rfl⟩, rfl⟩ := h
      refine ⟨0, v, acc, ctx, List.getElem?_cons_zero, hzero, rfl,
        Or.inr ⟨a, ha, Or.inr ⟨d, hd, Or.inl ⟨e, h1, rfl⟩⟩⟩, ?_, Or.inl rfl⟩
      simp only [inferenceLoop, ha, hd, h1]
    | ok ctx1 =>
    cases h2 : keeper.SetLatestInfererScore ctx1 topicId a
        { TopicId := topicId, BlockNumber := block, Address := A.String a, Score := d } with
    | error e =>
      simp only [inferenceLoop, ha, hd, h1, h2, Prod.mk.injEq, Outcome.returned.injEq,
        Option.some.injEq] at h
      obtain ⟨⟨-, rfl⟩, rfl⟩ := h
      refine ⟨0, v, acc, ctx, List.getElem?_cons_zero, hzero, rfl,
        Or.inr ⟨a, ha, Or.inr ⟨d, hd, Or.inr ⟨ctx1, e, h1, h2, rfl⟩⟩⟩, ?_,
        Or.inr ⟨a, d, ha, hd, h1, e, h2⟩⟩
      simp only [inferenceLoop, ha, hd, h1, h2]
    | ok ctx2 =>
      simp only [inferenceLoop, ha, hd, h1, h2] at h
      obtain ⟨k, v', scoresK, ctxK, hk, hrun, hlen, hstep, hsingle, hstore⟩ := ih _ ctx2 h
      refine ⟨k + 1, v', scoresK, ctxK, by simpa using hk, ?_, ?_, hstep, hsingle, hstore⟩
      · simp only [List.take_succ_cons, inferenceLoop, ha, hd, h1, h2, hrun]
      · simp only [List.length_append, List.length_singleton] at hlen
        omega

/-- When the second loop of `GenerateForecastScores` returns an error, it has scored
the entries before some entry `k` without error and its pass on entry `k` fails: the
store is the one left by the passes before, or that store with the history row of
entry `k` when the failing sub-step is the write of its latest score. -/
theorem forecastLoop_fails {σ Dec Addr : Type} (D : DecOps Dec) (A : AddrOps Addr)
    (R : ForecastOps Dec) (keeper : Keeper σ Dec Addr) (topicId : Nat) (block : Int)
    (networkLosses : ValueBundle Dec) (ws : List Dec) (f : Dec)
    (l : List (WorkerAttributedValue Dec)) (i : Nat) (acc : List (Score Dec)) (ctx : σ)
    (scores : List (Score Dec)) (err : Error) (ctx' : σ)
    (h : forecastLoop D A R keeper topicId block networkLosses ws f i l acc ctx
      = (.returned scores (some err), ctx')) :
    ∃ k oneInNaiveLoss scoresK ctxK,
      l[k]? = some oneInNaiveLoss ∧
      forecastLoop D A R keeper topicId block networkLosses ws f i (l.take k) acc ctx
        = (.returned scoresK none, ctxK) ∧
      scoresK.length = acc.length + k ∧
      ForecastStepFails D A R keeper topicId block networkLosses ws f (i + k) oneInNaiveLoss
        ctxK err ∧
      forecastLoop D A R keeper topicId block networkLosses ws f (i + k) [oneInNaiveLoss] []
        ctxK = (.returned [] (some err), ctx') ∧
      (ctx' = ctxK ∨
        ∃ workerAddr workerScoreOneIn workerScoreOneOut workerFinalScore,
          A.AccAddressFromBech32 oneInNaiveLoss.Worker = .ok workerAddr ∧
          D.Sub oneInNaiveLoss.Value networkLosses.NaiveValue = .ok workerScoreOneIn ∧
          ws[i + k]? = some workerScoreOneOut ∧
          R.GetFinalWorkerScoreForecastTask workerScoreOneIn workerScoreOneOut f
            = .ok workerFinalScore ∧
          keeper.InsertWorkerForecastScore ctxK topicId block
            { TopicId := topicId, BlockNumber := block, Address := A.String workerAddr,
              Score := workerFinalScore } = .ok ctx' ∧
          ∃ e, keeper.SetLatestForecasterScore ctx' topicId workerAddr
            { TopicId := topicId, BlockNumber := block, Address := A.String workerAddr,
              Score := workerFinalScore } = .error e) := by
  induction l generalizing i acc ctx with
  | nil => simp [forecastLoop] at h
  | cons oneIn rest ih =>
    have hzero : forecastLoop D A R keeper topicId block networkLosses ws f i
        ((oneIn :: rest).take 0) acc ctx = (.returned acc none, ctx) := by
      simp [forecastLoop]
    cases ha : A.AccAddressFromBech32 oneIn.Worker with
    | error e =>
      simp only [forecastLoop, ha, Prod.mk.injEq, Outcome.returned.injEq,
        Option.some.injEq] at h
      obtain ⟨⟨-, rfl⟩, rfl⟩ := h
      refine ⟨0, oneIn, acc, ctx, List.getElem?_cons_zero, hzero, rfl, Or.inl ha, ?_, Or.inl rfl⟩
      simp only [forecastLoop, ha]
    | ok a =>
    cases hx : D.Sub oneIn.Value networkLosses.NaiveValue with
    | error e =>
      simp only [forecastLoop, ha, hx, Prod.mk.injEq, Outcome.returned.injEq,
        Option.some.injEq] at h
      obtain ⟨⟨-, rfl⟩, rfl⟩ := h
      refine ⟨0, oneIn, acc, ctx, List.getElem?_cons_zero, hzero, rfl, Or.inr ⟨a, ha, Or.inl ⟨e, hx, rfl⟩⟩, ?_,
        Or.inl rfl⟩
      simp only [forecastLoop, ha, hx]
    | ok x =>
    cases hy : ws[i]? with
    | none => simp [forecastLoop, ha, hx, hy] at h
    | some y =>
    cases hf : R.GetFinalWorkerScoreForecastTask x y f with
    | error e =>
      simp only [forecastLoop, ha, hx, hy, hf, Prod.mk.injEq, Outcome.returned.injEq,
        Option.some.injEq] at h
      obtain ⟨⟨-, rfl⟩, rfl⟩ := h
      refine ⟨0, oneIn, acc, ctx, List.getElem?_cons_zero, hzero, rfl,
        Or.inr ⟨a, ha, Or.inr ⟨x, y, hx, hy, Or.inl ⟨e, hf, rfl⟩⟩⟩, ?_, Or.inl rfl⟩
      simp only [forecastLoop, Nat.add_zero, ha, hx, hy, hf]
    | ok z =>
    cases h1 : keeper.InsertWorkerForecastScore ctx topicId block
        { TopicId := topicId, BlockNumber := block, Address := A.String a, Score := z } with
    | error e =>
      simp only [forecastLoop, ha, hx, hy, hf, h1, Prod.mk.injEq, Outcome.returned.injEq,
        Option.some.injEq] at h
      obtain ⟨⟨-, rfl⟩, rfl⟩ := h
      refine ⟨0, oneIn, acc, ctx, List.getElem?_cons_zero, hzero, rfl,
        Or.inr ⟨a, ha, Or.inr ⟨x, y, hx, hy, Or.inr ⟨z, hf, Or.inl ⟨e, h1, rfl⟩⟩⟩⟩, ?_,
        Or.inl rfl⟩
      simp only [forecastLoop, Nat.add_zero, ha, hx, hy, hf, h1]
    | ok ctx1 =>
    cases h2 : keeper.SetLatestForecasterScore ctx1 topicId a
        { TopicId := topicId, BlockNumber := block, Address := A.String a, Score := z } with
    | error e =>
      simp only [forecastLoop, ha, hx, hy, hf, h1, h2, Prod.mk.injEq, Outcome.returned.injEq,
        Option.some.injEq] at h
      obtain ⟨⟨-, rfl⟩, rfl⟩ := h
      refine ⟨0, oneIn, acc, ctx, List.getElem?_cons_zero, hzero, rfl,
        Or.inr ⟨a, ha,
          Or.inr ⟨x, y, hx, hy, Or.inr ⟨z, hf, Or.inr ⟨ctx1, e, h1, h2, rfl⟩⟩⟩⟩, ?_,
        Or.inr ⟨a, x, y, z, ha, hx, hy, hf, h1, e, h2⟩⟩
      simp only [forecastLoop, Nat.add_zero, ha, hx, hy, hf, h1, h2]
    | ok ctx2 =>
      simp only [forecastLoop, ha, hx, hy, hf, h1, h2] at h
      obtain ⟨k, v', scoresK, ctxK, hk, hrun, hlen, hstep, hsingle, hstore⟩ :=
        ih (i + 1) _ ctx2 h
      have e : i + 1 + k = i + (k + 1) := by omega
      rw [e] at hstep hsingle hstore
      refine ⟨k + 1, v', scoresK, ctxK, by simpa using hk, ?_, ?_, hstep, hsingle, hstore⟩
      · simp only [List.take_succ_cons, forecastLoop, ha, hx, hy, hf, h1, h2, hrun]
      · simp only [List.length_append, List.length_singleton] at hlen
        omega

/-- When the first loop of `GenerateForecastScores` returns an error, the
subtractions before some entry `k` have succeeded and the subtraction of entry `k`
fails; the error returned is that of the subtraction, wrapped. -/
theorem oneOutLoop_fails {Dec : Type} (D : DecOps Dec) (networkLosses : ValueBundle Dec)
    (l : List (WithheldWorkerAttributedValue Dec)) (acc : List Dec) (err : Error)
    (h : oneOutLoop D networkLosses l acc = .error err) :
    ∃ k oneOutLoss scoresK e,
      l[k]? = some oneOutLoss ∧
      oneOutLoop D networkLosses (l.take k) acc = .ok scoresK ∧
      D.Sub networkLosses.CombinedValue oneOutLoss.Value = .error e ∧
      err = .Wrapf e "Error getting worker score" := by
  induction l generalizing acc with
  | nil => simp [oneOutLoop] at h
  | cons v rest ih =>
    cases hd : D.Sub networkLosses.CombinedValue v.Value with
    | error e =>
      simp only [oneOutLoop, hd, Except.error.injEq] at h
      exact ⟨0, v, acc, e, List.getElem?_cons_zero, by simp [oneOutLoop], hd, h.symm⟩
    | ok y =>
      simp only [oneOutLoop, hd] at h
      obtain ⟨k, v', scoresK, e, hk, hrun, hsub, herr⟩ := ih _ h
      refine ⟨k + 1, v', scoresK, e, by simpa using hk, ?_, hsub, herr⟩
      simp only [List.take_succ_cons, oneOutLoop, hd, hrun]

/-- The first loop of `GenerateReputerScores`, when it succeeds, has appended one
address, one stake, one coefficient and one row of losses per bundle, in order. -/
theorem fetchReputers_ok {σ Dec Addr : Type} (D : DecOps Dec) (A : AddrOps Addr)
    (R : ReputerOps Dec) (keeper : Keeper σ Dec Addr) (ctx : σ) (topicId : Nat)
    (l : List (ReputerValueBundle Dec)) (data data' : ReputerData Dec Addr)
    (h : fetchReputers D A R keeper ctx topicId l data = .ok data') :
    ∃ addrs stakes,
      data'.reputerAddresses = data.reputerAddresses ++ addrs ∧
      data'.reputerStakes = data.reputerStakes ++ stakes ∧
      data'.losses = data.losses ++ l.map (fun b => R.ExtractValues b.ValueBundle) ∧
      stakes.length = l.length ∧
      List.Forall₂ (fun b a => A.AccAddressFromBech32 b.ValueBundle.Reputer = .ok a)
        l addrs := by
  induction l generalizing data with
  | nil =>
    simp only [fetchReputers, Except.ok.injEq] at h
    subst h
    exact ⟨[], [], by simp, by simp, by simp, rfl, List.Forall₂.nil⟩
  | cons b rest ih =>
    cases ha : A.AccAddressFromBech32 b.ValueBundle.Reputer with
    | error e => simp [fetchReputers, ha] at h
    | ok a =>
    cases hs : keeper.GetStakeOnReputerInTopic ctx topicId a with
    | error e => simp [fetchReputers, ha, hs] at h
    | ok stake =>
    cases hd : D.NewDecFromSdkUint stake with
    | error e => simp [fetchReputers, ha, hs, hd] at h
    | ok stakeDec =>
    cases hc : keeper.GetListeningCoefficient ctx topicId a with
    | error e => simp [fetchReputers, ha, hs, hd, hc] at h
    | ok res =>
      simp only [fetchReputers, ha, hs, hd, hc] at h
      obtain ⟨addrs, stakes, h1, h2, h3, h4, h5⟩ := ih _ h
      refine ⟨a :: addrs, stakeDec :: stakes, ?_, ?_, ?_, ?_, List.Forall₂.cons ha h5⟩
      · simpa using h1
      · simpa using h2
      · simpa using h3
      · simpa using h4

/-- The second loop of `GenerateReputerScores`, when it returns without error, has
appended one score per address, in order: the score at position `j` has the address
at position `j`, printed, and the computed score at position `i + j`; and the
computed scores and coefficients reach that far. -/
theorem insertReputerScores_returned {σ Dec Addr : Type} (A : AddrOps Addr)
    (keeper : Keeper σ Dec Addr) (topicId : Nat) (block : Int)
    (scores newCoefficients : List Dec) (l : List Addr) (i : Nat) (acc : List (Score Dec))
    (ctx : σ) (out : List (Score Dec)) (ctx' : σ)
    (hi : i ≤ scores.length) (hi' : i ≤ newCoefficients.length)
    (h : insertReputerScores A keeper topicId block scores newCoefficients i l acc ctx
      = (.returned out none, ctx')) :
    ∃ new, out = acc ++ new ∧ new.length = l.length ∧
      i + l.length ≤ scores.length ∧ i + l.length ≤ newCoefficients.length ∧
      List.Forall₂
        (fun (p : Addr × Dec) sc =>
          sc = { TopicId := topicId, BlockNumber := block, Address := A.String p.1,
                 Score := p.2 })
        (l.zip (scores.drop i)) new := by
  induction l generalizing i acc ctx with
  | nil =>
    simp only [insertReputerScores, Prod.mk.injEq, Outcome.returned.injEq, and_true] at h
    exact ⟨[], by simp [h.1], rfl, by simpa using hi, by simpa using hi', by simp⟩
  | cons a rest ih =>
    cases hc : newCoefficients[i]? with
    | none => simp [insertReputerScores, hc] at h
    | some c =>
    cases h1 : keeper.SetListeningCoefficient ctx topicId a { Coefficient := c } with
    | error e => simp [insertReputerScores, hc, h1] at h
    | ok ctx1 =>
    cases hs : scores[i]? with
    | none => simp [insertReputerScores, hc, h1, hs] at h
    | some sc =>
    cases h2 : keeper.InsertReputerScore ctx1 topicId block
        { TopicId := topicId, BlockNumber := block, Address := A.String a, Score := sc } with
    | error e => simp [insertReputerScores, hc, h1, hs, h2] at h
    | ok ctx2 =>
    cases h3 : keeper.SetLatestReputerScore ctx2 topicId a
        { TopicId := topicId, BlockNumber := block, Address := A.String a, Score := sc } with
    | error e => simp [insertReputerScores, hc, h1, hs, h2, h3] at h
    | ok ctx3 =>
      simp only [insertReputerScores, hc, h1, hs, h2, h3] at h
      have hlt : i < scores.length := by
        rcases Nat.lt_or_ge i scores.length with hlt | hge
        · exact hlt
        · rw [List.getElem?_eq_none hge] at hs
          cases hs
      have hlt' : i < newCoefficients.length := by
        rcases Nat.lt_or_ge i newCoefficients.length with hlt | hge
        · exact hlt
        · rw [List.getElem?_eq_none hge] at hc
          cases hc
      obtain ⟨new, hout, hlen, hb, hb', hall⟩ := ih (i + 1) _ ctx3 hlt hlt' h
      have hsi : scores[i] = sc := by
        rw [List.getElem?_eq_getElem hlt] at hs
        exact Option.some.inj hs
      have hdrop : scores.drop i = sc :: scores.drop (i + 1) := by
        rw [← hsi]
        exact List.drop_eq_getElem_cons hlt
      refine ⟨{ TopicId := topicId, BlockNumber := block, Address := A.String a, Score := sc }
        :: new, by simp [hout], by simp [hlen], ?_, ?_, ?_⟩
      · simp only [List.length_cons]
        omega
      · simp only [List.length_cons]
        omega
      · rw [hdrop, List.zip_cons_cons]
        exact List.Forall₂.cons rfl hall

/-- The second loop of `GenerateReputerScores` on the store `memKeeper`: it leaves
the slots of the addresses it does not visit as they were, keeps every history row,
and, when the addresses it visits are distinct, leaves for the address at position
`j` the coefficient and the score computed at position `i + j`. -/
theorem insertReputerScores_memKeeper_store {Dec : Type} (A : AddrOps String) (first : Dec)
    (topicId : Nat) (block : Int) (scores newCoefficients : List Dec) (l : List String)
    (i : Nat) (acc : List (Score Dec)) (ctx : Store Dec) (out : List (Score Dec))
    (ctx' : Store Dec)
    (h : insertReputerScores A (memKeeper first) topicId block scores newCoefficients
      i l acc ctx = (.returned out none, ctx')) :
    (∀ a, a ∉ l →
      getSlot ctx'.listeningCoefficients (topicId, a)
        = getSlot ctx.listeningCoefficients (topicId, a) ∧
      getSlot ctx'.latestReputerScores (topicId, a)
        = getSlot ctx.latestReputerScores (topicId, a)) ∧
    (∀ x ∈ ctx.reputerScores, x ∈ ctx'.reputerScores) ∧
    (l.Nodup → ∀ j a c sc, l[j]? = some a → newCoefficients[i + j]? = some c →
      scores[i + j]? = some sc →
      getSlot ctx'.listeningCoefficients (topicId, a) = some { Coefficient := c } ∧
      ((topicId, block),
        ({ TopicId := topicId, BlockNumber := block, Address := A.String a,
           Score := sc } : Score Dec)) ∈ ctx'.reputerScores ∧
      getSlot ctx'.latestReputerScores (topicId, a)
        = some { TopicId := topicId, BlockNumber := block, Address := A.String a,
                 Score := sc }) := by
  induction l generalizing i acc ctx with
  | nil =>
    simp only [insertReputerScores, Prod.mk.injEq, Outcome.returned.injEq, and_true] at h
    obtain ⟨-, rfl⟩ := h
    refine ⟨fun _ _ => ⟨rfl, rfl⟩, fun _ hx => hx, ?_⟩
    intro _ j a c sc hj
    simp at hj
  | cons a0 rest ih =>
    cases hc : newCoefficients[i]? with
    | none => simp [insertReputerScores, hc] at h
    | some c0 =>
    cases hs : scores[i]? with
    | none => simp [insertReputerScores, hc, hs, memKeeper] at h
    | some sc0 =>
      simp only [insertReputerScores, hc, hs, memKeeper] at h
      obtain ⟨hframe, hhist, hmain⟩ := ih (i + 1) _ _ h
      refine ⟨?_, ?_, ?_⟩
      · intro a ha
        have hne : a ≠ a0 := fun e => ha (e ▸ List.mem_cons_self _ _)
        have hrest : a ∉ rest := fun hm => ha (List.mem_cons_of_mem _ hm)
        have hkey : (topicId, a) ≠ (topicId, a0) := fun e => hne (Prod.mk.inj e).2
        obtain ⟨f1, f2⟩ := hframe a hrest
        exact ⟨f1.trans (getSlot_setSlot_ne _ _ _ _ hkey),
          f2.trans (getSlot_setSlot_ne _ _ _ _ hkey)⟩
      · intro x hx
        exact hhist x (List.mem_append_left _ hx)
      · intro hnodup j a c sc hj hcj hsj
        obtain ⟨hnot, hnodup'⟩ := List.nodup_cons.1 hnodup
        cases j with
        | zero =>
          simp only [List.getElem?_cons_zero, Option.some.injEq] at hj
          subst hj
          simp only [Nat.add_zero] at hcj hsj
          rw [hc] at hcj
          rw [hs] at hsj
          cases hcj
          cases hsj
          obtain ⟨f1, f2⟩ := hframe a0 hnot
          refine ⟨f1.trans (getSlot_setSlot_self _ _ _), ?_, f2.trans (getSlot_setSlot_self _ _ _)⟩
          exact hhist _ (List.mem_append_right _ (List.mem_singleton_self _))
        | succ j =>
          simp only [List.getElem?_cons_succ] at hj
          have e : i + (j + 1) = i + 1 + j := by omega
          rw [e] at hcj hsj
          exact hmain hnodup' j a c sc hj hcj hsj

/-- Two position-wise relations compose position-wise. -/
theorem forall₂_trans_imp {X Y Z : Type} (R1 : X → Y → Prop) (R2 : Y → Z → Prop)
    (R3 : X → Z → Prop) (himp : ∀ x y z, R1 x y → R2 y z → R3 x z)
    (xs : List X) (ys : List Y) (zs : List Z)
    (h1 : List.Forall₂ R1 xs ys) (h2 : List.Forall₂ R2 ys zs) : List.Forall₂ R3 xs zs := by
  induction h1 generalizing zs with
  | nil =>
    cases h2
    exact List.Forall₂.nil
  | @cons x y xs ys hxy _ ih =>
    cases h2 with
    | cons hyz htail => exact List.Forall₂.cons (himp x y _ hxy hyz) (ih _ htail)

/-- C19. Reputer outputs on success: a call of `GenerateReputerScores` that returns
without error returns exactly one score per submitted bundle, in submission order,
the `i`-th with the address of the `i`-th reputer, the given topic and block and the
`i`-th score computed by `GetAllReputersOutput`, which has returned (at least) one
score and one coefficient per bundle. Afterwards, in a batch with one bundle per
reputer, as in the data model (the reputer addresses `addrs` are pairwise distinct),
for every reputer `i` the stored listening coefficient is the `i`-th new coefficient,
the reputer score history at (topic, block) contains the `i`-th score and the latest
reputer score slot holds it. -/
theorem GenerateReputerScores_outputs {Dec : Type} (D : DecOps Dec) (A : AddrOps String)
    (R : ReputerOps Dec) (first : Dec) (ρ : RangeOrder) (ctx ctx' : Store Dec)
    (topicId : Nat) (block : Int) (reportedLosses : ReputerValueBundles Dec)
    (newScores : List (Score Dec))
    (hrun : GenerateReputerScores D A R (memKeeper first) ρ ctx topicId block reportedLosses
      = (.returned newScores none, ctx')) :
    ∃ (addrs : List String) (scores newCoefficients : List Dec),
      List.Forall₂ (fun b a => A.AccAddressFromBech32 b.ValueBundle.Reputer = .ok a)
        reportedLosses.ReputerValueBundles addrs ∧
      (∃ stakes coefficients,
        R.GetAllReputersOutput
          ((ensureWorkerPresence D ρ reportedLosses).ReputerValueBundles.map
            (fun b => R.ExtractValues b.ValueBundle))
          stakes coefficients (reportedLosses.ReputerValueBundles.length : Int)
          ctx.params.LearningRate ctx.params.GradientDescentMaxIters
            = .ok (scores, newCoefficients)) ∧
      newScores.length = reportedLosses.ReputerValueBundles.length ∧
      reportedLosses.ReputerValueBundles.length ≤ scores.length ∧
      reportedLosses.ReputerValueBundles.length ≤ newCoefficients.length ∧
      List.Forall₂
        (fun (p : String × Dec) sc =>
          sc = { TopicId := topicId, BlockNumber := block, Address := A.String p.1,
                 Score := p.2 })
        (addrs.zip scores) newScores ∧
      (addrs.Nodup → ∀ (i : Nat) a c sc, addrs[i]? = some a → newCoefficients[i]? = some c →
        scores[i]? = some sc →
        getSlot ctx'.listeningCoefficients (topicId, a) = some { Coefficient := c } ∧
        ((topicId, block),
          ({ TopicId := topicId, BlockNumber := block, Address := A.String a,
             Score := sc } : Score Dec)) ∈ ctx'.reputerScores ∧
        getSlot ctx'.latestReputerScores (topicId, a)
          = some { TopicId := topicId, BlockNumber := block, Address := A.String a,
                   Score := sc }) := by
  unfold GenerateReputerScores at hrun
  simp only [] at hrun
  cases hfetch : fetchReputers D A R (memKeeper first) ctx topicId
      (ensureWorkerPresence D ρ reportedLosses).ReputerValueBundles
      { reputerAddresses := [], reputerStakes := [], reputerListeningCoefficients := [],
        losses := [] } with
  | error e => simp [hfetch] at hrun
  | ok data =>
  obtain ⟨addrs, stakes, h1, h2, h3, h4, h5⟩ :=
    fetchReputers_ok D A R (memKeeper first) ctx topicId _ _ data hfetch
  simp only [List.nil_append] at h1 h2 h3
  have hparams : (memKeeper first).GetParams ctx = .ok ctx.params := rfl
  have hpadlen : (ensureWorkerPresence D ρ reportedLosses).ReputerValueBundles.length
      = reportedLosses.ReputerValueBundles.length :=
    (forall₂_padBundles D ρ _ _ _ 0 reportedLosses.ReputerValueBundles).length_eq.symm
  have hstakes : data.reputerStakes.length = reportedLosses.ReputerValueBundles.length := by
    rw [h2, h4, hpadlen]
  have haddrs : addrs.length = reportedLosses.ReputerValueBundles.length := by
    rw [← h5.length_eq, hpadlen]
  cases hg : R.GetAllReputersOutput data.losses data.reputerStakes
      data.reputerListeningCoefficients (data.reputerStakes.length : Int)
      ctx.params.LearningRate ctx.params.GradientDescentMaxIters with
  | error e => simp [hfetch, hparams, hg] at hrun
  | ok pr =>
  obtain ⟨scores, newCoefficients⟩ := pr
  simp only [hfetch, hparams, hg] at hrun
  rw [h1] at hrun
  obtain ⟨new, hout, hlen, hb, hb', hall⟩ :=
    insertReputerScores_returned A (memKeeper first) topicId block scores newCoefficients
      addrs 0 [] ctx newScores ctx' (Nat.zero_le _) (Nat.zero_le _) hrun
  obtain ⟨-, -, hmain⟩ :=
    insertReputerScores_memKeeper_store A first topicId block scores newCoefficients
      addrs 0 [] ctx newScores ctx' hrun
  simp only [List.nil_append] at hout
  subst hout
  simp only [Nat.zero_add, List.drop_zero] at hb hb' hall
  refine ⟨addrs, scores, newCoefficients, ?_, ?_, ?_, ?_, ?_, hall, ?_⟩
  · exact forall₂_trans_imp _ _ _
      (fun b b' a hbb hba => by
        obtain ⟨k, rfl⟩ := hbb
        exact hba)
      _ _ _ (forall₂_padBundles D ρ _ _ _ 0 reportedLosses.ReputerValueBundles) h5
  · refine ⟨data.reputerStakes, data.reputerListeningCoefficients, ?_⟩
    rw [← h3, ← hstakes]
    exact hg
  · rw [hlen, haddrs]
  · rw [← haddrs]
    exact hb
  · rw [← haddrs]
    exact hb'
  · intro hnodup i a c sc hi hc hs
    have := hmain hnodup i a c sc hi (by simpa using hc) (by simpa using hs)
    exact this

/-- The successful batch `twoReputers`: two scores, for `r1` and `r2`, and after the
call the coefficient, the history row and the latest score of each reputer. -/
theorem GenerateReputerScores_outputs_witness :
    GenerateReputerScores intDec plainAddr sampleReputerOps (memKeeper (some 1)) inOrder
        (emptyStore (some 1)) 0 1 twoReputers
      = (.returned
          [ { TopicId := 0, BlockNumber := 1, Address := "r1", Score := some 0 },
            { TopicId := 0, BlockNumber := 1, Address := "r2", Score := some 0 } ] none,
         (GenerateReputerScores intDec plainAddr sampleReputerOps (memKeeper (some 1)) inOrder
           (emptyStore (some 1)) 0 1 twoReputers).2) ∧
    ∃ (addrs : List String) (scores newCoefficients : List (Option Int)),
      List.Forall₂ (fun b a => plainAddr.AccAddressFromBech32 b.ValueBundle.Reputer = .ok a)
        twoReputers.ReputerValueBundles addrs ∧
      (∃ stakes coefficients,
        sampleReputerOps.GetAllReputersOutput
          ((ensureWorkerPresence intDec inOrder twoReputers).ReputerValueBundles.map
            (fun b => sampleReputerOps.ExtractValues b.ValueBundle))
          stakes coefficients (twoReputers.ReputerValueBundles.length : Int)
          (emptyStore (some (1 : Int))).params.LearningRate
          (emptyStore (some (1 : Int))).params.GradientDescentMaxIters
            = .ok (scores, newCoefficients)) ∧
      ([ { TopicId := 0, BlockNumber := 1, Address := "r1", Score := some 0 },
         { TopicId := 0, BlockNumber := 1, Address := "r2", Score := some 0 } ] :
          List (Score (Option Int))).length = twoReputers.ReputerValueBundles.length ∧
      twoReputers.ReputerValueBundles.length ≤ scores.length ∧
      twoReputers.ReputerValueBundles.length ≤ newCoefficients.length ∧
      List.Forall₂
        (fun (p : String × Option Int) (sc : Score (Option Int)) =>
          sc = { TopicId := 0, BlockNumber := 1, Address := plainAddr.String p.1,
                 Score := p.2 })
        (addrs.zip scores)
        [ { TopicId := 0, BlockNumber := 1, Address := "r1", Score := some 0 },
          { TopicId := 0, BlockNumber := 1, Address := "r2", Score := some 0 } ] ∧
      (addrs.Nodup → ∀ (i : Nat) a c sc, addrs[i]? = some a → newCoefficients[i]? = some c →
        scores[i]? = some sc →
        getSlot
            (GenerateReputerScores intDec plainAddr sampleReputerOps (memKeeper (some 1))
              inOrder (emptyStore (some 1)) 0 1 twoReputers).2.listeningCoefficients (0, a)
          = some { Coefficient := c } ∧
        ((0, 1),
          ({ TopicId := 0, BlockNumber := 1, Address := plainAddr.String a,
             Score := sc } : Score (Option Int))) ∈
          (GenerateReputerScores intDec plainAddr sampleReputerOps (memKeeper (some 1))
            inOrder (emptyStore (some 1)) 0 1 twoReputers).2.reputerScores ∧
        getSlot
            (GenerateReputerScores intDec plainAddr sampleReputerOps (memKeeper (some 1))
              inOrder (emptyStore (some 1)) 0 1 twoReputers).2.latestReputerScores (0, a)
          = some { TopicId := 0, BlockNumber := 1, Address := plainAddr.String a,
                   Score := sc }) :=
  ⟨by decide,
    GenerateReputerScores_outputs intDec plainAddr sampleReputerOps (some 1) inOrder
      (emptyStore (some 1)) _ 0 1 twoReputers _ (by decide)⟩

/-! ## Claims on the wrapping of errors -/

/-- When the first loop of `GenerateReputerScores` returns an error, it has read the
bundles before some bundle `k` without error and its pass on bundle `k` fails. -/
theorem fetchReputers_fails {σ Dec Addr : Type} (D : DecOps Dec) (A : AddrOps Addr)
    (R : ReputerOps Dec) (keeper : Keeper σ Dec Addr) (ctx : σ) (topicId : Nat)
    (l : List (ReputerValueBundle Dec)) (data : ReputerData Dec Addr) (err : Error)
    (h : fetchReputers D A R keeper ctx topicId l data = .error err) :
    ∃ k reportedLoss dataK,
      l[k]? = some reportedLoss ∧
      fetchReputers D A R keeper ctx topicId (l.take k) data = .ok dataK ∧
      ReputerFetchFails D A keeper ctx topicId reportedLoss err := by
  induction l generalizing data with
  | nil => simp [fetchReputers] at h
  | cons b rest ih =>
    have hzero : fetchReputers D A R keeper ctx topicId ((b :: rest).take 0) data
        = .ok data := by
      simp [fetchReputers]
    cases ha : A.AccAddressFromBech32 b.ValueBundle.Reputer with
    | error e =>
      simp only [fetchReputers, ha, Except.error.injEq] at h
      subst h
      exact ⟨0, b, data, List.getElem?_cons_zero, hzero, Or.inl ha⟩
    | ok a =>
    cases hs : keeper.GetStakeOnReputerInTopic ctx topicId a with
    | error e =>
      simp only [fetchReputers, ha, hs, Except.error.injEq] at h
      exact ⟨0, b, data, List.getElem?_cons_zero, hzero,
        Or.inr ⟨a, ha, Or.inl ⟨e, hs, h.symm⟩⟩⟩
    | ok stake =>
    cases hd : D.NewDecFromSdkUint stake with
    | error e =>
      simp only [fetchReputers, ha, hs, hd, Except.error.injEq] at h
      exact ⟨0, b, data, List.getElem?_cons_zero, hzero,
        Or.inr ⟨a, ha, Or.inr ⟨stake, hs, Or.inl ⟨e, hd, h.symm⟩⟩⟩⟩
    | ok stakeDec =>
    cases hc : keeper.GetListeningCoefficient ctx topicId a with
    | error e =>
      simp only [fetchReputers, ha, hs, hd, hc, Except.error.injEq] at h
      exact ⟨0, b, data, List.getElem?_cons_zero, hzero,
        Or.inr ⟨a, ha, Or.inr ⟨stake, hs, Or.inr ⟨stakeDec, e, hd, hc, h.symm⟩⟩⟩⟩
    | ok res =>
      simp only [fetchReputers, ha, hs, hd, hc] at h
      obtain ⟨k, b', dataK, hk, hrun, hstep⟩ := ih _ h
      refine ⟨k + 1, b', dataK, by simpa using hk, ?_, hstep⟩
      simp only [List.take_succ_cons, fetchReputers, ha, hs, hd, hc, hrun]

/-- When the second loop of `GenerateReputerScores` returns an error, it has written
for the addresses before some address `k` without error and its pass on address `k`
fails. -/
theorem insertReputerScores_fails {σ Dec Addr : Type} (A : AddrOps Addr)
    (keeper : Keeper σ Dec Addr) (topicId : Nat) (block : Int)
    (scores newCoefficients : List Dec) (l : List Addr) (i : Nat) (acc : List (Score Dec))
    (ctx : σ) (out : List (Score Dec)) (err : Error) (ctx' : σ)
    (h : insertReputerScores A keeper topicId block scores newCoefficients i l acc ctx
      = (.returned out (some err), ctx')) :
    ∃ k reputerAddr scoresK ctxK,
      l[k]? = some reputerAddr ∧
      insertReputerScores A keeper topicId block scores newCoefficients i (l.take k) acc ctx
        = (.returned scoresK none, ctxK) ∧
      ReputerInsertFails A keeper topicId block scores newCoefficients (i + k) reputerAddr
        ctxK err := by
  induction l generalizing i acc ctx with
  | nil => simp [insertReputerScores] at h
  | cons a rest ih =>
    have hzero : insertReputerScores A keeper topicId block scores newCoefficients i
        ((a :: rest).take 0) acc ctx = (.returned acc none, ctx) := by
      simp [insertReputerScores]
    cases hc : newCoefficients[i]? with
    | none => simp [insertReputerScores, hc] at h
    | some c =>
    cases h1 : keeper.SetListeningCoefficient ctx topicId a { Coefficient := c } with
    | error e =>
      simp only [insertReputerScores, hc, h1, Prod.mk.injEq, Outcome.returned.injEq,
        Option.some.injEq] at h
      obtain ⟨⟨-, rfl⟩, -⟩ := h
      exact ⟨0, a, acc, ctx, List.getElem?_cons_zero, hzero, c, hc, Or.inl ⟨e, h1, rfl⟩⟩
    | ok ctx1 =>
    cases hs : scores[i]? with
    | none => simp [insertReputerScores, hc, h1, hs] at h
    | some sc =>
    cases h2 : keeper.InsertReputerScore ctx1 topicId block
        { TopicId := topicId, BlockNumber := block, Address := A.String a, Score := sc } with
    | error e =>
      simp only [insertReputerScores, hc, h1, hs, h2, Prod.mk.injEq, Outcome.returned.injEq,
        Option.some.injEq] at h
      obtain ⟨⟨-, rfl⟩, -⟩ := h
      exact ⟨0, a, acc, ctx, List.getElem?_cons_zero, hzero, c, hc,
        Or.inr ⟨ctx1, sc, h1, hs, Or.inl ⟨e, h2, rfl⟩⟩⟩
    | ok ctx2 =>
    cases h3 : keeper.SetLatestReputerScore ctx2 topicId a
        { TopicId := topicId, BlockNumber := block, Address := A.String a, Score := sc } with
    | error e =>
      simp only [insertReputerScores, hc, h1, hs, h2, h3, Prod.mk.injEq,
        Outcome.returned.injEq, Option.some.injEq] at h
      obtain ⟨⟨-, rfl⟩, -⟩ := h
      exact ⟨0, a, acc, ctx, List.getElem?_cons_zero, hzero, c, hc,
        Or.inr ⟨ctx1, sc, h1, hs, Or.inr ⟨ctx2, e, h2, h3, rfl⟩⟩⟩
    | ok ctx3 =>
      simp only [insertReputerScores, hc, h1, hs, h2, h3] at h
      obtain ⟨k, a', scoresK, ctxK, hk, hrun, hstep⟩ := ih (i + 1) _ ctx3 h
      have e : i + 1 + k = i + (k + 1) := by omega
      rw [e] at hstep
      refine ⟨k + 1, a', scoresK, ctxK, by simpa using hk, ?_, hstep⟩
      simp only [List.take_succ_cons, insertReputerScores, hc, h1, hs, h2, h3, hrun]

/-- C21, as stated, fails: on `secondWorkerMalformed` and on `secondReputerMalformed`
the error returned is the error of the address decoder as it is, not an error wrapped
with the message of a sub-step. -/
theorem address_error_returned_unwrapped :
    (GenerateInferenceScores intDec plainAddr (memKeeper (some 1)) (emptyStore (some 1)) 0 1
        secondWorkerMalformed).1
      = .returned [] (some (.root "empty address string is not allowed")) ∧
    (GenerateReputerScores intDec plainAddr sampleReputerOps (memKeeper (some 1)) inOrder
        (emptyStore (some 1)) 0 1 secondReputerMalformed).1
      = .returned [] (some (.root "empty address string is not allowed")) ∧
    (GenerateForecastScores termDec plainAddr termForecast (memKeeper (.lit 1))
        (emptyStore (.lit 1)) 0 1 secondEntriesMalformed).1
      = .returned [] (some (.root "empty address string is not allowed")) ∧
    ¬ Wrapped (.root "empty address string is not allowed") := by
  refine ⟨?_, ?_, ?_, ?_⟩
  · decide
  · decide
  · decide
  · rintro ⟨e, msg, h, -⟩
    cases h

/-- C21, amended. Every error returned by `GenerateReputerScores`,
`GenerateInferenceScores` and `GenerateForecastScores` comes from the one sub-step
that failed, and it is the error `e` which that sub-step reported, wrapped with the
message that scores.go gives to that very sub-step (`errors.Wrapf(e, message)`);
except when the failing sub-step is the decoding of an address (of the reputer of a
bundle, or of the worker of an entry of `OneOutInfererValues` or of
`OneInForecasterValues`): that error is returned as the decoder reports it. The
predicates `ReputerCallFails`, `InferenceCallFails` and `ForecastCallFails` list,
sub-step by sub-step, the failing call and the message of its error. -/
theorem returned_errors_wrapped_or_decoder :
    (∀ {σ Dec Addr : Type} (D : DecOps Dec) (A : AddrOps Addr) (R : ReputerOps Dec)
        (keeper : Keeper σ Dec Addr) (ρ : RangeOrder) (ctx : σ) (topicId : Nat) (block : Int)
        (reportedLosses : ReputerValueBundles Dec) (scores : List (Score Dec)) (err : Error)
        (ctx' : σ),
      GenerateReputerScores D A R keeper ρ ctx topicId block reportedLosses
        = (.returned scores (some err), ctx') →
      ReputerCallFails D A R keeper ρ ctx topicId block reportedLosses err) ∧
    (∀ {σ Dec Addr : Type} (D : DecOps Dec) (A : AddrOps Addr) (keeper : Keeper σ Dec Addr)
        (ctx : σ) (topicId : Nat) (block : Int) (networkLosses : ValueBundle Dec)
        (scores : List (Score Dec)) (err : Error) (ctx' : σ),
      GenerateInferenceScores D A keeper ctx topicId block networkLosses
        = (.returned scores (some err), ctx') →
      InferenceCallFails D A keeper ctx topicId block networkLosses err) ∧
    (∀ {σ Dec Addr : Type} (D : DecOps Dec) (A : AddrOps Addr) (R : ForecastOps Dec)
        (keeper : Keeper σ Dec Addr) (ctx : σ) (topicId : Nat) (block : Int)
        (networkLosses : ValueBundle Dec) (scores : List (Score Dec)) (err : Error) (ctx' : σ),
      GenerateForecastScores D A R keeper ctx topicId block networkLosses
        = (.returned scores (some err), ctx') →
      ForecastCallFails D A R keeper ctx topicId block networkLosses err) := by
  refine ⟨?_, ?_, ?_⟩
  · intro σ Dec Addr D A R keeper ρ ctx topicId block reportedLosses scores err ctx' h
    unfold GenerateReputerScores at h
    simp only [] at h
    cases hfetch : fetchReputers D A R keeper ctx topicId
        (ensureWorkerPresence D ρ reportedLosses).ReputerValueBundles
        { reputerAddresses := [], reputerStakes := [], reputerListeningCoefficients := [],
          losses := [] } with
    | error e =>
      simp only [hfetch, Prod.mk.injEq, Outcome.returned.injEq, Option.some.injEq] at h
      obtain ⟨⟨-, rfl⟩, -⟩ := h
      exact Or.inl (fetchReputers_fails D A R keeper ctx topicId _ _ e hfetch)
    | ok data =>
      refine Or.inr ⟨data, hfetch, ?_⟩
      cases hp : keeper.GetParams ctx with
      | error e =>
        simp only [hfetch, hp, Prod.mk.injEq, Outcome.returned.injEq, Option.some.injEq] at h
        obtain ⟨⟨-, rfl⟩, -⟩ := h
        exact Or.inl ⟨e, rfl, rfl⟩
      | ok params =>
        refine Or.inr ⟨params, rfl, ?_⟩
        cases hg : R.GetAllReputersOutput data.losses data.reputerStakes
            data.reputerListeningCoefficients (data.reputerStakes.length : Int)
            params.LearningRate params.GradientDescentMaxIters with
        | error e =>
          simp only [hfetch, hp, hg, Prod.mk.injEq, Outcome.returned.injEq,
            Option.some.injEq] at h
          obtain ⟨⟨-, rfl⟩, -⟩ := h
          exact Or.inl ⟨e, rfl, rfl⟩
        | ok pr =>
          obtain ⟨sc, nc⟩ := pr
          simp only [hfetch, hp, hg] at h
          obtain ⟨k, a, scoresK, ctxK, hk, hrun, hstep⟩ :=
            insertReputerScores_fails A keeper topicId block sc nc _ 0 [] ctx scores err
              ctx' h
          simp only [Nat.zero_add] at hstep
          exact Or.inr ⟨sc, nc, rfl, k, a, scoresK, ctxK, hk, hrun, hstep⟩
  · intro σ Dec Addr D A keeper ctx topicId block networkLosses scores err ctx' h
    unfold GenerateInferenceScores at h
    by_cases hlen : networkLosses.InfererValues.length = 1
    · rw [if_pos hlen] at h
      cases hfirst : networkLosses.InfererValues[0]? with
      | none => simp [hfirst] at h
      | some first =>
        cases h1 : keeper.InsertWorkerInferenceScore ctx topicId block
            { TopicId := topicId, BlockNumber := block, Address := first.Worker,
              Score := D.ZeroDec } with
        | error e =>
          simp only [hfirst, h1, Prod.mk.injEq, Outcome.returned.injEq,
            Option.some.injEq] at h
          obtain ⟨⟨-, rfl⟩, -⟩ := h
          exact Or.inl ⟨hlen, first, e, hfirst, h1, rfl⟩
        | ok ctx1 => simp [hfirst, h1] at h
    · rw [if_neg hlen] at h
      obtain ⟨k, v, scoresK, ctxK, hk, hrun, -, hstep, -, -⟩ :=
        inferenceLoop_fails D A keeper topicId block networkLosses _ [] ctx scores err ctx' h
      exact Or.inr ⟨hlen, k, v, scoresK, ctxK, hk, hrun, hstep⟩
  · intro σ Dec Addr D A R keeper ctx topicId block networkLosses scores err ctx' h
    unfold GenerateForecastScores at h
    by_cases hlen : networkLosses.ForecasterValues.length = 1
    · rw [if_pos hlen] at h
      cases hfirst : networkLosses.InfererValues[0]? with
      | none => simp [hfirst] at h
      | some first =>
        cases h1 : keeper.InsertWorkerInferenceScore ctx topicId block
            { TopicId := topicId, BlockNumber := block, Address := first.Worker,
              Score := D.ZeroDec } with
        | error e =>
          simp only [hfirst, h1, Prod.mk.injEq, Outcome.returned.injEq,
            Option.some.injEq] at h
          obtain ⟨⟨-, rfl⟩, -⟩ := h
          exact Or.inl ⟨hlen, first, e, hfirst, h1, rfl⟩
        | ok ctx1 => simp [hfirst, h1] at h
    · rw [if_neg hlen] at h
      refine Or.inr ⟨hlen, ?_⟩
      cases hws : oneOutLoop D networkLosses networkLosses.OneOutForecasterValues [] with
      | error e =>
        simp only [hws, Prod.mk.injEq, Outcome.returned.injEq, Option.some.injEq] at h
        obtain ⟨⟨-, rfl⟩, -⟩ := h
        exact Or.inl (oneOutLoop_fails D networkLosses _ [] e hws)
      | ok ws =>
        refine Or.inr ⟨ws, rfl, ?_⟩
        cases hf : R.GetfUniqueAgg (D.NewDecFromInt64 (ws.length : Int)) with
        | error e =>
          simp only [hws, hf, Prod.mk.injEq, Outcome.returned.injEq, Option.some.injEq] at h
          obtain ⟨⟨-, rfl⟩, -⟩ := h
          exact Or.inl ⟨e, rfl, rfl⟩
        | ok f =>
          simp only [hws, hf] at h
          obtain ⟨k, v, scoresK, ctxK, hk, hrun, -, hstep, -, -⟩ :=
            forecastLoop_fails D A R keeper topicId block networkLosses ws f _ 0 [] ctx
              scores err ctx' h
          simp only [Nat.zero_add] at hstep
          exact Or.inr ⟨f, rfl, k, v, scoresK, ctxK, hk, hrun, hstep⟩

/-- Three failing calls: a reputer batch and a forecast bundle with a malformed
address, whose error is the one of the address decoder, and an inference bundle on a
keeper that fails to insert, whose error is the one of the insert, wrapped with the
message of the insert. -/
theorem returned_errors_wrapped_or_decoder_witness :
    (GenerateReputerScores intDec plainAddr sampleReputerOps (memKeeper (some 1)) inOrder
        (emptyStore (some 1)) 0 1 secondReputerMalformed
      = (.returned [] (some (.root "empty address string is not allowed")),
          emptyStore (some 1)) ∧
      ReputerCallFails intDec plainAddr sampleReputerOps (memKeeper (some 1)) inOrder
        (emptyStore (some 1)) 0 1 secondReputerMalformed
        (.root "empty address string is not allowed")) ∧
    (GenerateInferenceScores intDec plainAddr (failingInsertKeeper (some 1))
        (emptyStore (some 1)) 0 1 twoInferers
      = (.returned []
          (some (.Wrapf (.root "store: write failed") "Error inserting worker inference score")),
          emptyStore (some 1)) ∧
      InferenceCallFails intDec plainAddr (failingInsertKeeper (some 1))
        (emptyStore (some 1)) 0 1 twoInferers
        (.Wrapf (.root "store: write failed") "Error inserting worker inference score")) ∧
    (GenerateForecastScores termDec plainAddr termForecast (memKeeper (.lit 1))
        (emptyStore (.lit 1)) 0 1 secondEntriesMalformed
      = (.returned [] (some (.root "empty address string is not allowed")),
          storeWithFirstForecaster) ∧
      ForecastCallFails termDec plainAddr termForecast (memKeeper (.lit 1))
        (emptyStore (.lit 1)) 0 1 secondEntriesMalformed
        (.root "empty address string is not allowed")) :=
  ⟨⟨by decide,
      returned_errors_wrapped_or_decoder.1 intDec plainAddr sampleReputerOps
        (memKeeper (some 1)) inOrder (emptyStore (some 1)) 0 1 secondReputerMalformed []
        (.root "empty address string is not allowed") (emptyStore (some 1)) (by decide)⟩,
    ⟨by decide,
      returned_errors_wrapped_or_decoder.2.1 intDec plainAddr (failingInsertKeeper (some 1))
        (emptyStore (some 1)) 0 1 twoInferers []
        (.Wrapf (.root "store: write failed") "Error inserting worker inference score")
        (emptyStore (some 1)) (by decide)⟩,
    ⟨by decide,
      returned_errors_wrapped_or_decoder.2.2 termDec plainAddr termForecast
        (memKeeper (.lit 1)) (emptyStore (.lit 1)) 0 1 secondEntriesMalformed []
        (.root "empty address string is not allowed") storeWithFirstForecaster
        (by decide)⟩⟩

/-! ## Claims on the width of the normalized rows -/

/-- A duplicate-free list with the keys of all selected lists has as many entries as
there are distinct keys in them. -/
theorem length_eq_distinct {β : Type} (sel : β → List String) (bundles : List β)
    (all : List String) (hall : all.Nodup)
    (hmem : ∀ w, w ∈ all ↔ ∃ b ∈ bundles, w ∈ sel b) :
    all.length = ((bundles.flatMap sel).dedup).length := by
  apply List.Perm.length_eq
  refine (List.perm_ext_iff_of_nodup hall (List.nodup_dedup _)).2 ?_
  intro w
  rw [hmem w, List.mem_dedup, List.mem_flatMap]

/-- C22. Uniform row width: after `ensureWorkerPresence` on a collection in which no
list contains the same worker key twice, every bundle's list of a category has as
many entries as there are distinct worker keys of that category across all input
bundles, so all bundles have lists of equal length in each of the three categories.
When a list contains a key twice the lengths can differ: in `duplicateKey` the first
reputer lists `x` twice, and the padded one-out inferer lists have 3 and 2 entries. -/
theorem normalized_rows_uniform_width {Dec : Type} (D : DecOps Dec) (ρ : RangeOrder)
    (hρ : ρ.Valid) (reportedLosses : ReputerValueBundles Dec)
    (hnodup : ∀ b ∈ reportedLosses.ReputerValueBundles,
      (b.ValueBundle.OneOutInfererValues.map (fun value => value.Worker)).Nodup ∧
      (b.ValueBundle.OneOutForecasterValues.map (fun value => value.Worker)).Nodup ∧
      (b.ValueBundle.OneInForecasterValues.map (fun value => value.Worker)).Nodup) :
    (∀ b' ∈ (ensureWorkerPresence D ρ reportedLosses).ReputerValueBundles,
      b'.ValueBundle.OneOutInfererValues.length
        = ((reportedLosses.ReputerValueBundles.flatMap
            (fun b => b.ValueBundle.OneOutInfererValues.map
              (fun value => value.Worker))).dedup).length ∧
      b'.ValueBundle.OneOutForecasterValues.length
        = ((reportedLosses.ReputerValueBundles.flatMap
            (fun b => b.ValueBundle.OneOutForecasterValues.map
              (fun value => value.Worker))).dedup).length ∧
      b'.ValueBundle.OneInForecasterValues.length
        = ((reportedLosses.ReputerValueBundles.flatMap
            (fun b => b.ValueBundle.OneInForecasterValues.map
              (fun value => value.Worker))).dedup).length) ∧
    (¬ ((sampleBundle "r1"
          [{ Worker := "x", Value := some 1 }, { Worker := "x", Value := some 2 }] []
          []).ValueBundle.OneOutInfererValues.map (fun value => value.Worker)).Nodup ∧
      (ensureWorkerPresence intDec inOrder duplicateKey).ReputerValueBundles.map
          (fun b => b.ValueBundle.OneOutInfererValues.length) = [3, 2] ∧
      (ensureWorkerPresence intDec reversed duplicateKey).ReputerValueBundles.map
          (fun b => b.ValueBundle.OneOutInfererValues.length) = [3, 2]) := by
  constructor
  · intro b' hb'
    obtain ⟨p1, p2, p3⟩ := keys_perm_collectWorkers D ρ hρ reportedLosses hnodup b' hb'
    obtain ⟨n1, n2, n3⟩ := nodup_collectWorkers reportedLosses.ReputerValueBundles
    have l1 := p1.length_eq
    have l2 := p2.length_eq
    have l3 := p3.length_eq
    simp only [List.length_map] at l1 l2 l3
    refine ⟨?_, ?_, ?_⟩
    · rw [l1]
      exact length_eq_distinct _ _ _ n1 (fun w => (mem_collectWorkers _ w).1)
    · rw [l2]
      exact length_eq_distinct _ _ _ n2 (fun w => (mem_collectWorkers _ w).2.1)
    · rw [l3]
      exact length_eq_distinct _ _ _ n3 (fun w => (mem_collectWorkers _ w).2.2)
  · refine ⟨?_, ?_, ?_⟩
    · decide
    · decide
    · decide

/-- The rows of the padded collection `twoReputers`: two one-out inferer entries, two
one-out forecaster entries and two one-in forecaster entries in each bundle, as many
as there are distinct workers in each category. -/
theorem normalized_rows_uniform_width_witness :
    RangeOrder.Valid reversed ∧
    (∀ b ∈ twoReputers.ReputerValueBundles,
      (b.ValueBundle.OneOutInfererValues.map (fun value => value.Worker)).Nodup ∧
      (b.ValueBundle.OneOutForecasterValues.map (fun value => value.Worker)).Nodup ∧
      (b.ValueBundle.OneInForecasterValues.map (fun value => value.Worker)).Nodup) ∧
    (ensureWorkerPresence intDec reversed twoReputers).ReputerValueBundles.map
        (fun b => (b.ValueBundle.OneOutInfererValues.length,
          b.ValueBundle.OneOutForecasterValues.length,
          b.ValueBundle.OneInForecasterValues.length)) = [(2, 2, 2), (2, 2, 2)] ∧
    (∀ b' ∈ (ensureWorkerPresence intDec reversed twoReputers).ReputerValueBundles,
      b'.ValueBundle.OneOutInfererValues.length
        = ((twoReputers.ReputerValueBundles.flatMap
            (fun b => b.ValueBundle.OneOutInfererValues.map
              (fun value => value.Worker))).dedup).length ∧
      b'.ValueBundle.OneOutForecasterValues.length
        = ((twoReputers.ReputerValueBundles.flatMap
            (fun b => b.ValueBundle.OneOutForecasterValues.map
              (fun value => value.Worker))).dedup).length ∧
      b'.ValueBundle.OneInForecasterValues.length
        = ((twoReputers.ReputerValueBundles.flatMap
            (fun b => b.ValueBundle.OneInForecasterValues.map
              (fun value => value.Worker))).dedup).length) :=
  ⟨reversed_valid, twoReputers_nodup, by decide,
    (normalized_rows_uniform_width intDec reversed reversed_valid twoReputers
      twoReputers_nodup).1⟩

/-! ## Claims on index safety -/

/-- The second loop of `GenerateForecastScores` does not panic when the one-out
scores reach as far as the loop goes. -/
theorem forecastLoop_no_panic {σ Dec Addr : Type} (D : DecOps Dec) (A : AddrOps Addr)
    (R : ForecastOps Dec) (keeper : Keeper σ Dec Addr) (topicId : Nat) (block : Int)
    (networkLosses : ValueBundle Dec) (ws : List Dec) (f : Dec)
    (l : List (WorkerAttributedValue Dec)) (i : Nat) (acc : List (Score Dec)) (ctx : σ)
    (hi : i + l.length ≤ ws.length) :
    (forecastLoop D A R keeper topicId block networkLosses ws f i l acc ctx).1
      ≠ .panicked := by
  induction l generalizing i acc ctx with
  | nil => simp [forecastLoop]
  | cons oneIn rest ih =>
    have hlt : i < ws.length := by
      simp only [List.length_cons] at hi
      omega
    have hy : ws[i]? = some ws[i] := List.getElem?_eq_getElem hlt
    cases ha : A.AccAddressFromBech32 oneIn.Worker with
    | error e => simp [forecastLoop, ha]
    | ok a =>
    cases hx : D.Sub oneIn.Value networkLosses.NaiveValue with
    | error e => simp [forecastLoop, ha, hx]
    | ok x =>
    cases hf : R.GetFinalWorkerScoreForecastTask x ws[i] f with
    | error e => simp [forecastLoop, ha, hx, hy, hf]
    | ok z =>
    cases h1 : keeper.InsertWorkerForecastScore ctx topicId block
        { TopicId := topicId, BlockNumber := block, Address := A.String a, Score := z } with
    | error e => simp [forecastLoop, ha, hx, hy, hf, h1]
    | ok ctx1 =>
    cases h2 : keeper.SetLatestForecasterScore ctx1 topicId a
        { TopicId := topicId, BlockNumber := block, Address := A.String a, Score := z } with
    | error e => simp [forecastLoop, ha, hx, hy, hf, h1, h2]
    | ok ctx2 =>
      simp only [forecastLoop, ha, hx, hy, hf, h1, h2]
      apply ih
      simp only [List.length_cons] at hi
      omega

/-- C23. Index safety of forecast scoring: `GenerateForecastScores` does not panic
with an index out of range provided that (a) when `ForecasterValues` has exactly one
entry, `InfererValues` is not empty, and (b) otherwise `OneInForecasterValues` has at
most as many entries as `OneOutForecasterValues`. Outside these conditions there are
bundles on which it panics: `soleForecasterNoInferer` at `InfererValues[0]`, and
`threeOneInTwoOneOut` at `workersScoresOneOut[2]`. -/
theorem GenerateForecastScores_index_safe {σ Dec Addr : Type} (D : DecOps Dec)
    (A : AddrOps Addr) (R : ForecastOps Dec) (keeper : Keeper σ Dec Addr) (ctx : σ)
    (topicId : Nat) (block : Int) (networkLosses : ValueBundle Dec)
    (ha : networkLosses.ForecasterValues.length = 1 → networkLosses.InfererValues ≠ [])
    (hb : networkLosses.ForecasterValues.length ≠ 1 →
      networkLosses.OneInForecasterValues.length
        ≤ networkLosses.OneOutForecasterValues.length) :
    (GenerateForecastScores D A R keeper ctx topicId block networkLosses).1 ≠ .panicked ∧
    ((soleForecasterNoInferer.ForecasterValues.length = 1 ∧
        soleForecasterNoInferer.InfererValues = [] ∧
        (GenerateForecastScores termDec plainAddr termForecast (memKeeper (.lit 1))
          (emptyStore (.lit 1)) 0 1 soleForecasterNoInferer).1 = .panicked) ∧
      (threeOneInTwoOneOut.ForecasterValues.length ≠ 1 ∧
        threeOneInTwoOneOut.OneOutForecasterValues.length
          < threeOneInTwoOneOut.OneInForecasterValues.length ∧
        (GenerateForecastScores termDec plainAddr termForecast (memKeeper (.lit 1))
          (emptyStore (.lit 1)) 0 1 threeOneInTwoOneOut).1 = .panicked)) := by
  constructor
  · unfold GenerateForecastScores
    by_cases hlen : networkLosses.ForecasterValues.length = 1
    · rw [if_pos hlen]
      cases hinf : networkLosses.InfererValues with
      | nil => exact absurd hinf (ha hlen)
      | cons first rest =>
        simp only [List.getElem?_cons_zero]
        cases h1 : keeper.InsertWorkerInferenceScore ctx topicId block
            { TopicId := topicId, BlockNumber := block, Address := first.Worker,
              Score := D.ZeroDec } with
        | error e => simp
        | ok ctx1 => simp
    · rw [if_neg hlen]
      cases hws : oneOutLoop D networkLosses networkLosses.OneOutForecasterValues [] with
      | error e => simp
      | ok ws =>
        obtain ⟨new, hnew, hout⟩ := oneOutLoop_ok D networkLosses _ [] ws hws
        simp only [List.nil_append] at hnew
        subst hnew
        have hwslen : networkLosses.OneOutForecasterValues.length = ws.length :=
          hout.length_eq
        cases hf : R.GetfUniqueAgg (D.NewDecFromInt64 (ws.length : Int)) with
        | error e => simp [hf]
        | ok f =>
          simp only [hf]
          apply forecastLoop_no_panic
          have := hb hlen
          omega
  · refine ⟨⟨?_, ?_, ?_⟩, ⟨?_, ?_, ?_⟩⟩
    · decide
    · decide
    · decide
    · decide
    · decide
    · decide

/-- The bundle `crossedForecasters` meets the two conditions (two forecasters, two
one-out and two one-in entries) and its scoring returns. -/
theorem GenerateForecastScores_index_safe_witness :
    (crossedForecasters.ForecasterValues.length = 1 → crossedForecasters.InfererValues ≠ []) ∧
    (crossedForecasters.ForecasterValues.length ≠ 1 →
      crossedForecasters.OneInForecasterValues.length
        ≤ crossedForecasters.OneOutForecasterValues.length) ∧
    (GenerateForecastScores termDec plainAddr termForecast (memKeeper (.lit 1))
        (emptyStore (.lit 1)) 0 1 crossedForecasters).1 ≠ .panicked :=
  ⟨by decide, by decide,
    (GenerateForecastScores_index_safe termDec plainAddr termForecast (memKeeper (.lit 1))
      (emptyStore (.lit 1)) 0 1 crossedForecasters (by decide) (by decide)).1⟩

end Rewards
